import Mathlib

/-! The decoder core of mpd-android: control block, facade and decode session.

A shallow embedding of `src/DecoderControl.cxx` (the controller facade:
`IsCurrentSong`, `Start`, `Stop`, `Seek`, the mixramp setters) and of
`src/decoder_thread.c` (the decode session `decoder_run_song`, `decoder_run`
and the worker loop `decoder_task`).

Conventions of the embedding.

* Stateful code is explicit state passing over `decoder_control`.
* `assert(e)` is recorded, not enforced: every operation returns the list of
  the assertions that did not hold (`failed`).  A build with assertions stops
  at the first entry of that list; a build without them goes on exactly as
  embedded.  Where the code cannot go on (a call through a null function
  pointer such as `plugin->stream_decode == NULL`, a null song) the session
  has no result: `Except.error` with the reason (`Halt`).
* The other thread is a parameter.  For the facade it is the reaction of the
  decoder thread to a command; for the session it is the environment
  (`Env`): what the plugins do to the control block, what the input stream
  does, and which command the controller has written when the lock is taken.
* `double where` is a rational number (every finite double is one); the only
  operations on it are the comparison with zero and the store.
-/

namespace Mpd

/-! ## Data model -/

/-- The decoder state, `DecoderState` / `enum decoder_state`. -/
inductive DecoderState where
  | STOP
  | START
  | DECODE
  | ERROR
  deriving DecidableEq, Repr

/-- The pending command, `DecoderCommand` / `enum decoder_command`. -/
inductive DecoderCommand where
  | NONE
  | START
  | STOP
  | SEEK
  deriving DecidableEq, Repr

/-- Modelled from the spec: the song reference (`Song.hxx` / `song.h` are not
among the sources).  `file` is `song_is_file`, `uri` is the playable URI that
`map_song_fs` (file-backed songs) or `song_get_uri` (other songs) resolves
the song to, `none` when resolution fails. -/
structure Song where
  name : String
  file : Bool
  uri : Option String
  deriving DecidableEq, Repr

/-- The shared control block: the fields of `struct decoder_control` that the
two source files read or write.  `song` is the field set by `Start` (called
`next_song` in `decoder_thread.c`); `buffer` and `pipe` are handles. -/
structure decoder_control where
  state : DecoderState
  command : DecoderCommand
  quit : Bool
  song : Option Song
  current_song : Option Song
  start_ms : Nat
  end_ms : Nat
  buffer : Option Nat
  pipe : Option Nat
  seekable : Bool
  seek_where : Rat
  seek_error : Bool
  replay_gain_db : Rat
  replay_gain_prev_db : Rat
  mixramp_start : Option String
  mixramp_end : Option String
  mixramp_prev_end : Option String
  deriving DecidableEq

/-- The assertions of the two source files, by place. -/
inductive Assertion where
  | song_not_null          -- DecoderControl.cxx:53, 74
  | pipe_empty             -- DecoderControl.cxx:75
  | seek_state_not_start   -- DecoderControl.cxx:110
  | seek_where_nonneg      -- DecoderControl.cxx:111
  | stream_capability      -- decoder_thread.c:44
  | stream_ready           -- decoder_thread.c:49
  | stream_state_start     -- decoder_thread.c:50
  | stream_state_after     -- decoder_thread.c:61
  | file_capability        -- decoder_thread.c:72
  | file_state_start       -- decoder_thread.c:78
  | file_state_after       -- decoder_thread.c:86
  | declined_state_start   -- decoder_thread.c:174, 189
  | task_idle              -- decoder_thread.c:298
  deriving DecidableEq, Repr

/-- What a facade operation leaves behind: its return value, the control
block, the control block as it stood at each command it issued (oldest
first), the songs and strings it released (`Song::Free`, `g_free` of a
non-null pointer), and the assertions that did not hold. -/
structure Outcome (α : Type) where
  ret : α
  dc : decoder_control
  sent : List decoder_control
  freed_songs : List Song
  freed : List String
  failed : List Assertion

/-- The decoder thread as the facade sees it: given the commands issued so
far in this operation and the control block with the new command written,
the control block at the moment the caller wakes up. -/
abbrev Reaction := List decoder_control → decoder_control → decoder_control

/-! ## The facade, `DecoderControl.cxx` -/

/-- Modelled from the spec: `song_equals` (in `Song.cxx`, not among the
sources) compares the identity/equality of the held song with the given
one. -/
def song_equals (a b : Option Song) : Bool :=
  decide (a = b)

/-- Modelled from the spec: `SynchronousCommandLocked` (declared in
`DecoderControl.hxx`, not among the sources): the caller sets `command`,
signals, and blocks until `command` is `NONE` again.  `none` is a caller that
never wakes up. -/
def SynchronousCommandLocked (worker : Reaction) (sent : List decoder_control)
    (dc : decoder_control) (cmd : DecoderCommand) :
    Option (decoder_control × List decoder_control) :=
  let issued := { dc with command := cmd }
  let dc1 := worker sent issued
  if dc1.command = DecoderCommand.NONE then some (dc1, sent ++ [issued]) else none

/-- The method `decoder_control::IsCurrentSong`, DecoderControl.cxx:50-67. -/
def IsCurrentSong (dc : decoder_control) (_song : Option Song) : Outcome Bool :=
  let failed := if _song.isSome then [] else [Assertion.song_not_null]
  match dc.state with
  | DecoderState.STOP | DecoderState.ERROR =>
    { ret := false, dc := dc, sent := [], freed_songs := [], freed := [], failed := failed }
  | DecoderState.START | DecoderState.DECODE =>
    { ret := song_equals dc.song _song,
      dc := dc, sent := [], freed_songs := [], freed := [], failed := failed }

/-- The method `decoder_control::Seek`, DecoderControl.cxx:107-122. -/
def Seek (worker : Reaction) (dc : decoder_control) (where_ : Rat) :
    Option (Outcome Bool) :=
  let failed :=
    (if dc.state ≠ DecoderState.START then [] else [Assertion.seek_state_not_start]) ++
    (if where_ ≥ 0 then [] else [Assertion.seek_where_nonneg])
  if dc.state = DecoderState.STOP ∨ dc.state = DecoderState.ERROR ∨ dc.seekable = false then
    some { ret := false, dc := dc, sent := [], freed_songs := [], freed := [], failed := failed }
  else
    let dc1 := { dc with seek_where := where_, seek_error := false }
    match SynchronousCommandLocked worker [] dc1 DecoderCommand.SEEK with
    | none => none
    | some (dc2, sent) =>
      some { ret := !dc2.seek_error, dc := dc2, sent := sent, freed_songs := [], freed := [],
             failed := failed }

/-- The method `decoder_control::Start`, DecoderControl.cxx:69-87.
`pipe_is_empty` is the value of `_pipe.IsEmpty()`. -/
def Start (worker : Reaction) (dc : decoder_control) (_song : Option Song)
    (_start_ms _end_ms : Nat) (_buffer _pipe : Nat) (pipe_is_empty : Bool) :
    Option (Outcome Unit) :=
  let failed :=
    (if _song.isSome then [] else [Assertion.song_not_null]) ++
    (if pipe_is_empty then [] else [Assertion.pipe_empty])
  let freed_songs := dc.song.toList
  let dc1 := { dc with song := _song, start_ms := _start_ms, end_ms := _end_ms,
                       buffer := some _buffer, pipe := some _pipe }
  match SynchronousCommandLocked worker [] dc1 DecoderCommand.START with
  | none => none
  | some (dc2, sent) =>
    some { ret := (), dc := dc2, sent := sent, freed_songs := freed_songs, freed := [],
           failed := failed }

/-- The method `decoder_control::Stop`, DecoderControl.cxx:89-105. -/
def Stop (worker : Reaction) (dc : decoder_control) : Option (Outcome Unit) :=
  let first :=
    if dc.command ≠ DecoderCommand.NONE then
      SynchronousCommandLocked worker [] dc DecoderCommand.STOP
    else some (dc, [])
  match first with
  | none => none
  | some (dc1, sent1) =>
    let second :=
      if dc1.state ≠ DecoderState.STOP ∧ dc1.state ≠ DecoderState.ERROR then
        SynchronousCommandLocked worker sent1 dc1 DecoderCommand.STOP
      else some (dc1, sent1)
    match second with
    | none => none
    | some (dc2, sent2) =>
      some { ret := (), dc := dc2, sent := sent2, freed_songs := [], freed := [],
             failed := [] }

/-- The method `decoder_control::MixRampStart`, DecoderControl.cxx:136-141. -/
def MixRampStart (dc : decoder_control) (_mixramp_start : Option String) : Outcome Unit :=
  { ret := (), dc := { dc with mixramp_start := _mixramp_start }, sent := [],
    freed_songs := [], freed := dc.mixramp_start.toList, failed := [] }

/-- The method `decoder_control::MixRampEnd`, DecoderControl.cxx:143-148. -/
def MixRampEnd (dc : decoder_control) (_mixramp_end : Option String) : Outcome Unit :=
  { ret := (), dc := { dc with mixramp_end := _mixramp_end }, sent := [],
    freed_songs := [], freed := dc.mixramp_end.toList, failed := [] }

/-- The method `decoder_control::MixRampPrevEnd`, DecoderControl.cxx:150-155. -/
def MixRampPrevEnd (dc : decoder_control) (_mixramp_prev_end : Option String) :
    Outcome Unit :=
  { ret := (), dc := { dc with mixramp_prev_end := _mixramp_prev_end }, sent := [],
    freed_songs := [], freed := dc.mixramp_prev_end.toList, failed := [] }

/-! ## Plugins, input stream and environment of a session -/

/-- Modelled from the spec: the codec plugin descriptor (`decoder_plugin.h`
is not among the sources): name, advertised MIME types and suffixes, and
whether the two function pointers `stream_decode` and `file_decode` are
non-null. -/
structure decoder_plugin where
  name : String
  mime_types : List String
  suffixes : List String
  stream_decode : Bool
  file_decode : Bool
  deriving DecidableEq, Repr

/-- A plugin as the session holds it: the `const struct decoder_plugin *`,
that is its slot in the registry together with the descriptor there. -/
abbrev PluginRef := Nat × decoder_plugin

/-- Modelled from the spec: `decoder_plugin_from_mime_type(mime, next)`
(in `decoder_list.c`, not among the sources), called with
`next = 0, 1, 2, ...` until it returns NULL, yields the plugins advertising
the MIME type, in registry order; a NULL MIME type matches nothing. -/
def decoder_plugin_from_mime_type (registry : List decoder_plugin)
    (mime : Option String) : List PluginRef :=
  match mime with
  | none => []
  | some m => registry.enum.filter (fun p => decide (m ∈ p.2.mime_types))

/-- Modelled from the spec: `decoder_plugin_from_suffix(suffix, next)` (in
`decoder_list.c`, not among the sources), called with `next = 0, 1, 2, ...`
until it returns NULL, yields the plugins advertising the suffix, in
registry order; a NULL suffix matches nothing. -/
def decoder_plugin_from_suffix (registry : List decoder_plugin)
    (suffix : Option String) : List PluginRef :=
  match suffix with
  | none => []
  | some x => registry.enum.filter (fun p => decide (x ∈ p.2.suffixes))

/-- Modelled from the spec: `decoder_plugin_from_name(name)` (in
`decoder_list.c`, not among the sources) is the first registered plugin of
that name, NULL when there is none. -/
def decoder_plugin_from_name (registry : List decoder_plugin)
    (name : String) : Option PluginRef :=
  registry.enum.find? (fun p => decide (p.2.name = name))

/-- The two fields of `struct input_stream` the session reads. -/
structure input_stream where
  ready : Bool
  mime : Option String
  deriving DecidableEq, Repr

/-- What the session does to the outside, in order: taking the lock again
after having released it, opening, buffering and closing the input stream,
and the calls of `decoder_stream_decode` and `decoder_file_decode` that
reach the plugin (by registry slot, with the value the call returned). -/
inductive Event where
  | locked
  | opened (ok : Bool)
  | buffered (ok : Bool)
  | closed
  | stream (plugin : Nat) (ret : Bool)
  | file (plugin : Nat) (ret : Bool)
  deriving DecidableEq, Repr

/-- Everything a session does not decide itself, each as a function of what
the session has done so far.
* `input_stream_open`: the stream object after a successful open, `none` on
  failure.
* `input_stream_buffer`: the stream object after buffering, `none` when
  `input_stream_buffer` returns a negative value.
* `stream_decode`, `file_decode`: the control block when the plugin in that
  registry slot returns (the plugin runs with the lock released, so this
  includes what the controller wrote meanwhile).
* `controller`: the command found in the control block when the lock is
  taken again, given the command left there when it was released.
* `uri_get_suffix`: the function of `uri.c`, not among the sources.
* `decoder_wait`: the control block when the decoder thread, blocked in
  `decoder_wait` with nothing to do, is woken up: what the controller has
  written to it meanwhile. -/
structure Env where
  input_stream_open : List Event → String → Option input_stream
  input_stream_buffer : List Event → input_stream → Option input_stream
  stream_decode : List Event → Nat → decoder_control → decoder_control
  file_decode : List Event → Nat → decoder_control → decoder_control
  controller : List Event → DecoderCommand → DecoderCommand
  uri_get_suffix : String → Option String
  decoder_wait : decoder_control → decoder_control

/-- The local variables of `decoder_run_song` together with the control
block, the events so far and the assertions that did not hold. -/
structure Session where
  dc : decoder_control
  input : input_stream
  close_instream : Bool
  ret : Bool
  plugin : Option PluginRef
  trace : List Event
  failed : List Assertion

/-- Why a session has no result: a call through a null function pointer
(with the session at that call), a START or SEEK command without a song, or
the embedding ran out of fuel in the wait for the input stream. -/
inductive Halt where
  | null_call (s : Session)
  | null_song
  | out_of_fuel

/-- Records the assertion `a` as failed unless `ok` holds. -/
def check (ok : Bool) (a : Assertion) (s : Session) : Session :=
  if ok then s else { s with failed := s.failed ++ [a] }

/-- Appends an event to the trace. -/
def emit (e : Event) (s : Session) : Session :=
  { s with trace := s.trace ++ [e] }

/-- The call `decoder_lock(dc)` after the lock had been released: the
controller may have written a command meanwhile. -/
def decoder_lock (env : Env) (s : Session) : Session :=
  emit Event.locked
    { s with dc := { s.dc with command := env.controller s.trace s.dc.command } }

/-- The call `input_stream_close(&input_stream)`. -/
def input_stream_close (s : Session) : Session :=
  emit Event.closed s

/-! ## The decode session, `decoder_thread.c` -/

/-- The function `decoder_stream_decode`, decoder_thread.c:38-65.  The tag
assertions (lines 46-47) and the rewind of the stream are not modelled. -/
def decoder_stream_decode (env : Env) (plugin : PluginRef) (s : Session) :
    Except Halt (Bool × Session) :=
  let s1 := check plugin.2.stream_decode Assertion.stream_capability s
  let s2 := check s1.input.ready Assertion.stream_ready s1
  let s3 := check (decide (s2.dc.state = DecoderState.START)) Assertion.stream_state_start s2
  if plugin.2.stream_decode = false then
    Except.error (Halt.null_call s3)
  else
    let s4 := { s3 with dc := env.stream_decode s3.trace plugin.1 s3.dc }
    let s5 := check (decide (s4.dc.state = DecoderState.START ∨
                             s4.dc.state = DecoderState.DECODE))
      Assertion.stream_state_after s4
    let ret := decide (s5.dc.state ≠ DecoderState.START)
    Except.ok (ret, emit (Event.stream plugin.1 ret) s5)

/-- The function `decoder_file_decode`, decoder_thread.c:67-90.  The tag
assertions (lines 74-75) and the assertions on the path (lines 76-77) are not
modelled. -/
def decoder_file_decode (env : Env) (plugin : PluginRef) (s : Session) :
    Except Halt (Bool × Session) :=
  let s1 := check plugin.2.file_decode Assertion.file_capability s
  let s2 := check (decide (s1.dc.state = DecoderState.START)) Assertion.file_state_start s1
  if plugin.2.file_decode = false then
    Except.error (Halt.null_call s2)
  else
    let s3 := { s2 with dc := env.file_decode s2.trace plugin.1 s2.dc }
    let s4 := check (decide (s3.dc.state = DecoderState.START ∨
                             s3.dc.state = DecoderState.DECODE))
      Assertion.file_state_after s3
    let ret := decide (s4.dc.state ≠ DecoderState.START)
    Except.ok (ret, emit (Event.file plugin.1 ret) s4)

/-- The two loops of the branch for a source that is not a local file,
decoder_thread.c:166-175 and 181-190, over the plugins the lookup yields:
a plugin without `stream_decode` is passed over (`continue`), the first
plugin that accepts ends the loop (`break`) and stays in `plugin`, and
`plugin` is NULL when the lookup is exhausted. -/
def try_stream_plugins (env : Env) : List PluginRef → Session → Except Halt Session
  | [], s => Except.ok { s with plugin := none }
  | p :: rest, s =>
    if p.2.stream_decode = false then
      try_stream_plugins env rest { s with plugin := some p }
    else
      match decoder_stream_decode env p { s with plugin := some p } with
      | Except.error h => Except.error h
      | Except.ok (ret, s1) =>
        let s2 := { s1 with ret := ret }
        if ret then Except.ok s2
        else
          try_stream_plugins env rest
            (check (decide (s2.dc.state = DecoderState.START))
              Assertion.declined_state_start s2)

/-- The branch for a source that is not a local file,
decoder_thread.c:163-202: MIME types, then the suffix of the URI, then the
plugin named "mad". -/
def decode_stream_source (env : Env) (registry : List decoder_plugin)
    (uri : String) (s : Session) : Except Halt Session :=
  match try_stream_plugins env
      (decoder_plugin_from_mime_type registry s.input.mime) s with
  | Except.error h => Except.error h
  | Except.ok s1 =>
    let r2 :=
      if s1.plugin = none then
        try_stream_plugins env
          (decoder_plugin_from_suffix registry (env.uri_get_suffix uri)) s1
      else Except.ok s1
    match r2 with
    | Except.error h => Except.error h
    | Except.ok s2 =>
      if s2.plugin = none then
        match decoder_plugin_from_name registry "mad" with
        | some p =>
          match decoder_stream_decode env p { s2 with plugin := some p } with
          | Except.error h => Except.error h
          | Except.ok (ret, s3) => Except.ok { s3 with ret := ret }
        | none => Except.ok s2
      else Except.ok s2

/-- The loop of the branch for a local file, decoder_thread.c:206-240, over
the plugins the suffix lookup yields. -/
def try_file_plugins (env : Env) (uri : String) :
    List PluginRef → Session → Except Halt Session
  | [], s => Except.ok { s with plugin := none }
  | p :: rest, s =>
    if p.2.file_decode = true then
      let s1 := decoder_lock env (input_stream_close { s with plugin := some p })
      match decoder_file_decode env p { s1 with close_instream := false } with
      | Except.error h => Except.error h
      | Except.ok (ret, s2) =>
        let s3 := { s2 with ret := ret }
        if ret then Except.ok s3 else try_file_plugins env uri rest s3
    else if p.2.stream_decode = true then
      let s0 := { s with plugin := some p }
      let reopened : Option Session :=
        if s0.close_instream = false then
          match env.input_stream_open s0.trace uri with
          | some i =>
            some { decoder_lock env (emit (Event.opened true) { s0 with input := i })
                   with close_instream := true }
          | none => none
        else some s0
      match reopened with
      | none =>
        try_file_plugins env uri rest (decoder_lock env (emit (Event.opened false) s0))
      | some s1 =>
        match decoder_stream_decode env p s1 with
        | Except.error h => Except.error h
        | Except.ok (ret, s2) =>
          let s3 := { s2 with ret := ret }
          if ret then Except.ok s3 else try_file_plugins env uri rest s3
    else
      try_file_plugins env uri rest { s with plugin := some p }

/-- The end of `decoder_run_song`, decoder_thread.c:243-265: the input
stream is closed if `close_instream` says so, and the state becomes STOP
when `ret` is set and ERROR otherwise.  The flush of the last chunk and the
release of the tags are not modelled. -/
def finish_song (env : Env) (s : Session) : Session :=
  let s1 := if s.close_instream = true then input_stream_close s else s
  let s2 := decoder_lock env s1
  { s2 with dc := { s2.dc with state :=
      if s2.ret = true then DecoderState.STOP else DecoderState.ERROR } }

/-- The plugin selection of `decoder_run_song` and what follows it,
decoder_thread.c:159-265, from the session as it stands at line 159. -/
def decode_with_plugins (env : Env) (registry : List decoder_plugin)
    (song : Song) (uri : String) (s : Session) : Except Halt Session :=
  let s0 := { s with ret := false }
  let r :=
    if song.file = false then decode_stream_source env registry uri s0
    else try_file_plugins env uri
      (decoder_plugin_from_suffix registry (env.uri_get_suffix uri)) s0
  match r with
  | Except.error h => Except.error h
  | Except.ok s1 => Except.ok (finish_song env s1)

/-- The early return of `decoder_run_song` with the input stream closed,
decoder_thread.c:130-134, 141-144 and 151-156. -/
def abandon (env : Env) (st : DecoderState) (s : Session) : Session :=
  let s1 := decoder_lock env (input_stream_close s)
  { s1 with dc := { s1.dc with state := st } }

/-- The wait for the input stream to become ready, decoder_thread.c:127-146.
The result says whether `decoder_run_song` has returned (`true`) or goes on
to line 148 with the lock released (`false`).  One unit of fuel per
iteration. -/
def wait_ready (env : Env) : Nat → Session → Except Halt (Bool × Session)
  | 0, s => if s.input.ready = true then Except.ok (false, s) else Except.error Halt.out_of_fuel
  | fuel + 1, s =>
    if s.input.ready = true then Except.ok (false, s)
    else
      let s1 := decoder_lock env s
      if s1.dc.command = DecoderCommand.STOP then
        Except.ok (true, abandon env DecoderState.STOP s1)
      else
        match env.input_stream_buffer s1.trace s1.input with
        | none =>
          Except.ok (true, abandon env DecoderState.ERROR (emit (Event.buffered false) s1))
        | some i =>
          wait_ready env fuel (emit (Event.buffered true) { s1 with input := i })

/-- The session as `decoder_run_song` sets it up, decoder_thread.c:96-116,
before the input stream is opened. -/
def session_start (dc : decoder_control) : Session :=
  { dc := { dc with state := DecoderState.START, command := DecoderCommand.NONE },
    input := { ready := false, mime := none },
    close_instream := true,
    ret := false,
    plugin := none,
    trace := [],
    failed := [] }

/-- The session up to plugin selection, decoder_thread.c:96-157: `true`
when `decoder_run_song` has returned, `false` with the session as it stands
at line 159. -/
def open_and_wait (env : Env) (fuel : Nat) (dc : decoder_control) (uri : String) :
    Except Halt (Bool × Session) :=
  let s0 := session_start dc
  match env.input_stream_open s0.trace uri with
  | none =>
    let s1 := decoder_lock env (emit (Event.opened false) s0)
    Except.ok (true, { s1 with dc := { s1.dc with state := DecoderState.ERROR } })
  | some i =>
    match wait_ready env fuel (emit (Event.opened true) { s0 with input := i }) with
    | Except.error h => Except.error h
    | Except.ok (true, s1) => Except.ok (true, s1)
    | Except.ok (false, s1) =>
      let s2 := decoder_lock env s1
      if s2.dc.command = DecoderCommand.STOP then
        Except.ok (true, abandon env DecoderState.STOP s2)
      else Except.ok (false, s2)

/-- The function `decoder_run_song`, decoder_thread.c:92-266. -/
def decoder_run_song (env : Env) (registry : List decoder_plugin) (fuel : Nat)
    (dc : decoder_control) (song : Song) (uri : String) : Except Halt Session :=
  match open_and_wait env fuel dc uri with
  | Except.error h => Except.error h
  | Except.ok (true, s) => Except.ok s
  | Except.ok (false, s) => decode_with_plugins env registry song uri s

/-- The session record of a decoder thread that is not in a session: the
control block alone. -/
def no_session (dc : decoder_control) : Session :=
  { dc := dc,
    input := { ready := false, mime := none },
    close_instream := true,
    ret := false,
    plugin := none,
    trace := [],
    failed := [] }

/-- The function `decoder_run`, decoder_thread.c:268-288.  The song is
`dc->next_song`, the field `song` of the control block. -/
def decoder_run (env : Env) (registry : List decoder_plugin) (fuel : Nat)
    (dc : decoder_control) : Except Halt Session :=
  match dc.song with
  | none => Except.error Halt.null_song
  | some song =>
    match song.uri with
    | none => Except.ok (no_session { dc with state := DecoderState.ERROR })
    | some uri =>
      decoder_run_song env registry fuel { dc with current_song := dc.song } song uri

/-- The call `decoder_wait(dc)`, decoder_thread.c:318: the decoder thread
sleeps with the lock released until it is signalled.  The state is written
by the decoder thread only, so it is the same afterwards. -/
def decoder_wait (env : Env) (dc : decoder_control) : decoder_control :=
  { env.decoder_wait dc with state := dc.state }

/-- One pass through the body of the loop of `decoder_task`,
decoder_thread.c:298-320. -/
def decoder_task_body (env : Env) (registry : List decoder_plugin) (fuel : Nat)
    (dc : decoder_control) : Except Halt Session :=
  let s0 := check (decide (dc.state = DecoderState.STOP ∨ dc.state = DecoderState.ERROR))
    Assertion.task_idle (no_session dc)
  match dc.command with
  | DecoderCommand.START | DecoderCommand.SEEK =>
    match decoder_run env registry fuel dc with
    | Except.error h => Except.error h
    | Except.ok s =>
      Except.ok { s with dc := { s.dc with command := DecoderCommand.NONE },
                         failed := s0.failed ++ s.failed }
  | DecoderCommand.STOP =>
    Except.ok { s0 with dc := { dc with command := DecoderCommand.NONE } }
  | DecoderCommand.NONE =>
    Except.ok { s0 with dc := decoder_wait env dc }

/-- The condition of the loop of `decoder_task`, decoder_thread.c:321:
whether there is another pass. -/
def decoder_task_again (dc : decoder_control) : Bool :=
  decide (dc.command ≠ DecoderCommand.NONE) || !dc.quit

/-- What the loop of `decoder_task` has done: the control block, the events
of each pass in order, the assertions that did not hold, and whether the loop
has been left (the condition of line 321 was false). -/
structure Task where
  dc : decoder_control
  traces : List (List Event)
  failed : List Assertion
  finished : Bool

/-- The decoder thread as it enters the loop of `decoder_task`. -/
def task_start (dc : decoder_control) : Task :=
  { dc := dc, traces := [], failed := [], finished := false }

/-- The loop of `decoder_task`, decoder_thread.c:297-321, for at most
`passes` passes; `envs k` is the environment of pass `k`.  A thread that
has passes left when the count runs out has `finished = false`. -/
def decoder_task_loop (envs : Nat → Env) (registry : List decoder_plugin) (fuel : Nat) :
    Nat → Nat → Task → Except Halt Task
  | 0, _, t => Except.ok t
  | passes + 1, k, t =>
    match decoder_task_body (envs k) registry fuel t.dc with
    | Except.error h => Except.error h
    | Except.ok s =>
      let t1 : Task :=
        { dc := s.dc, traces := t.traces ++ [s.trace], failed := t.failed ++ s.failed,
          finished := !decoder_task_again s.dc }
      if decoder_task_again s.dc = true then
        decoder_task_loop envs registry fuel passes (k + 1) t1
      else Except.ok t1

/-- The function `decoder_task`, decoder_thread.c:290-326, for at most
`passes` passes through its loop. -/
def decoder_task (envs : Nat → Env) (registry : List decoder_plugin) (fuel : Nat)
    (passes : Nat) (dc : decoder_control) : Except Halt Task :=
  decoder_task_loop envs registry fuel passes 0 (task_start dc)

/-! ## Definitions used to state the theorems -/

/-- The assertions `Seek` trips on the way in. -/
def seek_failed (dc : decoder_control) (where_ : Rat) : List Assertion :=
  (if dc.state ≠ DecoderState.START then [] else [Assertion.seek_state_not_start]) ++
  (if where_ ≥ 0 then [] else [Assertion.seek_where_nonneg])

/-- The control block as `Seek` hands it to the decoder thread. -/
def seek_issued (dc : decoder_control) (where_ : Rat) : decoder_control :=
  { dc with seek_where := where_, seek_error := false, command := DecoderCommand.SEEK }

/-- Whether an event is a plugin call. -/
def Event.is_call : Event → Bool
  | Event.stream _ _ => true
  | Event.file _ _ => true
  | _ => false

/-- The plugin calls of a trace, in order. -/
def calls (t : List Event) : List Event :=
  t.filter Event.is_call

/-- The registry slot of the plugin an event calls. -/
def Event.slot : Event → Option Nat
  | Event.stream i _ => some i
  | Event.file i _ => some i
  | _ => none

/-- The registry slots of the plugins called in a trace, in order. -/
def invoked (t : List Event) : List Nat :=
  t.filterMap Event.slot

/-- The plugins of a list that have a `stream_decode` function. -/
def stream_capable (l : List PluginRef) : List PluginRef :=
  l.filter (fun p => p.2.stream_decode)

/-- A run of stream-decode calls, one per plugin of the list, all of which
returned false. -/
def declined (l : List PluginRef) : List Event :=
  l.map (fun p => Event.stream p.1 false)

/-- The candidates of a source that is not a local file, in the order of the
three phases: the stream-capable plugins matching the MIME type, then the
stream-capable plugins matching the suffix of the URI, then the plugin named
"mad" if there is one. -/
def stream_candidates (env : Env) (registry : List decoder_plugin)
    (mime : Option String) (uri : String) : List PluginRef :=
  stream_capable (decoder_plugin_from_mime_type registry mime) ++
  stream_capable (decoder_plugin_from_suffix registry (env.uri_get_suffix uri)) ++
  (decoder_plugin_from_name registry "mad").toList

/-- The assertions on the state of the session that a plugin call can trip. -/
def Assertion.on_call (a : Assertion) : Prop :=
  a = Assertion.stream_ready ∨ a = Assertion.stream_state_start ∨
  a = Assertion.stream_state_after ∨ a = Assertion.file_state_start ∨
  a = Assertion.file_state_after

/-- The call a plugin gets in the branch for a local file if it is reached and
the input stream is there: file decode if it has `file_decode`, else stream
decode if it has `stream_decode`, else none.  The call is listed as
declined. -/
def local_attempt (p : PluginRef) : Option Event :=
  if p.2.file_decode = true then some (Event.file p.1 false)
  else if p.2.stream_decode = true then some (Event.stream p.1 false)
  else none

/-- The calls of the branch for a local file over a list of plugins when
every plugin declines and the input stream can always be reopened. -/
def local_plan (l : List PluginRef) : List Event :=
  l.filterMap local_attempt

/-- The same call, having returned true. -/
def Event.accept : Event → Event
  | Event.stream i _ => Event.stream i true
  | Event.file i _ => Event.file i true
  | e => e

/-- The search for a source that is not a local file, as seen in the calls
`cs` of the session and its final state: the candidates are called in order;
if all decline the state is ERROR, and the first one that accepts is the last
one called and the state is STOP. -/
def stream_search (cand : List PluginRef) (cs : List Event) (st : DecoderState) : Prop :=
  (st = DecoderState.ERROR ∧ cs = declined cand) ∨
  (st = DecoderState.STOP ∧ ∃ pre p post, cand = pre ++ p :: post ∧
    cs = declined pre ++ [Event.stream p.1 true])

/-- The search for a local file, as seen in the events `t` of the session
from line 159 on and its final state: the calls are calls of the plan, in
order; a call of the plan before the last one made is left out only when the
input stream could not be reopened; if all decline the state is ERROR, and
the first call that accepts is the last one and the state is STOP. -/
def file_search (plan : List Event) (t : List Event) (st : DecoderState) : Prop :=
  (st = DecoderState.ERROR ∧ (calls t).Sublist plan ∧
    (Event.opened false ∉ t → calls t = plan)) ∨
  (st = DecoderState.STOP ∧ ∃ pre e post d, plan = pre ++ e :: post ∧
    calls t = d ++ [e.accept] ∧ d.Sublist pre ∧ (Event.opened false ∉ t → d = pre))

/-- The condition under which no call goes through a null function pointer:
for a source that is not a local file, the plugin named "mad", if there is
one, has a `stream_decode` function (decoder_thread.c:196-197). -/
def mad_streams (registry : List decoder_plugin) (song : Song) : Prop :=
  song.file = false →
    ∀ p, decoder_plugin_from_name registry "mad" = some p → p.2.stream_decode = true

/-- What the environment does along a stretch of events, from the control
block `dc` and after the events `h`: taking the lock lets the controller
write the command, a plugin call runs the plugin of the environment on the
control block as it then stands, and an open is an `input_stream_open` of
the environment.  The result is the control block at the end, and `none` if
the stretch is not what this environment does: a call listed with a return
value other than "the plugin left the state different from START", or an
open listed with another outcome than the environment's. -/
def replay (env : Env) (uri : String) :
    List Event → decoder_control → List Event → Option decoder_control
  | _, dc, [] => some dc
  | h, dc, Event.locked :: t =>
    replay env uri (h ++ [Event.locked])
      { dc with command := env.controller h dc.command } t
  | h, dc, Event.stream i r :: t =>
    if r = decide ((env.stream_decode h i dc).state ≠ DecoderState.START) then
      replay env uri (h ++ [Event.stream i r]) (env.stream_decode h i dc) t
    else none
  | h, dc, Event.file i r :: t =>
    if r = decide ((env.file_decode h i dc).state ≠ DecoderState.START) then
      replay env uri (h ++ [Event.file i r]) (env.file_decode h i dc) t
    else none
  | h, dc, Event.opened ok :: t =>
    if ok = (env.input_stream_open h uri).isSome then
      replay env uri (h ++ [Event.opened ok]) dc t
    else none
  | h, dc, Event.buffered ok :: t => replay env uri (h ++ [Event.buffered ok]) dc t
  | h, dc, Event.closed :: t => replay env uri (h ++ [Event.closed]) dc t

/-- The events of the loop for a local file over a list of plugins, said
plugin by plugin; `o` says whether the input stream is open and `r` whether
a plugin accepted.  A plugin with `file_decode` has the stream closed and
its file decode called; else a plugin with `stream_decode` has its stream
decode called, after a reopening of the stream if it is closed, and is
passed over if that reopening fails; a plugin with neither is passed over.
A call that returns true ends the loop. -/
def local_run : Bool → List PluginRef → List Event → Bool → Prop
  | _, [], t, r => t = [] ∧ r = false
  | o, p :: rest, t, r =>
    if p.2.file_decode = true then
      (t = [Event.closed, Event.locked, Event.file p.1 true] ∧ r = true) ∨
      (∃ t1, t = [Event.closed, Event.locked, Event.file p.1 false] ++ t1 ∧
        local_run false rest t1 r)
    else if p.2.stream_decode = true then
      if o = true then
        (t = [Event.stream p.1 true] ∧ r = true) ∨
        (∃ t1, t = Event.stream p.1 false :: t1 ∧ local_run true rest t1 r)
      else
        (t = [Event.opened true, Event.locked, Event.stream p.1 true] ∧ r = true) ∨
        (∃ t1, t = [Event.opened true, Event.locked, Event.stream p.1 false] ++ t1 ∧
          local_run true rest t1 r) ∨
        (∃ t1, t = [Event.opened false, Event.locked] ++ t1 ∧ local_run false rest t1 r)
    else local_run o rest t r

/-! ## Sample data -/

/-- An idle control block with nothing set. -/
def dc_idle : decoder_control :=
  { state := DecoderState.STOP, command := DecoderCommand.NONE, quit := false,
    song := none, current_song := none, start_ms := 0, end_ms := 0,
    buffer := none, pipe := none, seekable := false, seek_where := 0,
    seek_error := false, replay_gain_db := 0, replay_gain_prev_db := 0,
    mixramp_start := none, mixramp_end := none, mixramp_prev_end := none }

/-- A control block in the middle of decoding a seekable stream. -/
def dc_decoding : decoder_control :=
  { dc_idle with state := DecoderState.DECODE, seekable := true }

/-- A decoder thread that acknowledges every command at once. -/
def worker_ack : Reaction :=
  fun _ dc => { dc with command := DecoderCommand.NONE }

/-- A decoder thread that acknowledges every command and reports a failed
seek. -/
def worker_seek_fails : Reaction :=
  fun _ dc => { dc with command := DecoderCommand.NONE, seek_error := true }

/-- The value a plugin call returned: whether the plugin accepted. -/
def Event.returned : Event → Bool
  | Event.stream _ r => r
  | Event.file _ r => r
  | _ => false

/-- A song that is not a local file. -/
def song_http : Song :=
  { name := "stream", file := false, uri := some "http://x/stream.mp3" }

/-- A song that is a local file. -/
def song_file : Song :=
  { name := "track", file := true, uri := some "/music/track.mp3" }

/-- An environment in which the input stream opens ready with MIME type
audio/mpeg, every URI has the suffix mp3, the controller writes nothing and
every plugin declines. -/
def env_decline : Env :=
  { input_stream_open := fun _ _ => some { ready := true, mime := some "audio/mpeg" },
    input_stream_buffer := fun _ i => some i,
    stream_decode := fun _ _ dc => dc,
    file_decode := fun _ _ dc => dc,
    controller := fun _ c => c,
    uri_get_suffix := fun _ => some "mp3",
    decoder_wait := fun dc => dc }

/-- The same environment, but the plugin in slot 1 accepts. -/
def env_second_accepts : Env :=
  { env_decline with
    stream_decode := fun _ i dc =>
      if i = 1 then { dc with state := DecoderState.DECODE } else dc,
    file_decode := fun _ i dc =>
      if i = 1 then { dc with state := DecoderState.DECODE } else dc }

/-- A registry of three stream plugins: one matching by MIME type, one by
suffix, and "mad". -/
def registry_three : List decoder_plugin :=
  [ { name := "vorbis", mime_types := ["audio/mpeg"], suffixes := [],
      stream_decode := true, file_decode := false },
    { name := "flac", mime_types := [], suffixes := ["mp3"],
      stream_decode := true, file_decode := false },
    { name := "mad", mime_types := [], suffixes := [],
      stream_decode := true, file_decode := false } ]

/-- The session of `env_decline` at line 159. -/
def session_at_159 : Session :=
  { dc := { dc_idle with state := DecoderState.START },
    input := { ready := true, mime := some "audio/mpeg" },
    close_instream := true, ret := false, plugin := none,
    trace := [Event.opened true, Event.locked], failed := [] }

/-- An environment in which the input stream opens ready without a MIME
type, no URI has a suffix, the controller writes nothing and every plugin
accepts. -/
def env_bare_accept : Env :=
  { input_stream_open := fun _ _ => some { ready := true, mime := none },
    input_stream_buffer := fun _ i => some i,
    stream_decode := fun _ _ dc => { dc with state := DecoderState.DECODE },
    file_decode := fun _ _ dc => { dc with state := DecoderState.DECODE },
    controller := fun _ c => c,
    uri_get_suffix := fun _ => none,
    decoder_wait := fun dc => dc }

/-- The session of `env_bare_accept` at line 159. -/
def session_bare_at_159 : Session :=
  { dc := { dc_idle with state := DecoderState.START },
    input := { ready := true, mime := none },
    close_instream := true, ret := false, plugin := none,
    trace := [Event.opened true, Event.locked], failed := [] }

/-- A registry whose only plugin is "mad", matching both the MIME type
audio/mpeg and the suffix mp3. -/
def registry_mad_only : List decoder_plugin :=
  [ { name := "mad", mime_types := ["audio/mpeg"], suffixes := ["mp3"],
      stream_decode := true, file_decode := false } ]

/-- The registry slots a session called, `[]` for a session without
result. -/
def invoked_by (r : Except Halt Session) : List Nat :=
  match r with
  | Except.ok s => invoked s.trace
  | Except.error _ => []

/-- Whether the plugin an event calls has the function the call goes
through, by the registry; an event that is no call passes. -/
def Event.capable (registry : List decoder_plugin) : Event → Bool
  | Event.stream i _ =>
    match registry[i]? with
    | some q => q.stream_decode
    | none => false
  | Event.file i _ =>
    match registry[i]? with
    | some q => q.file_decode
    | none => false
  | _ => true

/-- A registry whose only plugin is "mad", without a `stream_decode`
function, and matching nothing. -/
def registry_mad_no_stream : List decoder_plugin :=
  [ { name := "mad", mime_types := [], suffixes := [],
      stream_decode := false, file_decode := true } ]

/-- Whether a session stopped at a call through a null function pointer. -/
def at_null_call (r : Except Halt Session) : Bool :=
  match r with
  | Except.error (Halt.null_call _) => true
  | _ => false

/-- The assertions a session tripped, up to its end or to the call through a
null function pointer that stopped it. -/
def failed_by (r : Except Halt Session) : List Assertion :=
  match r with
  | Except.ok s => s.failed
  | Except.error (Halt.null_call s) => s.failed
  | Except.error _ => []

/-- A registry of two plugins for the suffix mp3: the first decodes files
only, the second streams only. -/
def registry_file_then_stream : List decoder_plugin :=
  [ { name := "sidplay", mime_types := [], suffixes := ["mp3"],
      stream_decode := false, file_decode := true },
    { name := "mad", mime_types := [], suffixes := ["mp3"],
      stream_decode := true, file_decode := false } ]

/-- An environment like `env_decline`, but the input stream cannot be opened
a second time. -/
def env_no_reopen : Env :=
  { env_decline with
    input_stream_open := fun h _ =>
      if h.isEmpty then some { ready := true, mime := some "audio/mpeg" } else none }

/-- The plugin calls of a session, `[]` for a session without result. -/
def calls_by (r : Except Halt Session) : List Event :=
  match r with
  | Except.ok s => calls s.trace
  | Except.error _ => []

/-- The control block as `Start` hands it to the decoder thread. -/
def start_issued (dc : decoder_control) (_song : Option Song) (_start_ms _end_ms : Nat)
    (_buffer _pipe : Nat) : decoder_control :=
  { dc with song := _song, start_ms := _start_ms, end_ms := _end_ms,
            buffer := some _buffer, pipe := some _pipe, command := DecoderCommand.START }

/-- The control block at the end of a pass through the loop of
`decoder_task`; a pass without end leaves the command where it is. -/
def after_pass (r : Except Halt Session) (issued : decoder_control) : decoder_control :=
  match r with
  | Except.ok s => s.dc
  | Except.error _ => issued

/-- How the decoder thread, waiting in `decoder_wait`, answers a START
command: `decoder_run` either fails to resolve the song (lines 279-281, then
line 306) or records it and `decoder_run_song` sets the state to START and
clears the command before it releases the lock (lines 284, 111-116). -/
def start_reaction : Reaction :=
  fun _ issued =>
    match issued.song with
    | none => issued
    | some song =>
      match song.uri with
      | none => { issued with state := DecoderState.ERROR, command := DecoderCommand.NONE }
      | some _ => (session_start { issued with current_song := issued.song }).dc

/-- How the decoder thread answers a STOP command.  When the state is STOP
or ERROR the thread is waiting in `decoder_wait`, and the next pass through
the loop takes the command.  Otherwise the thread is in the session of the
pass that began with the control block `begun`, somewhere with the lock
released; `env` is the environment of that session, the STOP command
included, and the command is cleared when that pass ends (line 306). -/
def stop_reaction (env : Env) (registry : List decoder_plugin) (fuel : Nat)
    (begun : decoder_control) : Reaction :=
  fun _ issued =>
    if issued.state = DecoderState.STOP ∨ issued.state = DecoderState.ERROR then
      after_pass (decoder_task_body env registry fuel issued) issued
    else
      after_pass (decoder_task_body env registry fuel begun) issued

/-- Whether a session or a pass through the loop comes to an end. -/
def ends (r : Except Halt Session) : Bool :=
  match r with
  | Except.ok _ => true
  | Except.error _ => false

/-- A control block in the middle of a session, as `Stop` may find it. -/
def dc_in_session : decoder_control :=
  { dc_idle with state := DecoderState.DECODE, song := some song_http,
                 current_song := some song_http }

/-- The control block as `Stop` hands it to the decoder thread. -/
def stop_issued (dc : decoder_control) : decoder_control :=
  { dc with command := DecoderCommand.STOP }

/-- What `Stop` leaves behind, given the control block and the commands it
issued. -/
def stop_outcome (dc : decoder_control) (sent : List decoder_control) : Outcome Unit :=
  { ret := (), dc := dc, sent := sent, freed_songs := [], freed := [], failed := [] }

/-- A control block whose state is STOP or ERROR. -/
def idle (dc : decoder_control) : Prop :=
  dc.state = DecoderState.STOP ∨ dc.state = DecoderState.ERROR

/-- An idle control block with a START command for `song_http` and `quit`
set. -/
def dc_start_quit : decoder_control :=
  { dc_idle with command := DecoderCommand.START, song := some song_http, quit := true }

/-- An idle control block with a STOP command and `quit` set. -/
def dc_stop_quit : decoder_control :=
  { dc_idle with command := DecoderCommand.STOP, quit := true }

/-- The environment `env_decline` in every pass of the loop. -/
def envs_decline : Nat → Env :=
  fun _ => env_decline

/-- A song that cannot be resolved to a playable URI. -/
def song_lost : Song :=
  { name := "lost", file := true, uri := none }

/-- An idle control block with a START command for `song_lost`. -/
def dc_start_lost : decoder_control :=
  { dc_idle with command := DecoderCommand.START, song := some song_lost }

/-- Whether a trace closes the input stream while it is closed; `o` says
whether the stream is open before the trace. -/
def closes_closed : Bool → List Event → Bool
  | _, [] => false
  | _, Event.opened true :: t => closes_closed true t
  | o, Event.closed :: t => if o then closes_closed false t else true
  | o, _ :: t => closes_closed o t

/-- The events of a session, `[]` for a session without result. -/
def trace_by (r : Except Halt Session) : List Event :=
  match r with
  | Except.ok s => s.trace
  | Except.error _ => []

/-- A registry of two plugins for the suffix mp3 that both decode files
only. -/
def registry_two_file : List decoder_plugin :=
  [ { name := "wildmidi", mime_types := [], suffixes := ["mp3"],
      stream_decode := false, file_decode := true },
    { name := "fluidsynth", mime_types := [], suffixes := ["mp3"],
      stream_decode := false, file_decode := true } ]

/-- An environment like `env_decline`, but the input stream, opened a second
time, is not ready yet. -/
def env_reopen_unready : Env :=
  { env_decline with
    input_stream_open := fun h _ =>
      if h.isEmpty then some { ready := true, mime := some "audio/mpeg" }
      else some { ready := false, mime := none } }

/-- The final state of a session, `none` for a session without result. -/
def state_by (r : Except Halt Session) : Option DecoderState :=
  match r with
  | Except.ok s => some s.dc.state
  | Except.error _ => none

/-- An environment in which the input stream opens ready without a MIME
type, no URI has a suffix, the controller writes nothing and every plugin
declines. -/
def env_bare_decline : Env :=
  { env_bare_accept with
    stream_decode := fun _ _ dc => dc,
    file_decode := fun _ _ dc => dc }

/-- A registry of three plugins for the suffix mp3: the first decodes files
only, the second streams only, the third files only. -/
def registry_file_stream_file : List decoder_plugin :=
  [ { name := "sidplay", mime_types := [], suffixes := ["mp3"],
      stream_decode := false, file_decode := true },
    { name := "mad", mime_types := [], suffixes := ["mp3"],
      stream_decode := true, file_decode := false },
    { name := "wildmidi", mime_types := [], suffixes := ["mp3"],
      stream_decode := false, file_decode := true } ]

/-! # Theorems -/

/-! ## The facade -/

/-- What `Seek` does, in one equation: no command when the decoder is idle or
the stream is not seekable, one SEEK command otherwise, whatever `where_`. -/
theorem Seek_eq (worker : Reaction) (dc : decoder_control) (where_ : Rat) :
    Seek worker dc where_ =
      if dc.state = DecoderState.STOP ∨ dc.state = DecoderState.ERROR ∨ dc.seekable = false then
        some { ret := false, dc := dc, sent := [], freed_songs := [], freed := [],
               failed := seek_failed dc where_ }
      else if (worker [] (seek_issued dc where_)).command = DecoderCommand.NONE then
        some { ret := !(worker [] (seek_issued dc where_)).seek_error,
               dc := worker [] (seek_issued dc where_),
               sent := [seek_issued dc where_], freed_songs := [], freed := [],
               failed := seek_failed dc where_ }
      else none := by
  unfold Seek SynchronousCommandLocked seek_failed seek_issued
  by_cases h : dc.state = DecoderState.STOP ∨ dc.state = DecoderState.ERROR ∨ dc.seekable = false
  · simp only [h, if_true]
  · simp only [h, if_false]
    by_cases hc : (worker [] { dc with seek_where := where_, seek_error := false,
                                       command := DecoderCommand.SEEK }).command
        = DecoderCommand.NONE
    · simp [hc]
    · simp [hc]

/-- C1: for every control block and every non-null song, `IsCurrentSong`
returns false when the state is STOP or ERROR and otherwise the comparison of
the held song with the given one; it leaves the control block as it was,
issues no command and trips no assertion. -/
theorem C1_IsCurrentSong (dc : decoder_control) (s : Song) :
    (IsCurrentSong dc (some s)).ret =
      (if dc.state = DecoderState.STOP ∨ dc.state = DecoderState.ERROR then false
       else song_equals dc.song (some s)) ∧
    (IsCurrentSong dc (some s)).dc = dc ∧
    (IsCurrentSong dc (some s)).sent = [] ∧
    (IsCurrentSong dc (some s)).failed = [] := by
  unfold IsCurrentSong
  cases h : dc.state <;> simp

/-- C2: when the state is STOP or ERROR, or the stream is not seekable, and
`where_` is not negative, `Seek` returns false, issues no command and leaves
the control block (command, seek target, seek-failed flag, state and all the
rest) as it was; the only assertion it can trip is the one on state START. -/
theorem C2_Seek_idle (worker : Reaction) (dc : decoder_control) (where_ : Rat)
    (h : dc.state = DecoderState.STOP ∨ dc.state = DecoderState.ERROR ∨ dc.seekable = false)
    (hw : 0 ≤ where_) :
    Seek worker dc where_ =
      some { ret := false, dc := dc, sent := [], freed_songs := [], freed := [],
             failed := if dc.state = DecoderState.START
                       then [Assertion.seek_state_not_start] else [] } := by
  rw [Seek_eq, if_pos h]
  unfold seek_failed
  by_cases hs : dc.state = DecoderState.START <;> simp [hs, hw]

/-- C2 at an idle control block and position 0. -/
theorem C2_Seek_idle_witness :
    (dc_idle.state = DecoderState.STOP ∨ dc_idle.state = DecoderState.ERROR ∨
      dc_idle.seekable = false) ∧ (0 : Rat) ≤ 0 ∧
    Seek worker_ack dc_idle 0 =
      some { ret := false, dc := dc_idle, sent := [], freed_songs := [], freed := [],
             failed := if dc_idle.state = DecoderState.START
                       then [Assertion.seek_state_not_start] else [] } :=
  ⟨by decide, le_refl 0, C2_Seek_idle worker_ack dc_idle 0 (by decide) (le_refl 0)⟩

/-- C9 fails as stated: on a control block that is decoding a seekable
stream, `Seek(-1)` issues one SEEK command, with the seek target -1 stored,
and returns true. -/
theorem C9_counterexample :
    (Seek worker_ack dc_decoding (-1)).map
        (fun r => (r.ret, r.sent.map (fun d => (d.command, d.seek_where)), r.dc.seek_where)) =
      some (true, [(DecoderCommand.SEEK, -1)], -1) := by
  rw [Seek_eq]
  simp [dc_decoding, dc_idle, worker_ack, seek_issued]

/-- C9, amended: a negative position trips the assertion `where >= 0.0` and
nothing else changes: `Seek` returns false without a command exactly when the
state is STOP or ERROR or the stream is not seekable, and otherwise stores the
negative position, clears the seek-failed flag and issues one SEEK command,
returning whether the flag is still clear when the command is acknowledged. -/
theorem C9_Seek_negative (worker : Reaction) (dc : decoder_control) (where_ : Rat)
    (hw : where_ < 0) :
    Seek worker dc where_ =
      if dc.state = DecoderState.STOP ∨ dc.state = DecoderState.ERROR ∨ dc.seekable = false then
        some { ret := false, dc := dc, sent := [], freed_songs := [], freed := [],
               failed := (if dc.state = DecoderState.START
                          then [Assertion.seek_state_not_start] else []) ++
                         [Assertion.seek_where_nonneg] }
      else if (worker [] (seek_issued dc where_)).command = DecoderCommand.NONE then
        some { ret := !(worker [] (seek_issued dc where_)).seek_error,
               dc := worker [] (seek_issued dc where_),
               sent := [seek_issued dc where_], freed_songs := [], freed := [],
               failed := (if dc.state = DecoderState.START
                          then [Assertion.seek_state_not_start] else []) ++
                         [Assertion.seek_where_nonneg] }
      else none := by
  have hf : seek_failed dc where_ =
      (if dc.state = DecoderState.START then [Assertion.seek_state_not_start] else []) ++
        [Assertion.seek_where_nonneg] := by
    unfold seek_failed
    by_cases hs : dc.state = DecoderState.START <;> simp [hs, not_le.mpr hw]
  rw [Seek_eq, hf]

/-- C9, amended, at a decoding control block and position -1. -/
theorem C9_Seek_negative_witness :
    (-1 : Rat) < 0 ∧
    Seek worker_ack dc_decoding (-1) =
      some { ret := true, dc := worker_ack [] (seek_issued dc_decoding (-1)),
             sent := [seek_issued dc_decoding (-1)], freed_songs := [], freed := [],
             failed := [Assertion.seek_where_nonneg] } := by
  refine ⟨by norm_num, ?_⟩
  rw [C9_Seek_negative worker_ack dc_decoding (-1) (by norm_num)]
  simp [dc_decoding, dc_idle, worker_ack, seek_issued]

/-- C10: on a control block that is decoding a seekable stream, and for a
position that is not negative, `Seek` issues exactly one command, SEEK, and
the control block it hands over holds the position as seek target and a clear
seek-failed flag; when the decoder thread acknowledges the command, `Seek`
returns true exactly when the seek-failed flag is still clear, and trips no
assertion. -/
theorem C10_Seek_decoding (worker : Reaction) (dc : decoder_control) (where_ : Rat)
    (hs : dc.state = DecoderState.DECODE) (hk : dc.seekable = true) (hw : 0 ≤ where_)
    (hack : (worker [] (seek_issued dc where_)).command = DecoderCommand.NONE) :
    Seek worker dc where_ =
      some { ret := !(worker [] (seek_issued dc where_)).seek_error,
             dc := worker [] (seek_issued dc where_),
             sent := [{ dc with seek_where := where_, seek_error := false,
                                command := DecoderCommand.SEEK }],
             freed_songs := [], freed := [], failed := [] } := by
  have hf : seek_failed dc where_ = [] := by
    unfold seek_failed
    simp [hs, hw]
  rw [Seek_eq, hf, if_neg (by simp [hs, hk]), if_pos hack]
  rfl

/-- C10 at a decoding control block, position 5, with a decoder thread that
reports a failed seek: one SEEK command, and `Seek` returns false. -/
theorem C10_Seek_decoding_witness :
    dc_decoding.state = DecoderState.DECODE ∧ dc_decoding.seekable = true ∧ (0 : Rat) ≤ 5 ∧
    (worker_seek_fails [] (seek_issued dc_decoding 5)).command = DecoderCommand.NONE ∧
    Seek worker_seek_fails dc_decoding 5 =
      some { ret := !(worker_seek_fails [] (seek_issued dc_decoding 5)).seek_error,
             dc := worker_seek_fails [] (seek_issued dc_decoding 5),
             sent := [{ dc_decoding with seek_where := 5, seek_error := false,
                                         command := DecoderCommand.SEEK }],
             freed_songs := [], freed := [], failed := [] } :=
  ⟨rfl, rfl, by norm_num, rfl,
   C10_Seek_decoding worker_seek_fails dc_decoding 5 rfl rfl (by norm_num) rfl⟩

/-! ## The decode session: what each part does -/

@[simp]
theorem check_dc (b : Bool) (a : Assertion) (s : Session) :
    (check b a s).dc = s.dc := by
  unfold check; split <;> rfl

@[simp]
theorem check_trace (b : Bool) (a : Assertion) (s : Session) :
    (check b a s).trace = s.trace := by
  unfold check; split <;> rfl

@[simp]
theorem check_ret (b : Bool) (a : Assertion) (s : Session) :
    (check b a s).ret = s.ret := by
  unfold check; split <;> rfl

@[simp]
theorem check_plugin (b : Bool) (a : Assertion) (s : Session) :
    (check b a s).plugin = s.plugin := by
  unfold check; split <;> rfl

@[simp]
theorem check_input (b : Bool) (a : Assertion) (s : Session) :
    (check b a s).input = s.input := by
  unfold check; split <;> rfl

@[simp]
theorem check_close_instream (b : Bool) (a : Assertion) (s : Session) :
    (check b a s).close_instream = s.close_instream := by
  unfold check; split <;> rfl

theorem check_failed (b : Bool) (a : Assertion) (s : Session) :
    (check b a s).failed = if b then s.failed else s.failed ++ [a] := by
  unfold check; split <;> rfl

theorem mem_check_failed {b : Bool} {a x : Assertion} {s : Session}
    (h : x ∈ (check b a s).failed) : x ∈ s.failed ∨ (x = a ∧ b = false) := by
  rw [check_failed] at h
  cases b <;> simp_all

theorem decoder_stream_decode_spec (env : Env) (p : PluginRef) (s : Session)
    (hp : p.2.stream_decode = true) :
    ∃ r s1, decoder_stream_decode env p s = Except.ok (r, s1) ∧
      s1.trace = s.trace ++ [Event.stream p.1 r] ∧
      s1.ret = s.ret ∧ s1.plugin = s.plugin ∧ s1.input = s.input ∧
      s1.close_instream = s.close_instream ∧
      r = decide (s1.dc.state ≠ DecoderState.START) ∧
      (∀ a, a ∈ s1.failed → a ∈ s.failed ∨ a.on_call) := by
  simp only [decoder_stream_decode, hp]
  refine ⟨_, _, rfl, ?_, ?_, ?_, ?_, ?_, ?_, ?_⟩ <;> simp [emit]
  intro a ha
  unfold Assertion.on_call
  rcases mem_check_failed ha with h | h
  · rcases mem_check_failed h with h | h
    · rcases mem_check_failed h with h | h
      · rcases mem_check_failed h with h | h
        · exact Or.inl h
        · simp [hp] at h
      · simp [h.1]
    · simp [h.1]
  · simp [h.1]

theorem decoder_file_decode_spec (env : Env) (p : PluginRef) (s : Session)
    (hp : p.2.file_decode = true) :
    ∃ r s1, decoder_file_decode env p s = Except.ok (r, s1) ∧
      s1.trace = s.trace ++ [Event.file p.1 r] ∧
      s1.ret = s.ret ∧ s1.plugin = s.plugin ∧ s1.input = s.input ∧
      s1.close_instream = s.close_instream ∧
      r = decide (s1.dc.state ≠ DecoderState.START) ∧
      (∀ a, a ∈ s1.failed → a ∈ s.failed ∨ a.on_call) := by
  simp only [decoder_file_decode, hp]
  refine ⟨_, _, rfl, ?_, ?_, ?_, ?_, ?_, ?_, ?_⟩ <;> simp [emit]
  intro a ha
  unfold Assertion.on_call
  rcases mem_check_failed ha with h | h
  · rcases mem_check_failed h with h | h
    · rcases mem_check_failed h with h | h
      · exact Or.inl h
      · simp [hp] at h
    · simp [h.1]
  · simp [h.1]

/-- What one of the two loops over stream plugins does: it cannot fail, and
it either runs through all stream-capable plugins of the list, each
declining, or stops at the first one that accepts. -/
theorem try_stream_plugins_spec (env : Env) (l : List PluginRef) :
    ∀ s : Session, s.ret = false →
    ∃ s1, try_stream_plugins env l s = Except.ok s1 ∧
      s1.input = s.input ∧ s1.close_instream = s.close_instream ∧
      (∀ a, a ∈ s1.failed → a ∈ s.failed ∨ a.on_call) ∧
      (s1.ret = false → s.dc.state = DecoderState.START →
        s1.dc.state = DecoderState.START) ∧
      ((s1.ret = false ∧ s1.plugin = none ∧
          s1.trace = s.trace ++ declined (stream_capable l)) ∨
       (s1.ret = true ∧ s1.plugin ≠ none ∧
          ∃ pre p post, stream_capable l = pre ++ p :: post ∧
            s1.trace = s.trace ++ declined pre ++ [Event.stream p.1 true])) := by
  induction l with
  | nil =>
    intro s hs
    refine ⟨_, rfl, rfl, rfl, fun a h => Or.inl h, fun _ h => h, Or.inl ⟨hs, rfl, ?_⟩⟩
    simp [declined, stream_capable]
  | cons p rest ih =>
    intro s hs
    by_cases hp : p.2.stream_decode = true
    · obtain ⟨r, s1, hcall, htr, hret, hpl, hin, hcl, hr, hf⟩ :=
        decoder_stream_decode_spec env p { s with plugin := some p } hp
      have hsc : stream_capable (p :: rest) = p :: stream_capable rest := by
        simp [stream_capable, hp]
      cases r with
      | true =>
        refine ⟨{ s1 with ret := true }, ?_, hin, hcl, hf, ?_, Or.inr ⟨rfl, ?_, ?_⟩⟩
        · simp [try_stream_plugins, hp, hcall]
        · intro h; cases h
        · simp [hpl]
        · exact ⟨[], p, stream_capable rest, by simpa using hsc, by simpa [declined] using htr⟩
      | false =>
        have hst : s1.dc.state = DecoderState.START := by
          by_contra hne
          simp [hne] at hr
        obtain ⟨s2, hrun, hin2, hcl2, hf2, hst2, hcase⟩ :=
          ih (check (decide (s1.dc.state = DecoderState.START))
                Assertion.declined_state_start { s1 with ret := false }) (by simp)
        have hchk : (check (decide (s1.dc.state = DecoderState.START))
            Assertion.declined_state_start { s1 with ret := false }).failed = s1.failed := by
          rw [check_failed]; simp [hst]
        refine ⟨s2, ?_, ?_, ?_, ?_, ?_, ?_⟩
        · simp [try_stream_plugins, hp, hcall, hrun]
        · simpa [hin] using hin2
        · simpa [hcl] using hcl2
        · intro a ha
          rcases hf2 a ha with h | h
          · rw [hchk] at h
            exact hf a h
          · exact Or.inr h
        · intro h2 _
          exact hst2 h2 (by simpa using hst)
        · rcases hcase with ⟨h1, h2, h3⟩ | ⟨h1, h2, pre, q, post, h3, h4⟩
          · refine Or.inl ⟨h1, h2, ?_⟩
            rw [h3, hsc]
            simp [htr, declined]
          · refine Or.inr ⟨h1, h2, p :: pre, q, post, ?_, ?_⟩
            · rw [hsc, h3]; rfl
            · rw [h4]
              simp [htr, declined]
    · have hp2 : p.2.stream_decode = false := by simpa using hp
      have hsc : stream_capable (p :: rest) = stream_capable rest := by
        simp [stream_capable, hp2]
      obtain ⟨s2, hrun, hin2, hcl2, hf2, hst2, hcase⟩ :=
        ih { s with plugin := some p } hs
      refine ⟨s2, ?_, hin2, hcl2, hf2, hst2, ?_⟩
      · simp [try_stream_plugins, hp2, hrun]
      · rw [hsc]
        exact hcase

/-- What the branch for a source that is not a local file does, when the
plugin named "mad", if there is one, has a `stream_decode` function: it
calls the candidates in order, up to and including the first that accepts. -/
theorem decode_stream_source_spec (env : Env) (registry : List decoder_plugin)
    (uri : String) (s : Session) (hs : s.ret = false)
    (hmad : ∀ p, decoder_plugin_from_name registry "mad" = some p →
      p.2.stream_decode = true) :
    ∃ s1, decode_stream_source env registry uri s = Except.ok s1 ∧
      s1.input = s.input ∧ s1.close_instream = s.close_instream ∧
      (∀ a, a ∈ s1.failed → a ∈ s.failed ∨ a.on_call) ∧
      ((s1.ret = false ∧
          s1.trace = s.trace ++ declined (stream_candidates env registry s.input.mime uri)) ∨
       (s1.ret = true ∧
          ∃ pre p post, stream_candidates env registry s.input.mime uri = pre ++ p :: post ∧
            s1.trace = s.trace ++ declined pre ++ [Event.stream p.1 true])) := by
  obtain ⟨s1, h1, hin1, hcl1, hf1, -, hc1⟩ :=
    try_stream_plugins_spec env (decoder_plugin_from_mime_type registry s.input.mime) s hs
  rcases hc1 with ⟨hr1, hp1, ht1⟩ | ⟨hr1, hp1, pre, p, post, hsplit, ht1⟩
  · obtain ⟨s2, h2, hin2, hcl2, hf2, -, hc2⟩ :=
      try_stream_plugins_spec env
        (decoder_plugin_from_suffix registry (env.uri_get_suffix uri)) s1 hr1
    have hf12 : ∀ a, a ∈ s2.failed → a ∈ s.failed ∨ a.on_call := by
      intro a ha
      rcases hf2 a ha with h | h
      · exact hf1 a h
      · exact Or.inr h
    rcases hc2 with ⟨hr2, hp2, ht2⟩ | ⟨hr2, hp2, pre, p, post, hsplit, ht2⟩
    · cases hm : decoder_plugin_from_name registry "mad" with
      | none =>
        refine ⟨s2, ?_, hin2.trans hin1, hcl2.trans hcl1, hf12, Or.inl ⟨hr2, ?_⟩⟩
        · simp [decode_stream_source, h1, hp1, h2, hp2, hm]
        · simp [stream_candidates, hm, ht2, ht1, declined]
      | some q =>
        obtain ⟨r, s3, hcall, htr, -, -, hin3, hcl3, -, hf3⟩ :=
          decoder_stream_decode_spec env q { s2 with plugin := some q } (hmad q hm)
        refine ⟨{ s3 with ret := r }, ?_, ?_, ?_, ?_, ?_⟩
        · simp [decode_stream_source, h1, hp1, h2, hp2, hm, hcall]
        · exact hin3.trans (hin2.trans hin1)
        · exact hcl3.trans (hcl2.trans hcl1)
        · intro a ha
          rcases hf3 a ha with h | h
          · exact hf12 a h
          · exact Or.inr h
        · cases r with
          | false =>
            refine Or.inl ⟨rfl, ?_⟩
            simp [stream_candidates, hm, htr, ht2, ht1, declined]
          | true =>
            refine Or.inr ⟨rfl,
              stream_capable (decoder_plugin_from_mime_type registry s.input.mime) ++
              stream_capable (decoder_plugin_from_suffix registry (env.uri_get_suffix uri)),
              q, [], ?_, ?_⟩
            · simp [stream_candidates, hm]
            · simp [htr, ht2, ht1, declined]
    · refine ⟨s2, ?_, hin2.trans hin1, hcl2.trans hcl1, hf12, Or.inr ⟨hr2, ?_⟩⟩
      · cases hq : s2.plugin with
        | none => exact absurd hq hp2
        | some q => simp [decode_stream_source, h1, hp1, h2, hq]
      · refine ⟨stream_capable (decoder_plugin_from_mime_type registry s.input.mime) ++ pre,
          p, post ++ (decoder_plugin_from_name registry "mad").toList, ?_, ?_⟩
        · simp [stream_candidates, hsplit]
        · simp [ht2, ht1, declined]
  · refine ⟨s1, ?_, hin1, hcl1, hf1, Or.inr ⟨hr1, ?_⟩⟩
    · cases hq : s1.plugin with
      | none => exact absurd hq hp1
      | some q => simp [decode_stream_source, h1, hq]
    · refine ⟨pre, p, post ++
        stream_capable (decoder_plugin_from_suffix registry (env.uri_get_suffix uri)) ++
        (decoder_plugin_from_name registry "mad").toList, ?_, ?_⟩
      · simp [stream_candidates, hsplit]
      · simp [ht1]

theorem calls_append (a b : List Event) : calls (a ++ b) = calls a ++ calls b := by
  simp [calls]

/-- What the loop for a local file does: it cannot fail; its calls are, in
order, calls of the plan, all declined but for an accepting last one, and
nothing of the plan is left out unless the input stream could not be
reopened. -/
theorem try_file_plugins_spec (env : Env) (uri : String) (l : List PluginRef) :
    ∀ s : Session, s.ret = false →
    ∃ s1 t, try_file_plugins env uri l s = Except.ok s1 ∧
      s1.trace = s.trace ++ t ∧
      (∀ a, a ∈ s1.failed → a ∈ s.failed ∨ a.on_call) ∧
      ((s1.ret = false ∧ (calls t).Sublist (local_plan l) ∧
          (Event.opened false ∉ t → calls t = local_plan l)) ∨
       (s1.ret = true ∧ ∃ pre e post d, local_plan l = pre ++ e :: post ∧
          calls t = d ++ [e.accept] ∧ d.Sublist pre ∧
          (Event.opened false ∉ t → d = pre))) := by
  induction l with
  | nil =>
    intro s hs
    exact ⟨_, [], rfl, by simp, fun a h => Or.inl h,
      Or.inl ⟨hs, by simp [calls, local_plan], fun _ => by simp [calls, local_plan]⟩⟩
  | cons p rest ih =>
    intro s hs
    by_cases hfd : p.2.file_decode = true
    · have hplan : local_plan (p :: rest) = Event.file p.1 false :: local_plan rest := by
        simp [local_plan, local_attempt, hfd]
      obtain ⟨r, s2, hcall, htr, -, -, -, -, -, hf⟩ :=
        decoder_file_decode_spec env p
          { decoder_lock env (input_stream_close { s with plugin := some p })
            with close_instream := false } hfd
      have htr2 : s2.trace = s.trace ++ [Event.closed, Event.locked, Event.file p.1 r] := by
        rw [htr]; simp [decoder_lock, input_stream_close, emit]
      have hf2 : ∀ a, a ∈ s2.failed → a ∈ s.failed ∨ a.on_call := by
        intro a ha
        simpa [decoder_lock, input_stream_close, emit] using hf a ha
      cases r with
      | true =>
        refine ⟨{ s2 with ret := true }, _, ?_, htr2, hf2, Or.inr ⟨rfl, ?_⟩⟩
        · simp [try_file_plugins, hfd, hcall]
        · exact ⟨[], _, _, [], hplan, by simp [calls, Event.is_call, Event.accept],
            List.Sublist.refl _, fun _ => rfl⟩
      | false =>
        obtain ⟨s3, t, hrun, htr3, hf3, hc⟩ := ih { s2 with ret := false } rfl
        refine ⟨s3, [Event.closed, Event.locked, Event.file p.1 false] ++ t, ?_, ?_, ?_, ?_⟩
        · simp [try_file_plugins, hfd, hcall, hrun]
        · rw [htr3]; simp [htr2]
        · intro a ha
          rcases hf3 a ha with h | h
          · exact hf2 a h
          · exact Or.inr h
        · have hcalls : calls ([Event.closed, Event.locked, Event.file p.1 false] ++ t) =
              Event.file p.1 false :: calls t := by
            simp [calls, Event.is_call]
          rw [hcalls, hplan]
          rcases hc with ⟨h1, h2, h3⟩ | ⟨h1, pre, e, post, d, h2, h3, h4, h5⟩
          · refine Or.inl ⟨h1, h2.cons₂ _, fun hno => ?_⟩
            rw [h3 (fun hm => hno (by simp [hm]))]
          · refine Or.inr ⟨h1, Event.file p.1 false :: pre, e, post,
              Event.file p.1 false :: d, by rw [h2]; rfl, by rw [h3]; rfl, h4.cons₂ _,
              fun hno => ?_⟩
            rw [h5 (fun hm => hno (by simp [hm]))]
    · have hfd2 : p.2.file_decode = false := by simpa using hfd
      by_cases hsd : p.2.stream_decode = true
      · have hplan : local_plan (p :: rest) = Event.stream p.1 false :: local_plan rest := by
          simp [local_plan, local_attempt, hfd2, hsd]
        -- the session at the call of `decoder_stream_decode`, if it is reached
        have key : ∀ (s1 : Session) (t1 : List Event),
            s1.trace = s.trace ++ t1 → calls t1 = [] → Event.opened false ∉ t1 →
            (∀ a, a ∈ s1.failed → a ∈ s.failed ∨ a.on_call) →
            ∃ s3 t, (match decoder_stream_decode env p s1 with
                | Except.error h => Except.error h
                | Except.ok (ret, s2) =>
                  if ret then Except.ok { s2 with ret := ret }
                  else try_file_plugins env uri rest { s2 with ret := ret }) = Except.ok s3 ∧
              s3.trace = s.trace ++ t ∧
              (∀ a, a ∈ s3.failed → a ∈ s.failed ∨ a.on_call) ∧
              ((s3.ret = false ∧ (calls t).Sublist (Event.stream p.1 false :: local_plan rest) ∧
                  (Event.opened false ∉ t →
                    calls t = Event.stream p.1 false :: local_plan rest)) ∨
               (s3.ret = true ∧ ∃ pre e post d,
                  Event.stream p.1 false :: local_plan rest = pre ++ e :: post ∧
                  calls t = d ++ [e.accept] ∧ d.Sublist pre ∧
                  (Event.opened false ∉ t → d = pre))) := by
          intro s1 t1 ht1 hc1 hno1 hf1
          obtain ⟨r, s2, hcall, htr, -, -, -, -, -, hf⟩ :=
            decoder_stream_decode_spec env p s1 hsd
          have hf2 : ∀ a, a ∈ s2.failed → a ∈ s.failed ∨ a.on_call := by
            intro a ha
            rcases hf a ha with h | h
            · exact hf1 a h
            · exact Or.inr h
          cases r with
          | true =>
            refine ⟨{ s2 with ret := true }, t1 ++ [Event.stream p.1 true], ?_, ?_, hf2,
              Or.inr ⟨rfl, [], _, _, [], rfl, ?_, List.Sublist.refl _, fun _ => rfl⟩⟩
            · simp [hcall]
            · simp [htr, ht1]
            · rw [calls_append, hc1]
              simp [calls, Event.is_call, Event.accept]
          | false =>
            obtain ⟨s3, t, hrun, htr3, hf3, hc⟩ := ih { s2 with ret := false } rfl
            have hcalls : calls (t1 ++ [Event.stream p.1 false] ++ t) =
                Event.stream p.1 false :: calls t := by
              rw [calls_append, calls_append, hc1]
              simp [calls, Event.is_call]
            refine ⟨s3, t1 ++ [Event.stream p.1 false] ++ t, ?_, ?_, ?_, ?_⟩
            · simp [hcall, hrun]
            · rw [htr3]; simp [htr, ht1]
            · intro a ha
              rcases hf3 a ha with h | h
              · exact hf2 a h
              · exact Or.inr h
            · rw [hcalls]
              rcases hc with ⟨h1, h2, h3⟩ | ⟨h1, pre, e, post, d, h2, h3, h4, h5⟩
              · refine Or.inl ⟨h1, h2.cons₂ _, fun hno => ?_⟩
                rw [h3 (fun hm => hno (by simp [hm]))]
              · refine Or.inr ⟨h1, Event.stream p.1 false :: pre, e, post,
                  Event.stream p.1 false :: d, by rw [h2]; rfl, by rw [h3]; rfl, h4.cons₂ _,
                  fun hno => ?_⟩
                rw [h5 (fun hm => hno (by simp [hm]))]
        rw [hplan]
        by_cases hci : s.close_instream = true
        · obtain ⟨s3, t, hrun, rest3⟩ :=
            key { s with plugin := some p } [] (by simp) rfl (by simp) (fun a h => Or.inl h)
          refine ⟨s3, t, ?_, rest3⟩
          simp only [try_file_plugins, hfd2, hsd, hci]
          simpa [hci] using hrun
        · have hci2 : s.close_instream = false := by simpa using hci
          cases hopen : env.input_stream_open s.trace uri with
          | some i =>
            obtain ⟨s3, t, hrun, rest3⟩ :=
              key { decoder_lock env (emit (Event.opened true)
                      { s with plugin := some p, input := i }) with close_instream := true }
                [Event.opened true, Event.locked]
                (by simp [decoder_lock, emit]) (by simp [calls, Event.is_call]) (by simp)
                (fun a h => Or.inl (by simpa [decoder_lock, emit] using h))
            refine ⟨s3, t, ?_, rest3⟩
            simp only [try_file_plugins, hfd2, hsd, hci2, hopen]
            simpa using hrun
          | none =>
            obtain ⟨s3, t, hrun, htr3, hf3, hc⟩ :=
              ih (decoder_lock env (emit (Event.opened false) { s with plugin := some p }))
                (by simpa [decoder_lock, emit] using hs)
            have hcalls : calls ([Event.opened false, Event.locked] ++ t) = calls t := by
              simp [calls, Event.is_call]
            refine ⟨s3, [Event.opened false, Event.locked] ++ t, ?_, ?_, ?_, ?_⟩
            · simp only [try_file_plugins, hfd2, hsd, hci2, hopen]
              simpa [hci2] using hrun
            · rw [htr3]; simp [decoder_lock, emit]
            · intro a ha
              rcases hf3 a ha with h | h
              · exact Or.inl (by simpa [decoder_lock, emit] using h)
              · exact Or.inr h
            · rw [hcalls]
              rcases hc with ⟨h1, h2, -⟩ | ⟨h1, pre, e, post, d, h2, h3, h4, -⟩
              · exact Or.inl ⟨h1, h2.cons _, fun hno => absurd (by simp) hno⟩
              · exact Or.inr ⟨h1, Event.stream p.1 false :: pre, e, post, d,
                  by rw [h2]; rfl, h3, h4.cons _, fun hno => absurd (by simp) hno⟩
      · have hsd2 : p.2.stream_decode = false := by simpa using hsd
        have hplan : local_plan (p :: rest) = local_plan rest := by
          simp [local_plan, local_attempt, hfd2, hsd2]
        obtain ⟨s3, t, hrun, rest3⟩ := ih { s with plugin := some p } hs
        refine ⟨s3, t, ?_, ?_⟩
        · simp [try_file_plugins, hfd2, hsd2, hrun]
        · rw [hplan]; exact rest3

theorem calls_declined (l : List PluginRef) : calls (declined l) = declined l := by
  induction l with
  | nil => rfl
  | cons p rest ih =>
    have h : calls (declined (p :: rest)) = Event.stream p.1 false :: calls (declined rest) := by
      simp [calls, declined, Event.is_call]
    rw [h, ih]
    rfl

/-- What `decoder_run_song` does from line 159 on. -/
theorem decode_with_plugins_spec (env : Env) (registry : List decoder_plugin)
    (song : Song) (uri : String) (s : Session) (hmad : mad_streams registry song) :
    ∃ s1 t, decode_with_plugins env registry song uri s = Except.ok s1 ∧
      s1.trace = s.trace ++ t ∧
      (∀ a, a ∈ s1.failed → a ∈ s.failed ∨ a.on_call) ∧
      (song.file = false →
        stream_search (stream_candidates env registry s.input.mime uri) (calls t) s1.dc.state) ∧
      (song.file = true →
        file_search (local_plan (decoder_plugin_from_suffix registry (env.uri_get_suffix uri)))
          t s1.dc.state) := by
  cases hfile : song.file with
  | false =>
    obtain ⟨s1, hrun, -, -, hf, hc⟩ :=
      decode_stream_source_spec env registry uri { s with ret := false } rfl (hmad hfile)
    have hfin : ∀ x : Session, ∃ u, (finish_song env x).trace = x.trace ++ u ∧ calls u = [] := by
      intro x
      by_cases hx : x.close_instream = true
      · exact ⟨[Event.closed, Event.locked],
          by simp [finish_song, hx, decoder_lock, input_stream_close, emit],
          by simp [calls, Event.is_call]⟩
      · exact ⟨[Event.locked], by simp [finish_song, hx, decoder_lock, emit],
          by simp [calls, Event.is_call]⟩
    obtain ⟨u, hu, hcu⟩ := hfin s1
    have hfail : (finish_song env s1).failed = s1.failed := by
      unfold finish_song; split <;> simp [decoder_lock, emit, input_stream_close]
    have hstate : (finish_song env s1).dc.state =
        if s1.ret = true then DecoderState.STOP else DecoderState.ERROR := by
      unfold finish_song; split <;> simp [decoder_lock, emit, input_stream_close]
    rcases hc with ⟨hr, ht⟩ | ⟨hr, pre, p, post, hsplit, ht⟩
    · refine ⟨finish_song env s1,
        declined (stream_candidates env registry s.input.mime uri) ++ u, ?_, ?_, ?_, ?_, ?_⟩
      · simp [decode_with_plugins, hfile, hrun]
      · rw [hu, ht]; simp
      · rw [hfail]; exact hf
      · intro _
        refine Or.inl ⟨by rw [hstate]; simp [hr], ?_⟩
        rw [calls_append, hcu, calls_declined]; simp
      · intro h; cases h
    · refine ⟨finish_song env s1, declined pre ++ [Event.stream p.1 true] ++ u,
        ?_, ?_, ?_, ?_, ?_⟩
      · simp [decode_with_plugins, hfile, hrun]
      · rw [hu, ht]; simp
      · rw [hfail]; exact hf
      · intro _
        refine Or.inr ⟨by rw [hstate]; simp [hr], pre, p, post, hsplit, ?_⟩
        rw [calls_append, calls_append, hcu, calls_declined]
        simp [calls, Event.is_call]
      · intro h; cases h
  | true =>
    obtain ⟨s1, t, hrun, htr, hf, hc⟩ :=
      try_file_plugins_spec env uri
        (decoder_plugin_from_suffix registry (env.uri_get_suffix uri)) { s with ret := false } rfl
    have hfin : ∃ u, (finish_song env s1).trace = s1.trace ++ u ∧ calls u = [] ∧
        Event.opened false ∉ u := by
      by_cases hx : s1.close_instream = true
      · exact ⟨[Event.closed, Event.locked],
          by simp [finish_song, hx, decoder_lock, input_stream_close, emit],
          by simp [calls, Event.is_call], by simp⟩
      · exact ⟨[Event.locked], by simp [finish_song, hx, decoder_lock, emit],
          by simp [calls, Event.is_call], by simp⟩
    obtain ⟨u, hu, hcu, hnu⟩ := hfin
    have hfail : (finish_song env s1).failed = s1.failed := by
      unfold finish_song; split <;> simp [decoder_lock, emit, input_stream_close]
    have hstate : (finish_song env s1).dc.state =
        if s1.ret = true then DecoderState.STOP else DecoderState.ERROR := by
      unfold finish_song; split <;> simp [decoder_lock, emit, input_stream_close]
    have hcalls : calls (t ++ u) = calls t := by rw [calls_append, hcu]; simp
    have hno : Event.opened false ∉ t ++ u → Event.opened false ∉ t :=
      fun h hm => h (by simp [hm])
    refine ⟨finish_song env s1, t ++ u, ?_, ?_, ?_, ?_, ?_⟩
    · simp [decode_with_plugins, hfile, hrun]
    · rw [hu, htr]; simp
    · rw [hfail]; exact hf
    · intro h; cases h
    · intro _
      unfold file_search
      rw [hcalls, hstate]
      rcases hc with ⟨hr, h1, h2⟩ | ⟨hr, pre, e, post, d, h1, h2, h3, h4⟩
      · exact Or.inl ⟨by simp [hr], h1, fun h => h2 (hno h)⟩
      · exact Or.inr ⟨by simp [hr], pre, e, post, d, h1, h2, h3, fun h => h4 (hno h)⟩

/-- The wait for the input stream, when it ends with the stream ready: no
plugin was called, no assertion was tripped and the state is as before. -/
theorem wait_ready_ready (env : Env) (fuel : Nat) :
    ∀ s s1 : Session, wait_ready env fuel s = Except.ok (false, s1) →
      s1.input.ready = true ∧ calls s1.trace = calls s.trace ∧ s1.failed = s.failed ∧
      s1.dc.state = s.dc.state ∧ s1.close_instream = s.close_instream := by
  induction fuel with
  | zero =>
    intro s s1 h
    by_cases hr : s.input.ready = true
    · simp [wait_ready, hr] at h
      subst h
      exact ⟨hr, rfl, rfl, rfl, rfl⟩
    · simp [wait_ready, hr] at h
  | succ n ih =>
    intro s s1 h
    by_cases hr : s.input.ready = true
    · simp [wait_ready, hr] at h
      subst h
      exact ⟨hr, rfl, rfl, rfl, rfl⟩
    · by_cases hc : (decoder_lock env s).dc.command = DecoderCommand.STOP
      · simp [wait_ready, hr, hc] at h
      · cases hb : env.input_stream_buffer (decoder_lock env s).trace (decoder_lock env s).input with
        | none => simp [wait_ready, hr, hc, hb] at h
        | some i =>
          simp only [wait_ready, hr, hc, hb] at h
          obtain ⟨h1, h2, h3, h4, h5⟩ := ih _ s1 (by simpa using h)
          refine ⟨h1, ?_, ?_, ?_, ?_⟩
          · rw [h2]; simp [decoder_lock, emit, calls, Event.is_call]
          · rw [h3]; simp [decoder_lock, emit]
          · rw [h4]; simp [decoder_lock, emit]
          · rw [h5]; simp [decoder_lock, emit]

/-- The session as it stands at line 159: the input stream is open and
ready, the state is START, no STOP command is pending, no plugin has been
called and no assertion has been tripped. -/
theorem open_and_wait_reaches (env : Env) (fuel : Nat) (dc : decoder_control)
    (uri : String) (s : Session)
    (h : open_and_wait env fuel dc uri = Except.ok (false, s)) :
    s.input.ready = true ∧ calls s.trace = [] ∧ s.failed = [] ∧
    s.dc.state = DecoderState.START ∧ s.close_instream = true ∧
    s.dc.command ≠ DecoderCommand.STOP := by
  unfold open_and_wait at h
  cases ho : env.input_stream_open (session_start dc).trace uri with
  | none => simp [ho] at h
  | some i =>
    simp only [ho] at h
    cases hw : wait_ready env fuel (emit (Event.opened true) { session_start dc with input := i }) with
    | error e => simp [hw] at h
    | ok r =>
      obtain ⟨b, s1⟩ := r
      cases b with
      | true => simp [hw] at h
      | false =>
        obtain ⟨h1, h2, h3, h4, h5⟩ := wait_ready_ready env fuel _ s1 hw
        simp only [hw] at h
        by_cases hc : (decoder_lock env s1).dc.command = DecoderCommand.STOP
        · simp [hc] at h
        · simp [hc] at h
          subst h
          refine ⟨?_, ?_, ?_, ?_, ?_, hc⟩
          · simpa [decoder_lock, emit] using h1
          · simp [decoder_lock, emit, calls, Event.is_call] at h2 ⊢
            simpa [calls, Event.is_call, session_start] using h2
          · simpa [decoder_lock, emit, session_start] using h3
          · simpa [decoder_lock, emit, session_start] using h4
          · simpa [decoder_lock, emit, session_start] using h5

theorem returned_declined (l : List PluginRef) : ∀ e ∈ declined l, e.returned = false := by
  intro e he
  simp only [declined, List.mem_map] at he
  obtain ⟨p, -, rfl⟩ := he
  rfl

theorem returned_local_plan (l : List PluginRef) :
    ∀ e ∈ local_plan l, e.returned = false ∧ e.accept.returned = true := by
  intro e he
  simp only [local_plan, List.mem_filterMap] at he
  obtain ⟨p, -, hp⟩ := he
  unfold local_attempt at hp
  split at hp
  · cases hp; exact ⟨rfl, rfl⟩
  · split at hp
    · cases hp; exact ⟨rfl, rfl⟩
    · cases hp

/-- The whole session, when it reaches plugin selection: it ends, and from
line 159 on it is the search of its branch. -/
theorem decoder_run_song_spec (env : Env) (registry : List decoder_plugin) (fuel : Nat)
    (dc : decoder_control) (song : Song) (uri : String) (s : Session)
    (hreach : open_and_wait env fuel dc uri = Except.ok (false, s))
    (hmad : mad_streams registry song) :
    ∃ s1 t, decoder_run_song env registry fuel dc song uri = Except.ok s1 ∧
      s1.trace = s.trace ++ t ∧ calls s1.trace = calls t ∧
      (∀ a, a ∈ s1.failed → a.on_call) ∧
      (song.file = false →
        stream_search (stream_candidates env registry s.input.mime uri) (calls t) s1.dc.state) ∧
      (song.file = true →
        file_search (local_plan (decoder_plugin_from_suffix registry (env.uri_get_suffix uri)))
          t s1.dc.state) := by
  obtain ⟨-, hc, hf, -, -, -⟩ := open_and_wait_reaches env fuel dc uri s hreach
  obtain ⟨s1, t, hrun, htr, hfail, h1, h2⟩ :=
    decode_with_plugins_spec env registry song uri s hmad
  refine ⟨s1, t, ?_, htr, ?_, ?_, h1, h2⟩
  · simp [decoder_run_song, hreach, hrun]
  · rw [htr, calls_append, hc]; rfl
  · intro a ha
    rcases hfail a ha with h | h
    · rw [hf] at h; cases h
    · exact h

theorem reach_second_accepts :
    open_and_wait env_second_accepts 0 dc_idle "http://x/stream.mp3" =
      Except.ok (false, session_at_159) := rfl

theorem mad_streams_three : mad_streams registry_three song_http := by
  intro _ p hp
  have h : decoder_plugin_from_name registry_three "mad" = some (2, registry_three.get ⟨2, by decide⟩) := by
    decide
  rw [h] at hp
  cases hp
  rfl

theorem reach_bare_accept :
    open_and_wait env_bare_accept 0 dc_idle "http://x/stream.mp3" =
      Except.ok (false, session_bare_at_159) := rfl

theorem invoked_append (a b : List Event) : invoked (a ++ b) = invoked a ++ invoked b := by
  simp [invoked]

theorem invoked_calls (t : List Event) : invoked (calls t) = invoked t := by
  induction t with
  | nil => rfl
  | cons e rest ih =>
    cases e <;> simp_all [invoked, calls, Event.is_call, Event.slot]

theorem invoked_declined (l : List PluginRef) : invoked (declined l) = l.map Prod.fst := by
  induction l with
  | nil => rfl
  | cons p rest ih =>
    have h : invoked (declined (p :: rest)) = p.1 :: invoked (declined rest) := by
      simp [invoked, declined, Event.slot]
    rw [h, ih]
    rfl

theorem slot_accept (e : Event) : e.accept.slot = e.slot := by
  cases e <;> rfl

theorem invoked_local_plan (l : List PluginRef) :
    (invoked (local_plan l)).Sublist (l.map Prod.fst) := by
  induction l with
  | nil => exact List.Sublist.refl _
  | cons p rest ih =>
    by_cases hfd : p.2.file_decode = true
    · have h : invoked (local_plan (p :: rest)) = p.1 :: invoked (local_plan rest) := by
        simp [invoked, local_plan, local_attempt, hfd, Event.slot]
      rw [h]
      exact ih.cons₂ _
    · by_cases hsd : p.2.stream_decode = true
      · have h : invoked (local_plan (p :: rest)) = p.1 :: invoked (local_plan rest) := by
          simp [invoked, local_plan, local_attempt, hfd, hsd, Event.slot]
        rw [h]
        exact ih.cons₂ _
      · have h : invoked (local_plan (p :: rest)) = invoked (local_plan rest) := by
          simp [invoked, local_plan, local_attempt, hfd, hsd]
        rw [h]
        exact ih.cons _

/-- The slots of the plugins a lookup by MIME type yields are distinct. -/
theorem nodup_from_mime_type (registry : List decoder_plugin) (mime : Option String) :
    ((decoder_plugin_from_mime_type registry mime).map Prod.fst).Nodup := by
  cases mime with
  | none => simp [decoder_plugin_from_mime_type]
  | some m =>
    have h : ((registry.enum.filter (fun p => decide (m ∈ p.2.mime_types))).map Prod.fst).Sublist
        (registry.enum.map Prod.fst) := (List.filter_sublist _).map _
    rw [List.enum_map_fst] at h
    exact (List.nodup_range _).sublist h

/-- The slots of the plugins a lookup by suffix yields are distinct. -/
theorem nodup_from_suffix (registry : List decoder_plugin) (suffix : Option String) :
    ((decoder_plugin_from_suffix registry suffix).map Prod.fst).Nodup := by
  cases suffix with
  | none => simp [decoder_plugin_from_suffix]
  | some m =>
    have h : ((registry.enum.filter (fun p => decide (m ∈ p.2.suffixes))).map Prod.fst).Sublist
        (registry.enum.map Prod.fst) := (List.filter_sublist _).map _
    rw [List.enum_map_fst] at h
    exact (List.nodup_range _).sublist h

theorem nodup_stream_capable (l : List PluginRef) (h : (l.map Prod.fst).Nodup) :
    ((stream_capable l).map Prod.fst).Nodup :=
  h.sublist ((List.filter_sublist _).map _)

theorem reach_decline :
    open_and_wait env_decline 0 dc_idle "http://x/stream.mp3" =
      Except.ok (false, session_at_159) := rfl

theorem mad_streams_mad_only : mad_streams registry_mad_only song_http := by
  intro _ p hp
  have h : decoder_plugin_from_name registry_mad_only "mad" =
      some (0, registry_mad_only.get ⟨0, by decide⟩) := by
    decide
  rw [h] at hp
  cases hp
  rfl

/-- C6 fails as stated: with a registry whose only plugin "mad" matches the
MIME type and the suffix, and declines, the session calls it three times,
once in each phase. -/
theorem C6_counterexample :
    invoked_by (decoder_run_song env_decline registry_mad_only 0 dc_idle song_http
      "http://x/stream.mp3") = [0, 0, 0] := by
  decide

/-- C6, amended: a session that reaches plugin selection calls no plugin
twice within one phase.  For a local file no plugin is called twice at all.
For a source that is not a local file the plugins called are a prefix of
the three phases in a row (MIME type, suffix, the plugin named "mad"), none
of which lists a plugin twice; a plugin listed in several phases is called
again in each of them that is reached, so at most three times.  The plugin
named "mad", if there is one, is taken to have a `stream_decode` function. -/
theorem C6_once_per_phase (env : Env) (registry : List decoder_plugin)
    (fuel : Nat) (dc : decoder_control) (song : Song) (uri : String) (s : Session)
    (hreach : open_and_wait env fuel dc uri = Except.ok (false, s))
    (hmad : mad_streams registry song) :
    ∃ s1, decoder_run_song env registry fuel dc song uri = Except.ok s1 ∧
      (song.file = true → (invoked s1.trace).Nodup) ∧
      (song.file = false →
        invoked s1.trace <+:
          (stream_capable (decoder_plugin_from_mime_type registry s.input.mime)).map Prod.fst ++
          (stream_capable (decoder_plugin_from_suffix registry
            (env.uri_get_suffix uri))).map Prod.fst ++
          (decoder_plugin_from_name registry "mad").toList.map Prod.fst) ∧
      ((stream_capable (decoder_plugin_from_mime_type registry s.input.mime)).map
        Prod.fst).Nodup ∧
      ((stream_capable (decoder_plugin_from_suffix registry
        (env.uri_get_suffix uri))).map Prod.fst).Nodup ∧
      ((decoder_plugin_from_name registry "mad").toList.map Prod.fst).length ≤ 1 ∧
      ∀ i, (invoked s1.trace).count i ≤ 3 := by
  obtain ⟨s1, t, hrun, -, hcalls, -, h1, h2⟩ :=
    decoder_run_song_spec env registry fuel dc song uri s hreach hmad
  have hA := nodup_stream_capable _ (nodup_from_mime_type registry s.input.mime)
  have hB := nodup_stream_capable _ (nodup_from_suffix registry (env.uri_get_suffix uri))
  have hC : ((decoder_plugin_from_name registry "mad").toList.map Prod.fst).length ≤ 1 := by
    cases decoder_plugin_from_name registry "mad" <;> simp
  have hinv : invoked s1.trace = invoked (calls t) := by
    rw [← hcalls, invoked_calls]
  have hlocal : song.file = true → (invoked s1.trace).Nodup := by
    intro hfile
    have hnd : (invoked (local_plan (decoder_plugin_from_suffix registry
        (env.uri_get_suffix uri)))).Nodup :=
      (nodup_from_suffix registry (env.uri_get_suffix uri)).sublist (invoked_local_plan _)
    rw [hinv]
    rcases h2 hfile with ⟨-, hsub, -⟩ | ⟨-, pre, e, post, d, hplan, hcs, hsub, -⟩
    · exact hnd.sublist (hsub.filterMap _)
    · rw [hplan] at hnd
      have hsame : invoked (d ++ [e.accept]) = invoked (d ++ [e]) := by
        rw [invoked_append, invoked_append]
        congr 1
        simp only [invoked, List.filterMap_cons, slot_accept]
      have hsub2 : (d ++ [e]).Sublist (pre ++ e :: post) :=
        hsub.append ((List.Sublist.refl [e]).trans (by simp))
      rw [hcs, hsame]
      exact hnd.sublist (hsub2.filterMap _)
  have hstream : song.file = false →
      invoked s1.trace <+:
        (stream_capable (decoder_plugin_from_mime_type registry s.input.mime)).map Prod.fst ++
        (stream_capable (decoder_plugin_from_suffix registry
          (env.uri_get_suffix uri))).map Prod.fst ++
        (decoder_plugin_from_name registry "mad").toList.map Prod.fst := by
    intro hfile
    have hcand : (stream_candidates env registry s.input.mime uri).map Prod.fst =
        (stream_capable (decoder_plugin_from_mime_type registry s.input.mime)).map Prod.fst ++
        (stream_capable (decoder_plugin_from_suffix registry
          (env.uri_get_suffix uri))).map Prod.fst ++
        (decoder_plugin_from_name registry "mad").toList.map Prod.fst := by
      simp [stream_candidates]
    rw [← hcand, hinv]
    rcases h1 hfile with ⟨-, hcs⟩ | ⟨-, pre, p, post, hsplit, hcs⟩
    · rw [hcs, invoked_declined]
    · rw [hcs, invoked_append, invoked_declined, hsplit]
      exact ⟨post.map Prod.fst, by simp [invoked, Event.slot]⟩
  refine ⟨s1, hrun, hlocal, hstream, hA, hB, hC, fun i => ?_⟩
  cases hfile : song.file with
  | true =>
    have := List.nodup_iff_count_le_one.mp (hlocal hfile) i
    omega
  | false =>
    have h3 := (hstream hfile).sublist.count_le i
    rw [List.count_append, List.count_append] at h3
    have ha := List.nodup_iff_count_le_one.mp hA i
    have hb := List.nodup_iff_count_le_one.mp hB i
    have hc := (List.count_le_length (a := i)
      (l := (decoder_plugin_from_name registry "mad").toList.map Prod.fst)).trans hC
    omega

/-- C6, amended, on the registry of the counterexample. -/
theorem C6_once_per_phase_witness :
    open_and_wait env_decline 0 dc_idle "http://x/stream.mp3" =
      Except.ok (false, session_at_159) ∧
    mad_streams registry_mad_only song_http ∧
    ∃ s1, decoder_run_song env_decline registry_mad_only 0 dc_idle song_http
        "http://x/stream.mp3" = Except.ok s1 ∧
      (song_http.file = true → (invoked s1.trace).Nodup) ∧
      (song_http.file = false →
        invoked s1.trace <+:
          (stream_capable (decoder_plugin_from_mime_type registry_mad_only
            session_at_159.input.mime)).map Prod.fst ++
          (stream_capable (decoder_plugin_from_suffix registry_mad_only
            (env_decline.uri_get_suffix "http://x/stream.mp3"))).map Prod.fst ++
          (decoder_plugin_from_name registry_mad_only "mad").toList.map Prod.fst) ∧
      ((stream_capable (decoder_plugin_from_mime_type registry_mad_only
        session_at_159.input.mime)).map Prod.fst).Nodup ∧
      ((stream_capable (decoder_plugin_from_suffix registry_mad_only
        (env_decline.uri_get_suffix "http://x/stream.mp3"))).map Prod.fst).Nodup ∧
      ((decoder_plugin_from_name registry_mad_only "mad").toList.map Prod.fst).length ≤ 1 ∧
      ∀ i, (invoked s1.trace).count i ≤ 3 :=
  ⟨reach_decline, mad_streams_mad_only,
   C6_once_per_phase env_decline registry_mad_only 0 dc_idle song_http
     "http://x/stream.mp3" session_at_159 reach_decline mad_streams_mad_only⟩

theorem registry_of_from_mime_type (registry : List decoder_plugin) (mime : Option String)
    (p : PluginRef) (h : p ∈ decoder_plugin_from_mime_type registry mime) :
    registry[p.1]? = some p.2 := by
  cases mime with
  | none => simp [decoder_plugin_from_mime_type] at h
  | some m =>
    simp only [decoder_plugin_from_mime_type, List.mem_filter] at h
    exact List.mem_enum_iff_getElem?.mp h.1

theorem registry_of_from_suffix (registry : List decoder_plugin) (suffix : Option String)
    (p : PluginRef) (h : p ∈ decoder_plugin_from_suffix registry suffix) :
    registry[p.1]? = some p.2 := by
  cases suffix with
  | none => simp [decoder_plugin_from_suffix] at h
  | some m =>
    simp only [decoder_plugin_from_suffix, List.mem_filter] at h
    exact List.mem_enum_iff_getElem?.mp h.1

theorem registry_of_from_name (registry : List decoder_plugin) (name : String)
    (p : PluginRef) (h : decoder_plugin_from_name registry name = some p) :
    registry[p.1]? = some p.2 :=
  List.mem_enum_iff_getElem?.mp (List.mem_of_find?_eq_some h)

/-- Every candidate of a source that is not a local file is a plugin of the
registry with a `stream_decode` function, if "mad" is. -/
theorem candidates_capable (env : Env) (registry : List decoder_plugin)
    (mime : Option String) (uri : String)
    (hmad : ∀ p, decoder_plugin_from_name registry "mad" = some p → p.2.stream_decode = true)
    (p : PluginRef) (h : p ∈ stream_candidates env registry mime uri) (r : Bool) :
    (Event.stream p.1 r).capable registry = true := by
  have key : registry[p.1]? = some p.2 ∧ p.2.stream_decode = true := by
    simp only [stream_candidates, List.mem_append, stream_capable, List.mem_filter,
      Option.mem_toList, Option.mem_def] at h
    rcases h with (h | h) | h
    · exact ⟨registry_of_from_mime_type registry mime p h.1, h.2⟩
    · exact ⟨registry_of_from_suffix registry _ p h.1, h.2⟩
    · exact ⟨registry_of_from_name registry "mad" p h, hmad p h⟩
  simp [Event.capable, key.1, key.2]

/-- Every call of the plan for a local file goes to a plugin of the registry
that has the function called. -/
theorem local_plan_capable (registry : List decoder_plugin) (suffix : Option String)
    (e : Event) (h : e ∈ local_plan (decoder_plugin_from_suffix registry suffix)) :
    e.capable registry = true ∧ e.accept.capable registry = true := by
  simp only [local_plan, List.mem_filterMap] at h
  obtain ⟨p, hp, hatt⟩ := h
  have hreg := registry_of_from_suffix registry suffix p hp
  unfold local_attempt at hatt
  split at hatt
  · next hfd =>
    cases hatt
    simp [Event.capable, Event.accept, hreg, hfd]
  · split at hatt
    · next hsd =>
      cases hatt
      simp [Event.capable, Event.accept, hreg, hsd]
    · cases hatt

theorem capable_of_not_call (registry : List decoder_plugin) (e : Event)
    (h : e.is_call = false) : e.capable registry = true := by
  cases e <;> simp_all [Event.is_call, Event.capable]

/-- C7 fails as stated: with a registry whose plugin "mad" has no
`stream_decode` function and a stream that matches nothing, the fallback
passes "mad" to `decoder_stream_decode`; the capability assertion of line 44
fails and the session stops at the call through the null pointer. -/
theorem C7_counterexample :
    at_null_call (decoder_run_song env_decline registry_mad_no_stream 0 dc_idle song_http
      "http://x/stream.mp3") = true ∧
    failed_by (decoder_run_song env_decline registry_mad_no_stream 0 dc_idle song_http
      "http://x/stream.mp3") = [Assertion.stream_capability] := by
  decide

/-- C7, amended: in the MIME phase, the suffix phase and the phase for a
local file a plugin without the function of that phase is passed over; the
fallback by name passes the plugin named "mad" on unchecked.  So when that
plugin, if there is one, has a `stream_decode` function (and always for a
local file), a session that reaches plugin selection ends, neither
capability assertion fails, and every call goes to a plugin of the registry
that has the function called. -/
theorem C7_capability (env : Env) (registry : List decoder_plugin)
    (fuel : Nat) (dc : decoder_control) (song : Song) (uri : String) (s : Session)
    (hreach : open_and_wait env fuel dc uri = Except.ok (false, s))
    (hmad : song.file = false →
      ∀ p, decoder_plugin_from_name registry "mad" = some p → p.2.stream_decode = true) :
    ∃ s1, decoder_run_song env registry fuel dc song uri = Except.ok s1 ∧
      Assertion.stream_capability ∉ s1.failed ∧
      Assertion.file_capability ∉ s1.failed ∧
      ∀ e ∈ s1.trace, e.capable registry = true := by
  obtain ⟨s1, t, hrun, -, hcalls, hfail, h1, h2⟩ :=
    decoder_run_song_spec env registry fuel dc song uri s hreach hmad
  refine ⟨s1, hrun, ?_, ?_, ?_⟩
  · intro h
    have := hfail _ h
    simp [Assertion.on_call] at this
  · intro h
    have := hfail _ h
    simp [Assertion.on_call] at this
  · intro e he
    cases hcall : e.is_call with
    | false => exact capable_of_not_call registry e hcall
    | true =>
      have hmem : e ∈ calls t := by
        rw [← hcalls]
        exact List.mem_filter.mpr ⟨he, hcall⟩
      cases hfile : song.file with
      | false =>
        rcases h1 hfile with ⟨-, hcs⟩ | ⟨-, pre, p, post, hsplit, hcs⟩
        · rw [hcs] at hmem
          simp only [declined, List.mem_map] at hmem
          obtain ⟨q, hq, rfl⟩ := hmem
          exact candidates_capable env registry _ uri (hmad hfile) q hq false
        · rw [hcs] at hmem
          simp only [declined, List.mem_append, List.mem_map, List.mem_singleton] at hmem
          rcases hmem with ⟨q, hq, rfl⟩ | rfl
          · exact candidates_capable env registry _ uri (hmad hfile) q
              (by rw [hsplit]; simp [hq]) false
          · exact candidates_capable env registry _ uri (hmad hfile) p
              (by rw [hsplit]; simp) true
      | true =>
        rcases h2 hfile with ⟨-, hsub, -⟩ | ⟨-, pre, x, post, d, hplan, hcs, hsub, -⟩
        · exact (local_plan_capable registry _ e (hsub.subset hmem)).1
        · rw [hcs] at hmem
          simp only [List.mem_append, List.mem_singleton] at hmem
          rcases hmem with hd | rfl
          · exact (local_plan_capable registry _ e
              (by rw [hplan]; simp [hsub.subset hd])).1
          · exact (local_plan_capable registry _ x (by rw [hplan]; simp)).2

/-- C7, amended, on a stream source whose MIME type matches a plugin that
declines and whose suffix matches a plugin that accepts. -/
theorem C7_capability_witness :
    open_and_wait env_second_accepts 0 dc_idle "http://x/stream.mp3" =
      Except.ok (false, session_at_159) ∧
    (song_http.file = false →
      ∀ p, decoder_plugin_from_name registry_three "mad" = some p →
        p.2.stream_decode = true) ∧
    ∃ s1, decoder_run_song env_second_accepts registry_three 0 dc_idle song_http
        "http://x/stream.mp3" = Except.ok s1 ∧
      Assertion.stream_capability ∉ s1.failed ∧
      Assertion.file_capability ∉ s1.failed ∧
      ∀ e ∈ s1.trace, e.capable registry_three = true :=
  ⟨reach_second_accepts, mad_streams_three,
   C7_capability env_second_accepts registry_three 0 dc_idle song_http
     "http://x/stream.mp3" session_at_159 reach_second_accepts mad_streams_three⟩

theorem reach_no_reopen :
    open_and_wait env_no_reopen 0 dc_idle "/music/track.mp3" =
      Except.ok (false, session_at_159) := rfl

/-- C8 fails as stated: the first plugin for the suffix decodes files, so
the input stream is closed for it; it declines; the second plugin has only
`stream_decode`, the input stream cannot be reopened, and the plugin is
passed over although nothing has accepted. -/
theorem C8_counterexample :
    local_plan (decoder_plugin_from_suffix registry_file_then_stream
      (env_no_reopen.uri_get_suffix "/music/track.mp3")) =
      [Event.file 0 false, Event.stream 1 false] ∧
    calls_by (decoder_run_song env_no_reopen registry_file_then_stream 0 dc_idle song_file
      "/music/track.mp3") = [Event.file 0 false] := by
  decide

/-- The early returns of the wait for the input stream leave the state STOP
or ERROR. -/
theorem wait_ready_returned (env : Env) (fuel : Nat) :
    ∀ s s1 : Session, wait_ready env fuel s = Except.ok (true, s1) →
      s1.dc.state = DecoderState.STOP ∨ s1.dc.state = DecoderState.ERROR := by
  induction fuel with
  | zero =>
    intro s s1 h
    by_cases hr : s.input.ready = true <;> simp [wait_ready, hr] at h
  | succ n ih =>
    intro s s1 h
    by_cases hr : s.input.ready = true
    · simp [wait_ready, hr] at h
    · by_cases hc : (decoder_lock env s).dc.command = DecoderCommand.STOP
      · simp [wait_ready, hr, hc] at h
        subst h
        exact Or.inl rfl
      · cases hb : env.input_stream_buffer (decoder_lock env s).trace (decoder_lock env s).input with
        | none =>
          simp [wait_ready, hr, hc, hb] at h
          subst h
          exact Or.inr rfl
        | some i =>
          simp only [wait_ready, hr, hc, hb] at h
          exact ih _ s1 (by simpa using h)

/-- The end of `decoder_run_song` leaves the state STOP or ERROR. -/
theorem decode_with_plugins_terminal (env : Env) (registry : List decoder_plugin)
    (song : Song) (uri : String) (s0 s : Session)
    (h : decode_with_plugins env registry song uri s0 = Except.ok s) :
    s.dc.state = DecoderState.STOP ∨ s.dc.state = DecoderState.ERROR := by
  unfold decode_with_plugins at h
  simp only at h
  generalize (if song.file = false then
      decode_stream_source env registry uri { s0 with ret := false }
    else try_file_plugins env uri
      (decoder_plugin_from_suffix registry (env.uri_get_suffix uri))
      { s0 with ret := false }) = r at h
  cases r with
  | error e => cases h
  | ok s1 =>
    simp only [Except.ok.injEq] at h
    subst h
    unfold finish_song
    by_cases hr : (decoder_lock env
        (if s1.close_instream = true then input_stream_close s1 else s1)).ret = true
    · exact Or.inl (by simp [hr])
    · exact Or.inr (by simp [hr])

/-- Every return of `decoder_run_song` leaves the state STOP or ERROR. -/
theorem decoder_run_song_terminal (env : Env) (registry : List decoder_plugin) (fuel : Nat)
    (dc : decoder_control) (song : Song) (uri : String) (s : Session)
    (h : decoder_run_song env registry fuel dc song uri = Except.ok s) :
    s.dc.state = DecoderState.STOP ∨ s.dc.state = DecoderState.ERROR := by
  unfold decoder_run_song at h
  cases how : open_and_wait env fuel dc uri with
  | error e => simp [how] at h
  | ok r =>
    obtain ⟨b, s0⟩ := r
    cases b with
    | true =>
      simp [how] at h
      subst h
      unfold open_and_wait at how
      cases ho : env.input_stream_open (session_start dc).trace uri with
      | none =>
        simp [ho] at how
        subst how
        exact Or.inr rfl
      | some i =>
        simp only [ho] at how
        cases hw : wait_ready env fuel
            (emit (Event.opened true) { session_start dc with input := i }) with
        | error e => simp [hw] at how
        | ok r =>
          obtain ⟨b, s1⟩ := r
          cases b with
          | true =>
            simp [hw] at how
            subst how
            exact wait_ready_returned env fuel _ _ hw
          | false =>
            simp only [hw] at how
            by_cases hc : (decoder_lock env s1).dc.command = DecoderCommand.STOP
            · simp [hc] at how
              subst how
              exact Or.inl rfl
            · simp [hc] at how
    | false =>
      simp only [how] at h
      exact decode_with_plugins_terminal env registry song uri s0 s h

/-- A pass through the loop of `decoder_task` that takes a START or SEEK
command and comes to an end leaves the state STOP or ERROR and the command
cleared. -/
theorem decoder_task_body_session (env : Env) (registry : List decoder_plugin) (fuel : Nat)
    (dc : decoder_control) (s : Session)
    (hc : dc.command = DecoderCommand.START ∨ dc.command = DecoderCommand.SEEK)
    (h : decoder_task_body env registry fuel dc = Except.ok s) :
    (s.dc.state = DecoderState.STOP ∨ s.dc.state = DecoderState.ERROR) ∧
    s.dc.command = DecoderCommand.NONE := by
  have hrun : ∃ s0, decoder_run env registry fuel dc = Except.ok s0 ∧
      s = { s0 with dc := { s0.dc with command := DecoderCommand.NONE },
                    failed := (check (decide (dc.state = DecoderState.STOP ∨
                        dc.state = DecoderState.ERROR))
                      Assertion.task_idle (no_session dc)).failed ++ s0.failed } := by
    unfold decoder_task_body at h
    rcases hc with hc | hc <;> simp only [hc] at h <;>
    · cases hr : decoder_run env registry fuel dc with
      | error e => simp [hr] at h
      | ok s0 =>
        simp only [hr, Except.ok.injEq] at h
        exact ⟨s0, rfl, h.symm⟩
  obtain ⟨s0, hr, rfl⟩ := hrun
  refine ⟨?_, rfl⟩
  unfold decoder_run at hr
  cases hsong : dc.song with
  | none => simp [hsong] at hr
  | some song =>
    simp only [hsong] at hr
    cases huri : song.uri with
    | none =>
      simp [huri] at hr
      subst hr
      exact Or.inr rfl
    | some uri =>
      simp only [huri] at hr
      exact decoder_run_song_terminal env registry fuel _ song uri s0 hr

/-- The answer of the decoder thread to a STOP command, when the pass it is
in comes to an end: the command is cleared and the state is STOP or ERROR. -/
theorem stop_reaction_terminal (env : Env) (registry : List decoder_plugin) (fuel : Nat)
    (begun : decoder_control)
    (hb : begun.command = DecoderCommand.START ∨ begun.command = DecoderCommand.SEEK)
    (hend : ends (decoder_task_body env registry fuel begun) = true)
    (sent : List decoder_control) (dc : decoder_control) :
    (stop_reaction env registry fuel begun sent
        { dc with command := DecoderCommand.STOP }).command = DecoderCommand.NONE ∧
    ((stop_reaction env registry fuel begun sent
        { dc with command := DecoderCommand.STOP }).state = DecoderState.STOP ∨
     (stop_reaction env registry fuel begun sent
        { dc with command := DecoderCommand.STOP }).state = DecoderState.ERROR) := by
  by_cases hs : dc.state = DecoderState.STOP ∨ dc.state = DecoderState.ERROR
  · have : stop_reaction env registry fuel begun sent { dc with command := DecoderCommand.STOP } =
        { dc with command := DecoderCommand.NONE } := by
      simp [stop_reaction, hs, decoder_task_body, after_pass]
    rw [this]
    exact ⟨rfl, hs⟩
  · cases hr : decoder_task_body env registry fuel begun with
    | error e => simp [hr, ends] at hend
    | ok s =>
      have : stop_reaction env registry fuel begun sent { dc with command := DecoderCommand.STOP } =
          s.dc := by
        simp [stop_reaction, hs, hr, after_pass]
      rw [this]
      have := decoder_task_body_session env registry fuel begun s hb hr
      exact ⟨this.2, this.1⟩

/-- C3: `Start` hands the control block with the START command to the
decoder thread, which answers with state START (or ERROR when the song has
no playable URI).  Whatever the control block looks like when `Stop` is
called afterwards, and whatever the plugins, the input stream and the timing
of the controller do in the session that `Start` began, provided the pass of
the decoder thread running that session comes to an end: `Stop` returns, and
the state it leaves is STOP or ERROR, with no command pending. -/
theorem C3_Stop_after_Start (env : Env) (registry : List decoder_plugin) (fuel : Nat)
    (dc0 : decoder_control) (song : Song) (start_ms end_ms buffer pipe : Nat)
    (pipe_is_empty : Bool) (dc_mid : decoder_control)
    (hend : ends (decoder_task_body env registry fuel
      (start_issued dc0 (some song) start_ms end_ms buffer pipe)) = true) :
    (∃ r1, Start start_reaction dc0 (some song) start_ms end_ms buffer pipe pipe_is_empty =
        some r1 ∧
      r1.sent = [start_issued dc0 (some song) start_ms end_ms buffer pipe] ∧
      (r1.dc.state = DecoderState.START ∨ r1.dc.state = DecoderState.ERROR)) ∧
    ∃ r, Stop (stop_reaction env registry fuel
        (start_issued dc0 (some song) start_ms end_ms buffer pipe)) dc_mid = some r ∧
      (r.dc.state = DecoderState.STOP ∨ r.dc.state = DecoderState.ERROR) ∧
      r.dc.command = DecoderCommand.NONE := by
  constructor
  · have hcmd : (start_reaction [] (start_issued dc0 (some song) start_ms end_ms buffer pipe)).command
        = DecoderCommand.NONE := by
      cases huri : song.uri <;> simp [start_reaction, huri, start_issued, session_start]
    have hstate : (start_reaction [] (start_issued dc0 (some song) start_ms end_ms buffer pipe)).state
        = DecoderState.START ∨
        (start_reaction [] (start_issued dc0 (some song) start_ms end_ms buffer pipe)).state
        = DecoderState.ERROR := by
      cases huri : song.uri <;> simp [start_reaction, huri, start_issued, session_start]
    refine ⟨{ ret := (),
              dc := start_reaction [] (start_issued dc0 (some song) start_ms end_ms buffer pipe),
              sent := [start_issued dc0 (some song) start_ms end_ms buffer pipe],
              freed_songs := dc0.song.toList, freed := [],
              failed := if pipe_is_empty then [] else [Assertion.pipe_empty] }, ?_, rfl, hstate⟩
    have hcmd2 := hcmd
    unfold start_issued at hcmd2
    unfold Start SynchronousCommandLocked
    simp only [hcmd2, if_true, Option.isSome_some, List.nil_append]
    rfl
  · have key := stop_reaction_terminal env registry fuel
      (start_issued dc0 (some song) start_ms end_ms buffer pipe) (Or.inl rfl) hend
    obtain ⟨k1, k2⟩ := key [] dc_mid
    have hs3 : ¬((stop_reaction env registry fuel
        (start_issued dc0 (some song) start_ms end_ms buffer pipe) []
        { dc_mid with command := DecoderCommand.STOP }).state ≠ DecoderState.STOP ∧
        (stop_reaction env registry fuel
        (start_issued dc0 (some song) start_ms end_ms buffer pipe) []
        { dc_mid with command := DecoderCommand.STOP }).state ≠ DecoderState.ERROR) := by
      intro h
      rcases k2 with h1 | h1
      · exact h.1 h1
      · exact h.2 h1
    by_cases hc : dc_mid.command = DecoderCommand.NONE
    · by_cases hs : dc_mid.state = DecoderState.STOP ∨ dc_mid.state = DecoderState.ERROR
      · refine ⟨{ ret := (), dc := dc_mid, sent := [], freed_songs := [], freed := [],
                  failed := [] }, ?_, hs, hc⟩
        have hs2 : ¬(dc_mid.state ≠ DecoderState.STOP ∧ dc_mid.state ≠ DecoderState.ERROR) := by
          intro h
          rcases hs with h1 | h1
          · exact h.1 h1
          · exact h.2 h1
        simp only [Stop, hc, ne_eq, not_true_eq_false, if_false, hs2]
      · have hs2 : dc_mid.state ≠ DecoderState.STOP ∧ dc_mid.state ≠ DecoderState.ERROR :=
          ⟨fun h => hs (Or.inl h), fun h => hs (Or.inr h)⟩
        refine ⟨{ ret := (),
                  dc := stop_reaction env registry fuel
                    (start_issued dc0 (some song) start_ms end_ms buffer pipe) []
                    { dc_mid with command := DecoderCommand.STOP },
                  sent := [{ dc_mid with command := DecoderCommand.STOP }],
                  freed_songs := [], freed := [], failed := [] }, ?_, k2, k1⟩
        simp only [Stop, hc, ne_eq, not_true_eq_false, if_false, hs2, not_false_eq_true,
          and_self, if_true, SynchronousCommandLocked, k1, List.nil_append]
    · refine ⟨{ ret := (),
                dc := stop_reaction env registry fuel
                  (start_issued dc0 (some song) start_ms end_ms buffer pipe) []
                  { dc_mid with command := DecoderCommand.STOP },
                sent := [{ dc_mid with command := DecoderCommand.STOP }],
                freed_songs := [], freed := [], failed := [] }, ?_, k2, k1⟩
      simp only [Stop, hc, ne_eq, not_false_eq_true, if_true, SynchronousCommandLocked, k1, hs3,
        if_false, List.nil_append]

/-- C3 on a stream whose plugins all decline, `Stop` being called while the
state is DECODE. -/
theorem C3_Stop_after_Start_witness :
    ends (decoder_task_body env_decline registry_three 0
      (start_issued dc_idle (some song_http) 0 0 1 2)) = true ∧
    (∃ r1, Start start_reaction dc_idle (some song_http) 0 0 1 2 true = some r1 ∧
      r1.sent = [start_issued dc_idle (some song_http) 0 0 1 2] ∧
      (r1.dc.state = DecoderState.START ∨ r1.dc.state = DecoderState.ERROR)) ∧
    ∃ r, Stop (stop_reaction env_decline registry_three 0
        (start_issued dc_idle (some song_http) 0 0 1 2)) dc_in_session = some r ∧
      (r.dc.state = DecoderState.STOP ∨ r.dc.state = DecoderState.ERROR) ∧
      r.dc.command = DecoderCommand.NONE :=
  ⟨rfl, C3_Stop_after_Start env_decline registry_three 0 dc_idle song_http 0 0 1 2 true
    dc_in_session rfl⟩

/-- C11: `Stop` has two phases.  It issues a first STOP exactly when a
command is pending on entry; then, with the control block as it stands at
that point, it issues a further STOP exactly when the state is neither STOP
nor ERROR; it returns when the decoder thread has acknowledged what was
issued.  So on an idle control block (no command, state STOP or ERROR) it
issues nothing and returns the control block as it was, and it never issues
more than two commands, all of them STOP. -/
theorem C11_Stop_two_phase (worker : Reaction) (dc : decoder_control) :
    Stop worker dc =
      (if dc.command ≠ DecoderCommand.NONE then
        if (worker [] (stop_issued dc)).command = DecoderCommand.NONE then
          if (worker [] (stop_issued dc)).state ≠ DecoderState.STOP ∧
              (worker [] (stop_issued dc)).state ≠ DecoderState.ERROR then
            if (worker [stop_issued dc] (stop_issued (worker [] (stop_issued dc)))).command =
                DecoderCommand.NONE then
              some (stop_outcome
                (worker [stop_issued dc] (stop_issued (worker [] (stop_issued dc))))
                [stop_issued dc, stop_issued (worker [] (stop_issued dc))])
            else none
          else some (stop_outcome (worker [] (stop_issued dc)) [stop_issued dc])
        else none
      else if dc.state ≠ DecoderState.STOP ∧ dc.state ≠ DecoderState.ERROR then
        if (worker [] (stop_issued dc)).command = DecoderCommand.NONE then
          some (stop_outcome (worker [] (stop_issued dc)) [stop_issued dc])
        else none
      else some (stop_outcome dc [])) ∧
    (if dc.command = DecoderCommand.NONE ∧
        (dc.state = DecoderState.STOP ∨ dc.state = DecoderState.ERROR) then
      Stop worker dc = some (stop_outcome dc [])
     else True) ∧
    (match Stop worker dc with
     | some r => r.sent.length ≤ 2 ∧ ∀ d ∈ r.sent, d.command = DecoderCommand.STOP
     | none => True) := by
  have heq : Stop worker dc =
      (if dc.command ≠ DecoderCommand.NONE then
        if (worker [] (stop_issued dc)).command = DecoderCommand.NONE then
          if (worker [] (stop_issued dc)).state ≠ DecoderState.STOP ∧
              (worker [] (stop_issued dc)).state ≠ DecoderState.ERROR then
            if (worker [stop_issued dc] (stop_issued (worker [] (stop_issued dc)))).command =
                DecoderCommand.NONE then
              some (stop_outcome
                (worker [stop_issued dc] (stop_issued (worker [] (stop_issued dc))))
                [stop_issued dc, stop_issued (worker [] (stop_issued dc))])
            else none
          else some (stop_outcome (worker [] (stop_issued dc)) [stop_issued dc])
        else none
      else if dc.state ≠ DecoderState.STOP ∧ dc.state ≠ DecoderState.ERROR then
        if (worker [] (stop_issued dc)).command = DecoderCommand.NONE then
          some (stop_outcome (worker [] (stop_issued dc)) [stop_issued dc])
        else none
      else some (stop_outcome dc [])) := by
    unfold Stop SynchronousCommandLocked stop_issued stop_outcome
    by_cases hc : dc.command = DecoderCommand.NONE
    · by_cases hs : dc.state ≠ DecoderState.STOP ∧ dc.state ≠ DecoderState.ERROR
      · by_cases h2 : (worker [] { dc with command := DecoderCommand.STOP }).command =
            DecoderCommand.NONE
        · simp [hc, hs, h2]
        · simp [hc, hs, h2]
      · simp [hc, hs]
    · by_cases h1 : (worker [] { dc with command := DecoderCommand.STOP }).command =
          DecoderCommand.NONE
      · by_cases hs : (worker [] { dc with command := DecoderCommand.STOP }).state ≠
            DecoderState.STOP ∧
            (worker [] { dc with command := DecoderCommand.STOP }).state ≠ DecoderState.ERROR
        · by_cases h2 : (worker [{ dc with command := DecoderCommand.STOP }]
              { worker [] { dc with command := DecoderCommand.STOP } with
                command := DecoderCommand.STOP }).command = DecoderCommand.NONE
          · simp [hc, h1, hs, h2]
          · simp [hc, h1, hs, h2]
        · simp [hc, h1, hs]
      · simp [hc, h1]
  refine ⟨heq, ?_, ?_⟩
  · split
    · next h =>
      rw [heq]
      have h2 : ¬(dc.state ≠ DecoderState.STOP ∧ dc.state ≠ DecoderState.ERROR) := by
        intro hh
        rcases h.2 with h3 | h3
        · exact hh.1 h3
        · exact hh.2 h3
      simp [h.1, h2]
    · trivial
  · rw [heq]
    split_ifs <;> simp [stop_outcome, stop_issued]

/-- C12: for every control block, every song and an empty pipe, `Start`
releases the song held before, if any, exactly once and nothing else, and
issues exactly one command, START; the control block it hands over holds the
song, the two bounds, the buffer and the pipe as given and is otherwise the
one it was called on (state, seekable flag, replay gain and mixramp fields
included).  It returns when the decoder thread has acknowledged the command,
and trips no assertion. -/
theorem C12_Start_frame (worker : Reaction) (dc : decoder_control) (song : Song)
    (start_ms end_ms buffer pipe : Nat) :
    Start worker dc (some song) start_ms end_ms buffer pipe true =
      (if (worker [] (start_issued dc (some song) start_ms end_ms buffer pipe)).command =
          DecoderCommand.NONE then
        some { ret := (),
               dc := worker [] (start_issued dc (some song) start_ms end_ms buffer pipe),
               sent := [start_issued dc (some song) start_ms end_ms buffer pipe],
               freed_songs := dc.song.toList, freed := [], failed := [] }
       else none) ∧
    start_issued dc (some song) start_ms end_ms buffer pipe =
      { state := dc.state, command := DecoderCommand.START, quit := dc.quit,
        song := some song, current_song := dc.current_song,
        start_ms := start_ms, end_ms := end_ms,
        buffer := some buffer, pipe := some pipe,
        seekable := dc.seekable, seek_where := dc.seek_where, seek_error := dc.seek_error,
        replay_gain_db := dc.replay_gain_db, replay_gain_prev_db := dc.replay_gain_prev_db,
        mixramp_start := dc.mixramp_start, mixramp_end := dc.mixramp_end,
        mixramp_prev_end := dc.mixramp_prev_end } := by
  refine ⟨?_, rfl⟩
  by_cases h : (worker [] (start_issued dc (some song) start_ms end_ms buffer pipe)).command =
      DecoderCommand.NONE
  · rw [if_pos h]
    unfold start_issued at h
    unfold Start SynchronousCommandLocked
    simp only [h, if_true, Option.isSome_some, List.nil_append, List.append_nil]
    rfl
  · rw [if_neg h]
    unfold start_issued at h
    unfold Start SynchronousCommandLocked
    simp only [h, if_false]

/-- C13: each of the three mixramp setters stores the given value in its
field, releases the value held there before, if any, exactly once and
nothing else, and leaves every other field as it was.  So after
`MixRampStart(a)` and then `MixRampStart(b)` the field holds `b`, the first
call has released what was held at the start and the second has released
`a`, once, and nothing else. -/
theorem C13_MixRamp_setters (dc : decoder_control) (v a b : Option String) :
    ((MixRampStart dc v).dc = { dc with mixramp_start := v } ∧
      (MixRampStart dc v).freed = dc.mixramp_start.toList ∧
      (MixRampStart dc v).freed_songs = [] ∧ (MixRampStart dc v).sent = []) ∧
    ((MixRampEnd dc v).dc = { dc with mixramp_end := v } ∧
      (MixRampEnd dc v).freed = dc.mixramp_end.toList ∧
      (MixRampEnd dc v).freed_songs = [] ∧ (MixRampEnd dc v).sent = []) ∧
    ((MixRampPrevEnd dc v).dc = { dc with mixramp_prev_end := v } ∧
      (MixRampPrevEnd dc v).freed = dc.mixramp_prev_end.toList ∧
      (MixRampPrevEnd dc v).freed_songs = [] ∧ (MixRampPrevEnd dc v).sent = []) ∧
    ((MixRampStart (MixRampStart dc a).dc b).dc = { dc with mixramp_start := b } ∧
      (MixRampStart dc a).freed = dc.mixramp_start.toList ∧
      (MixRampStart (MixRampStart dc a).dc b).freed = a.toList) :=
  ⟨⟨rfl, rfl, rfl, rfl⟩, ⟨rfl, rfl, rfl, rfl⟩, ⟨rfl, rfl, rfl, rfl⟩, ⟨rfl, rfl, rfl⟩⟩

/-- A call of `decoder_stream_decode` that returns went to a plugin with a
`stream_decode` function. -/
theorem decoder_stream_decode_ok (env : Env) (p : PluginRef) (s s1 : Session) (r : Bool)
    (h : decoder_stream_decode env p s = Except.ok (r, s1)) : p.2.stream_decode = true := by
  by_contra hp
  have hp2 : p.2.stream_decode = false := by simpa using hp
  simp [decoder_stream_decode, hp2] at h

/-- The wait for the input stream calls no plugin and trips no assertion. -/
theorem wait_ready_frame (env : Env) (fuel : Nat) :
    ∀ (s : Session) (b : Bool) (s1 : Session), wait_ready env fuel s = Except.ok (b, s1) →
      s1.failed = s.failed ∧ calls s1.trace = calls s.trace := by
  induction fuel with
  | zero =>
    intro s b s1 h
    by_cases hr : s.input.ready = true
    · simp [wait_ready, hr] at h
      obtain ⟨-, rfl⟩ := h
      exact ⟨rfl, rfl⟩
    · simp [wait_ready, hr] at h
  | succ n ih =>
    intro s b s1 h
    by_cases hr : s.input.ready = true
    · simp [wait_ready, hr] at h
      obtain ⟨-, rfl⟩ := h
      exact ⟨rfl, rfl⟩
    · by_cases hc : (decoder_lock env s).dc.command = DecoderCommand.STOP
      · simp [wait_ready, hr, hc] at h
        obtain ⟨-, rfl⟩ := h
        simp [abandon, decoder_lock, input_stream_close, emit, calls, Event.is_call]
      · cases hb : env.input_stream_buffer (decoder_lock env s).trace (decoder_lock env s).input with
        | none =>
          simp [wait_ready, hr, hc, hb] at h
          obtain ⟨-, rfl⟩ := h
          simp [abandon, decoder_lock, input_stream_close, emit, calls, Event.is_call]
        | some i =>
          simp only [wait_ready, hr, hc, hb] at h
          obtain ⟨h1, h2⟩ := ih _ b s1 (by simpa using h)
          refine ⟨?_, ?_⟩
          · rw [h1]; simp [decoder_lock, emit]
          · rw [h2]; simp [decoder_lock, emit, calls, Event.is_call]

/-- The session up to plugin selection calls no plugin and trips no
assertion. -/
theorem open_and_wait_frame (env : Env) (fuel : Nat) (dc : decoder_control) (uri : String)
    (b : Bool) (s : Session) (h : open_and_wait env fuel dc uri = Except.ok (b, s)) :
    s.failed = [] ∧ calls s.trace = [] := by
  unfold open_and_wait at h
  cases ho : env.input_stream_open (session_start dc).trace uri with
  | none =>
    simp [ho] at h
    obtain ⟨-, rfl⟩ := h
    simp [decoder_lock, emit, session_start, calls, Event.is_call]
  | some i =>
    simp only [ho] at h
    cases hw : wait_ready env fuel (emit (Event.opened true) { session_start dc with input := i }) with
    | error e => simp [hw] at h
    | ok r =>
      obtain ⟨b1, s1⟩ := r
      obtain ⟨h1, h2⟩ := wait_ready_frame env fuel _ b1 s1 hw
      have h1' : s1.failed = [] := by simpa [emit, session_start] using h1
      have h2' : calls s1.trace = [] := by
        rw [h2]; simp [emit, session_start, calls, Event.is_call]
      cases b1 with
      | true =>
        simp [hw] at h
        obtain ⟨-, rfl⟩ := h
        exact ⟨h1', h2'⟩
      | false =>
        simp only [hw] at h
        by_cases hc : (decoder_lock env s1).dc.command = DecoderCommand.STOP
        · simp [hc] at h
          obtain ⟨-, rfl⟩ := h
          refine ⟨by simpa [abandon, decoder_lock, input_stream_close, emit] using h1', ?_⟩
          simp only [abandon, decoder_lock, input_stream_close, emit, calls_append, h2']
          simp [calls, Event.is_call]
        · simp [hc] at h
          obtain ⟨-, rfl⟩ := h
          refine ⟨by simpa [decoder_lock, emit] using h1', ?_⟩
          simp only [decoder_lock, emit, calls_append, h2']
          simp [calls, Event.is_call]

/-- The branch for a source that is not a local file, when it comes to an
end, has tripped no assertion but those on the state of the session at a
plugin call. -/
theorem decode_stream_source_failed (env : Env) (registry : List decoder_plugin)
    (uri : String) (s s1 : Session) (hs : s.ret = false)
    (h : decode_stream_source env registry uri s = Except.ok s1) :
    ∀ a, a ∈ s1.failed → a ∈ s.failed ∨ a.on_call := by
  by_cases hmad : ∀ p, decoder_plugin_from_name registry "mad" = some p →
      p.2.stream_decode = true
  · obtain ⟨s2, h2, -, -, hf, -⟩ := decode_stream_source_spec env registry uri s hs hmad
    rw [h] at h2
    cases h2
    exact hf
  · -- the plugin named "mad" has no `stream_decode`: the fallback is not reached
    push_neg at hmad
    obtain ⟨q, hq, hq2⟩ := hmad
    have hq3 : q.2.stream_decode = false := by simpa using hq2
    obtain ⟨m1, hm1, -, -, hf1, -, hc1⟩ :=
      try_stream_plugins_spec env (decoder_plugin_from_mime_type registry s.input.mime) s hs
    unfold decode_stream_source at h
    simp only [hm1] at h
    rcases hc1 with ⟨hr1, hp1, -⟩ | ⟨-, hp1, -⟩
    · obtain ⟨m2, hm2, -, -, hf2, -, hc2⟩ :=
        try_stream_plugins_spec env
          (decoder_plugin_from_suffix registry (env.uri_get_suffix uri)) m1 hr1
      simp only [hp1, if_true, hm2] at h
      rcases hc2 with ⟨-, hp2, -⟩ | ⟨-, hp2, -⟩
      · simp [hp2, hq, decoder_stream_decode, hq3] at h
      · cases hx : m2.plugin with
        | none => exact absurd hx hp2
        | some x =>
          simp [hx] at h
          subst h
          intro a ha
          rcases hf2 a ha with h3 | h3
          · exact hf1 a h3
          · exact Or.inr h3
    · cases hx : m1.plugin with
      | none => exact absurd hx hp1
      | some x =>
        simp [hx] at h
        subst h
        exact hf1

/-- A session that comes to an end has tripped no assertion but those on
the state of the session at a plugin call. -/
theorem decoder_run_song_failed (env : Env) (registry : List decoder_plugin) (fuel : Nat)
    (dc : decoder_control) (song : Song) (uri : String) (s : Session)
    (h : decoder_run_song env registry fuel dc song uri = Except.ok s) :
    ∀ a, a ∈ s.failed → a.on_call := by
  unfold decoder_run_song at h
  cases how : open_and_wait env fuel dc uri with
  | error e => simp [how] at h
  | ok r =>
    obtain ⟨b, s0⟩ := r
    obtain ⟨hf0, -⟩ := open_and_wait_frame env fuel dc uri b s0 how
    cases b with
    | true =>
      simp [how] at h
      subst h
      intro a ha
      rw [hf0] at ha
      cases ha
    | false =>
      simp only [how] at h
      have hfin : ∀ x : Session, (finish_song env x).failed = x.failed := by
        intro x
        unfold finish_song
        split <;> simp [decoder_lock, emit, input_stream_close]
      unfold decode_with_plugins at h
      simp only at h
      cases hfile : song.file with
      | false =>
        simp only [hfile, if_true] at h
        cases hr : decode_stream_source env registry uri { s0 with ret := false } with
        | error e => simp [hr] at h
        | ok s1 =>
          simp [hr] at h
          subst h
          intro a ha
          rw [hfin] at ha
          rcases decode_stream_source_failed env registry uri _ s1 rfl hr a ha with h3 | h3
          · simp [hf0] at h3
          · exact h3
      | true =>
        simp only [hfile] at h
        obtain ⟨s1, t, hrun, -, hf, -⟩ :=
          try_file_plugins_spec env uri
            (decoder_plugin_from_suffix registry (env.uri_get_suffix uri))
            { s0 with ret := false } rfl
        simp [hrun] at h
        subst h
        intro a ha
        rw [hfin] at ha
        rcases hf a ha with h3 | h3
        · simp [hf0] at h3
        · exact h3

/-- Every return of `decoder_run` leaves the state STOP or ERROR, with no
assertion tripped but those on the state of the session at a plugin call. -/
theorem decoder_run_terminal (env : Env) (registry : List decoder_plugin) (fuel : Nat)
    (dc : decoder_control) (s : Session)
    (h : decoder_run env registry fuel dc = Except.ok s) :
    idle s.dc ∧ ∀ a, a ∈ s.failed → a.on_call := by
  unfold decoder_run at h
  cases hsong : dc.song with
  | none => simp [hsong] at h
  | some song =>
    simp only [hsong] at h
    cases huri : song.uri with
    | none =>
      simp [huri] at h
      subst h
      exact ⟨Or.inr rfl, fun a ha => by simp [no_session] at ha⟩
    | some uri =>
      simp only [huri] at h
      exact ⟨decoder_run_song_terminal env registry fuel _ song uri s h,
        decoder_run_song_failed env registry fuel _ song uri s h⟩

/-- One pass through the loop of `decoder_task` from an idle control block:
either it comes to an end, idle again and with the assertion at the head of
the loop holding, or it has no end, and then it is a pass that runs a
session. -/
theorem decoder_task_body_idle (env : Env) (registry : List decoder_plugin) (fuel : Nat)
    (dc : decoder_control) (hs : idle dc) :
    (∃ s, decoder_task_body env registry fuel dc = Except.ok s ∧ idle s.dc ∧
      Assertion.task_idle ∉ s.failed) ∨
    (∃ e, decoder_task_body env registry fuel dc = Except.error e ∧
      (dc.command = DecoderCommand.START ∨ dc.command = DecoderCommand.SEEK)) := by
  have hs' : (dc.state = DecoderState.STOP ∨ dc.state = DecoderState.ERROR) := hs
  have h0 : (check (decide (dc.state = DecoderState.STOP ∨ dc.state = DecoderState.ERROR))
      Assertion.task_idle (no_session dc)).failed = [] := by
    rw [check_failed]; simp [hs', no_session]
  have session : dc.command = DecoderCommand.START ∨ dc.command = DecoderCommand.SEEK →
      (∃ s, decoder_task_body env registry fuel dc = Except.ok s ∧ idle s.dc ∧
        Assertion.task_idle ∉ s.failed) ∨
      (∃ e, decoder_task_body env registry fuel dc = Except.error e ∧
        (dc.command = DecoderCommand.START ∨ dc.command = DecoderCommand.SEEK)) := by
    intro hc
    cases hr : decoder_run env registry fuel dc with
    | error e =>
      refine Or.inr ⟨e, ?_, hc⟩
      unfold decoder_task_body
      rcases hc with hc | hc <;> simp [hc, hr]
    | ok s =>
      obtain ⟨h1, h2⟩ := decoder_run_terminal env registry fuel dc s hr
      refine Or.inl ⟨{ s with
          dc := { s.dc with command := DecoderCommand.NONE },
          failed := (check (decide (dc.state = DecoderState.STOP ∨
              dc.state = DecoderState.ERROR))
            Assertion.task_idle (no_session dc)).failed ++ s.failed }, ?_, h1, ?_⟩
      · unfold decoder_task_body
        rcases hc with hc | hc <;> simp [hc, hr]
      · rw [h0]
        intro hmem
        have := h2 _ (by simpa using hmem)
        simp [Assertion.on_call] at this
  have h1 : Assertion.task_idle ∉
      (check (decide (dc.state = DecoderState.STOP ∨ dc.state = DecoderState.ERROR))
        Assertion.task_idle (no_session dc)).failed := by
    rw [h0]
    exact List.not_mem_nil _
  by_cases hsess : dc.command = DecoderCommand.START ∨ dc.command = DecoderCommand.SEEK
  · exact session hsess
  · have hrest : dc.command = DecoderCommand.STOP ∨ dc.command = DecoderCommand.NONE := by
      cases h : dc.command <;> simp_all
    rcases hrest with hc | hc
    · refine Or.inl ⟨{ check (decide (dc.state = DecoderState.STOP ∨
          dc.state = DecoderState.ERROR)) Assertion.task_idle (no_session dc) with
          dc := { dc with command := DecoderCommand.NONE } }, ?_, hs, h1⟩
      unfold decoder_task_body
      simp only [hc]
    · refine Or.inl ⟨{ check (decide (dc.state = DecoderState.STOP ∨
          dc.state = DecoderState.ERROR)) Assertion.task_idle (no_session dc) with
          dc := decoder_wait env dc }, ?_, hs, h1⟩
      unfold decoder_task_body
      simp only [hc]

/-- The loop of `decoder_task` keeps the thread idle at the head of every
pass, and the assertion there holding. -/
theorem decoder_task_loop_idle (envs : Nat → Env) (registry : List decoder_plugin)
    (fuel : Nat) (passes : Nat) :
    ∀ (k : Nat) (t t1 : Task), idle t.dc → Assertion.task_idle ∉ t.failed →
      decoder_task_loop envs registry fuel passes k t = Except.ok t1 →
      idle t1.dc ∧ Assertion.task_idle ∉ t1.failed := by
  induction passes with
  | zero =>
    intro k t t1 hs hf h
    simp [decoder_task_loop] at h
    subst h
    exact ⟨hs, hf⟩
  | succ n ih =>
    intro k t t1 hs hf h
    rcases decoder_task_body_idle (envs k) registry fuel t.dc hs with
      ⟨s, hb, hs1, hf1⟩ | ⟨e, hb, -⟩
    · simp only [decoder_task_loop, hb] at h
      have hf2 : Assertion.task_idle ∉ t.failed ++ s.failed := by
        simp [hf, hf1]
      by_cases hagain : decoder_task_again s.dc = true
      · simp only [hagain, if_true] at h
        exact ih (k + 1) _ t1 hs1 hf2 h
      · simp only [hagain] at h
        simp at h
        subst h
        exact ⟨hs1, hf2⟩
    · simp [decoder_task_loop, hb] at h

/-- C14: from a control block whose state is STOP or ERROR, every pass
through the loop of `decoder_task` that comes to an end leaves the state
STOP or ERROR without the assertion at the head of the loop failing, and a
pass without end is one that runs a session; every return of `decoder_run`
leaves the state STOP or ERROR; and so, after any number of passes, the
state at the head of the loop is STOP or ERROR and the assertion there has
never failed. -/
theorem C14_loop_head_invariant (envs : Nat → Env) (registry : List decoder_plugin)
    (fuel passes : Nat) (dc : decoder_control) (hs : idle dc) :
    (∀ k, (∃ s, decoder_task_body (envs k) registry fuel dc = Except.ok s ∧ idle s.dc ∧
        Assertion.task_idle ∉ s.failed) ∨
      (∃ e, decoder_task_body (envs k) registry fuel dc = Except.error e ∧
        (dc.command = DecoderCommand.START ∨ dc.command = DecoderCommand.SEEK))) ∧
    (∀ env s, decoder_run env registry fuel dc = Except.ok s → idle s.dc) ∧
    (match decoder_task envs registry fuel passes dc with
     | Except.ok t => idle t.dc ∧ Assertion.task_idle ∉ t.failed
     | Except.error _ => True) := by
  refine ⟨fun k => decoder_task_body_idle (envs k) registry fuel dc hs,
    fun env s h => (decoder_run_terminal env registry fuel dc s h).1, ?_⟩
  cases h : decoder_task envs registry fuel passes dc with
  | error e => trivial
  | ok t =>
    exact decoder_task_loop_idle envs registry fuel passes 0 (task_start dc) t hs
      (List.not_mem_nil _) h

/-- C14 on a thread that takes a START command with `quit` set: the session
ends in ERROR (every plugin declines) and the loop is left. -/
theorem C14_loop_head_invariant_witness :
    idle dc_start_quit ∧
    (∀ k, (∃ s, decoder_task_body (envs_decline k) registry_three 0 dc_start_quit =
          Except.ok s ∧ idle s.dc ∧ Assertion.task_idle ∉ s.failed) ∨
      (∃ e, decoder_task_body (envs_decline k) registry_three 0 dc_start_quit =
          Except.error e ∧
        (dc_start_quit.command = DecoderCommand.START ∨
         dc_start_quit.command = DecoderCommand.SEEK))) ∧
    (∀ env s, decoder_run env registry_three 0 dc_start_quit = Except.ok s → idle s.dc) ∧
    (match decoder_task envs_decline registry_three 0 2 dc_start_quit with
     | Except.ok t => idle t.dc ∧ Assertion.task_idle ∉ t.failed
     | Except.error _ => True) :=
  ⟨Or.inl rfl,
   C14_loop_head_invariant envs_decline registry_three 0 2 dc_start_quit (Or.inl rfl)⟩

/-- C16: on an idle control block with a STOP command, one pass through the
loop of `decoder_task` clears the command and does nothing else: no session
is run (no event, so no input opened and no plugin called), no assertion
fails and every other field of the control block is as it was.  The loop is
left after a pass exactly when no command is pending and `quit` is set; so
with `quit` set the thread is finished after that one pass. -/
theorem C16_bare_stop (envs : Nat → Env) (registry : List decoder_plugin)
    (fuel passes : Nat) (dc : decoder_control) (hs : idle dc)
    (hc : dc.command = DecoderCommand.STOP) :
    decoder_task_body (envs 0) registry fuel dc =
      Except.ok (no_session { dc with command := DecoderCommand.NONE }) ∧
    (∀ d : decoder_control, decoder_task_again d = false ↔
      (d.command = DecoderCommand.NONE ∧ d.quit = true)) ∧
    decoder_task envs registry fuel (passes + 1) dc =
      (if dc.quit = true then
        Except.ok { dc := { dc with command := DecoderCommand.NONE }, traces := [[]],
                    failed := [], finished := true }
       else
        decoder_task_loop envs registry fuel passes 1
          { dc := { dc with command := DecoderCommand.NONE }, traces := [[]],
            failed := [], finished := false }) := by
  have hs' : dc.state = DecoderState.STOP ∨ dc.state = DecoderState.ERROR := hs
  have hbody : ∀ env, decoder_task_body env registry fuel dc =
      Except.ok (no_session { dc with command := DecoderCommand.NONE }) := by
    intro env
    unfold decoder_task_body
    simp only [hc]
    simp [check, hs', no_session]
  refine ⟨hbody _, ?_, ?_⟩
  · intro d
    cases hq : d.quit <;> cases hcmd : d.command <;> simp [decoder_task_again, hq, hcmd]
  · unfold decoder_task
    simp only [decoder_task_loop, task_start, hbody]
    cases hq : dc.quit <;> simp [decoder_task_again, hq, no_session]

/-- C16 on an idle control block with a STOP command and `quit` set. -/
theorem C16_bare_stop_witness :
    idle dc_stop_quit ∧ dc_stop_quit.command = DecoderCommand.STOP ∧
    decoder_task_body (envs_decline 0) registry_three 0 dc_stop_quit =
      Except.ok (no_session { dc_stop_quit with command := DecoderCommand.NONE }) ∧
    (∀ d : decoder_control, decoder_task_again d = false ↔
      (d.command = DecoderCommand.NONE ∧ d.quit = true)) ∧
    decoder_task envs_decline registry_three 0 (0 + 1) dc_stop_quit =
      (if dc_stop_quit.quit = true then
        Except.ok { dc := { dc_stop_quit with command := DecoderCommand.NONE }, traces := [[]],
                    failed := [], finished := true }
       else
        decoder_task_loop envs_decline registry_three 0 0 1
          { dc := { dc_stop_quit with command := DecoderCommand.NONE }, traces := [[]],
            failed := [], finished := false }) :=
  ⟨Or.inl rfl, rfl,
   C16_bare_stop envs_decline registry_three 0 0 dc_stop_quit (Or.inl rfl) rfl⟩

/-- C17: when the decoder thread takes a START or SEEK command whose song
has no playable URI, `decoder_run` returns at once with the state ERROR and
nothing else changed: `current_song` is as it was, there is no session (no
event: no input opened, no plugin called) and the state START is never set.
The pass through the loop then clears the command. -/
theorem C17_unresolved_song (env : Env) (registry : List decoder_plugin) (fuel : Nat)
    (dc : decoder_control) (song : Song)
    (hc : dc.command = DecoderCommand.START ∨ dc.command = DecoderCommand.SEEK)
    (hsong : dc.song = some song) (huri : song.uri = none) :
    decoder_run env registry fuel dc =
      Except.ok (no_session { dc with state := DecoderState.ERROR }) ∧
    decoder_task_body env registry fuel dc =
      Except.ok { dc := { dc with state := DecoderState.ERROR,
                                  command := DecoderCommand.NONE },
                  input := { ready := false, mime := none },
                  close_instream := true, ret := false, plugin := none, trace := [],
                  failed := if dc.state = DecoderState.STOP ∨ dc.state = DecoderState.ERROR
                            then [] else [Assertion.task_idle] } := by
  have hrun : decoder_run env registry fuel dc =
      Except.ok (no_session { dc with state := DecoderState.ERROR }) := by
    simp [decoder_run, hsong, huri]
  refine ⟨hrun, ?_⟩
  unfold decoder_task_body
  by_cases hs : dc.state = DecoderState.STOP ∨ dc.state = DecoderState.ERROR
  · rcases hc with hc | hc <;> simp [hc, hrun, check, hs, no_session]
  · rcases hc with hc | hc <;> simp [hc, hrun, check, hs, no_session]

/-- C17 on an idle control block with a START command for a song without a
playable URI. -/
theorem C17_unresolved_song_witness :
    (dc_start_lost.command = DecoderCommand.START ∨
      dc_start_lost.command = DecoderCommand.SEEK) ∧
    dc_start_lost.song = some song_lost ∧ song_lost.uri = none ∧
    decoder_run env_decline registry_three 0 dc_start_lost =
      Except.ok (no_session { dc_start_lost with state := DecoderState.ERROR }) ∧
    decoder_task_body env_decline registry_three 0 dc_start_lost =
      Except.ok { dc := { dc_start_lost with state := DecoderState.ERROR,
                                             command := DecoderCommand.NONE },
                  input := { ready := false, mime := none },
                  close_instream := true, ret := false, plugin := none, trace := [],
                  failed := if dc_start_lost.state = DecoderState.STOP ∨
                               dc_start_lost.state = DecoderState.ERROR
                            then [] else [Assertion.task_idle] } :=
  ⟨Or.inl rfl, rfl, rfl,
   C17_unresolved_song env_decline registry_three 0 dc_start_lost song_lost (Or.inl rfl) rfl rfl⟩

/-- C18, the code at the failing input: a local file whose suffix has two
plugins with `file_decode`, the first of which declines.  The input stream
is opened once and closed twice, the second time while it is closed. -/
theorem C18_double_close :
    trace_by (decoder_run_song env_decline registry_two_file 0 dc_idle song_file
      "/music/track.mp3") =
      [Event.opened true, Event.locked, Event.closed, Event.locked, Event.file 0 false,
       Event.closed, Event.locked, Event.file 1 false, Event.locked] ∧
    closes_closed false (trace_by (decoder_run_song env_decline registry_two_file 0 dc_idle
      song_file "/music/track.mp3")) = true := by
  decide

/-- C19, the code at the failing input: a local file whose suffix has a
plugin with `file_decode`, which declines, and then a plugin with
`stream_decode` only; the input stream is reopened for it and is not ready.
`decoder_stream_decode` is called all the same, and its assertion on the
stream being ready fails. -/
theorem C19_stream_not_ready :
    calls_by (decoder_run_song env_reopen_unready registry_file_then_stream 0 dc_idle
      song_file "/music/track.mp3") = [Event.file 0 false, Event.stream 1 false] ∧
    failed_by (decoder_run_song env_reopen_unready registry_file_then_stream 0 dc_idle
      song_file "/music/track.mp3") = [Assertion.stream_ready] := by
  decide

/-- Replaying two stretches one after the other. -/
theorem replay_append (env : Env) (uri : String) (t1 t2 : List Event) :
    ∀ (h : List Event) (dc : decoder_control),
      replay env uri h dc (t1 ++ t2) =
        (replay env uri h dc t1).bind (fun d => replay env uri (h ++ t1) d t2) := by
  induction t1 with
  | nil => intro h dc; simp [replay]
  | cons e rest ih =>
    intro h dc
    cases e with
    | locked => simp [replay, ih]
    | opened ok =>
      by_cases hok : ok = (env.input_stream_open h uri).isSome <;> simp [replay, ih, hok]
    | buffered ok => simp [replay, ih]
    | closed => simp [replay, ih]
    | stream i r =>
      simp only [List.cons_append, replay]
      by_cases hr : r = decide ((env.stream_decode h i dc).state ≠ DecoderState.START)
      · rw [if_pos hr, if_pos hr]
        have := ih (h ++ [Event.stream i r]) (env.stream_decode h i dc)
        simpa using this
      · rw [if_neg hr, if_neg hr]
        rfl
    | file i r =>
      simp only [List.cons_append, replay]
      by_cases hr : r = decide ((env.file_decode h i dc).state ≠ DecoderState.START)
      · rw [if_pos hr, if_pos hr]
        have := ih (h ++ [Event.file i r]) (env.file_decode h i dc)
        simpa using this
      · rw [if_neg hr, if_neg hr]
        rfl

/-- Two stretches that each replay, one after the other. -/
theorem replay_trans (env : Env) (uri : String) (h : List Event) (dc d1 d2 : decoder_control)
    (t1 t2 : List Event) (h1 : replay env uri h dc t1 = some d1)
    (h2 : replay env uri (h ++ t1) d1 t2 = some d2) :
    replay env uri h dc (t1 ++ t2) = some d2 := by
  rw [replay_append, h1]
  exact h2

/-- A call of `decoder_stream_decode` that returns has run the plugin of
the environment, and has returned whether it left the state different from
START. -/
theorem decoder_stream_decode_replay (env : Env) (uri : String) (p : PluginRef)
    (s s1 : Session) (r : Bool) (h : decoder_stream_decode env p s = Except.ok (r, s1)) :
    s1.trace = s.trace ++ [Event.stream p.1 r] ∧
    replay env uri s.trace s.dc [Event.stream p.1 r] = some s1.dc ∧
    s1.dc = env.stream_decode s.trace p.1 s.dc ∧
    r = decide ((env.stream_decode s.trace p.1 s.dc).state ≠ DecoderState.START) := by
  have hp := decoder_stream_decode_ok env p s s1 r h
  simp only [decoder_stream_decode, hp] at h
  simp only [Bool.true_eq_false, if_false, Except.ok.injEq, Prod.mk.injEq] at h
  obtain ⟨hr, hs⟩ := h
  subst hs
  subst hr
  simp [replay, emit]

/-- A call of `decoder_file_decode` that returns has run the plugin of the
environment, and has returned whether it left the state different from
START. -/
theorem decoder_file_decode_replay (env : Env) (uri : String) (p : PluginRef)
    (s s1 : Session) (r : Bool) (hp : p.2.file_decode = true)
    (h : decoder_file_decode env p s = Except.ok (r, s1)) :
    s1.trace = s.trace ++ [Event.file p.1 r] ∧
    replay env uri s.trace s.dc [Event.file p.1 r] = some s1.dc ∧
    s1.dc = env.file_decode s.trace p.1 s.dc ∧
    r = decide ((env.file_decode s.trace p.1 s.dc).state ≠ DecoderState.START) := by
  simp only [decoder_file_decode, hp] at h
  simp only [Bool.true_eq_false, if_false, Except.ok.injEq, Prod.mk.injEq] at h
  obtain ⟨hr, hs⟩ := h
  subst hs
  subst hr
  simp [replay, emit]

/-- The loop over stream plugins does what the environment does. -/
theorem try_stream_plugins_replay (env : Env) (uri : String) (l : List PluginRef) :
    ∀ s s1 : Session, try_stream_plugins env l s = Except.ok s1 →
      ∃ t, s1.trace = s.trace ++ t ∧ replay env uri s.trace s.dc t = some s1.dc := by
  induction l with
  | nil =>
    intro s s1 h
    simp [try_stream_plugins] at h
    subst h
    exact ⟨[], by simp, rfl⟩
  | cons p rest ih =>
    intro s s1 h
    by_cases hp : p.2.stream_decode = true
    · simp only [try_stream_plugins, hp] at h
      cases hd : decoder_stream_decode env p { s with plugin := some p } with
      | error e => simp [hd] at h
      | ok x =>
        obtain ⟨r, s2⟩ := x
        obtain ⟨htr, hrep, -, -⟩ := decoder_stream_decode_replay env uri p _ s2 r hd
        cases r with
        | true =>
          simp [hd] at h
          subst h
          exact ⟨[Event.stream p.1 true], htr, hrep⟩
        | false =>
          simp [hd] at h
          obtain ⟨t, ht, hrt⟩ := ih _ s1 h
          simp only [check_trace, check_dc] at ht hrt
          refine ⟨[Event.stream p.1 false] ++ t, by rw [ht, htr]; simp, ?_⟩
          refine replay_trans env uri s.trace s.dc s2.dc s1.dc _ t hrep ?_
          rw [htr] at hrt
          exact hrt
    · have hp2 : p.2.stream_decode = false := by simpa using hp
      simp only [try_stream_plugins, hp2] at h
      exact ih { s with plugin := some p } s1 (by simpa using h)

/-- The branch for a source that is not a local file does what the
environment does. -/
theorem decode_stream_source_replay (env : Env) (registry : List decoder_plugin)
    (uri : String) (s s1 : Session)
    (h : decode_stream_source env registry uri s = Except.ok s1) :
    ∃ t, s1.trace = s.trace ++ t ∧ replay env uri s.trace s.dc t = some s1.dc := by
  unfold decode_stream_source at h
  cases h1 : try_stream_plugins env (decoder_plugin_from_mime_type registry s.input.mime) s with
  | error e => simp [h1] at h
  | ok m1 =>
    obtain ⟨t1, ht1, hr1⟩ := try_stream_plugins_replay env uri _ s m1 h1
    simp only [h1] at h
    have step2 : ∀ m2 : Session,
        (if m1.plugin = none then
          try_stream_plugins env
            (decoder_plugin_from_suffix registry (env.uri_get_suffix uri)) m1
         else Except.ok m1) = Except.ok m2 →
        ∃ t, m2.trace = s.trace ++ t ∧ replay env uri s.trace s.dc t = some m2.dc := by
      intro m2 hm2
      by_cases hpl : m1.plugin = none
      · simp only [hpl, if_true] at hm2
        obtain ⟨t2, ht2, hr2⟩ := try_stream_plugins_replay env uri _ m1 m2 hm2
        refine ⟨t1 ++ t2, by rw [ht2, ht1]; simp, ?_⟩
        refine replay_trans env uri s.trace s.dc m1.dc m2.dc t1 t2 hr1 ?_
        rw [ht1] at hr2
        exact hr2
      · simp only [hpl, if_false, Except.ok.injEq] at hm2
        subst hm2
        exact ⟨t1, ht1, hr1⟩
    cases h2 : (if m1.plugin = none then
          try_stream_plugins env
            (decoder_plugin_from_suffix registry (env.uri_get_suffix uri)) m1
         else Except.ok m1) with
    | error e => simp [h2] at h
    | ok m2 =>
      obtain ⟨t2, ht2, hr2⟩ := step2 m2 h2
      simp only [h2] at h
      by_cases hpl : m2.plugin = none
      · simp only [hpl, if_true] at h
        cases hm : decoder_plugin_from_name registry "mad" with
        | none =>
          simp [hm] at h
          subst h
          exact ⟨t2, ht2, hr2⟩
        | some q =>
          simp only [hm] at h
          cases hd : decoder_stream_decode env q { m2 with plugin := some q } with
          | error e => simp [hd] at h
          | ok x =>
            obtain ⟨r, s3⟩ := x
            obtain ⟨htr, hrep, -, -⟩ := decoder_stream_decode_replay env uri q _ s3 r hd
            simp [hd] at h
            subst h
            refine ⟨t2 ++ [Event.stream q.1 r], by simp [htr, ht2], ?_⟩
            refine replay_trans env uri s.trace s.dc m2.dc s3.dc t2 _ hr2 ?_
            simp only at hrep
            rw [ht2] at hrep
            exact hrep
      · simp only [hpl, if_false, Except.ok.injEq] at h
        subst h
        exact ⟨t2, ht2, hr2⟩

/-- The loop for a local file cannot fail; its events are those of
`local_run`, plugin by plugin, and they are what the environment does. -/
theorem try_file_plugins_exact (env : Env) (uri : String) (l : List PluginRef) :
    ∀ s : Session, s.ret = false →
    ∃ s1 t, try_file_plugins env uri l s = Except.ok s1 ∧
      s1.trace = s.trace ++ t ∧
      replay env uri s.trace s.dc t = some s1.dc ∧
      local_run s.close_instream l t s1.ret := by
  induction l with
  | nil =>
    intro s hs
    exact ⟨{ s with plugin := none }, [], rfl, by simp, rfl, rfl, hs⟩
  | cons p rest ih =>
    intro s hs
    by_cases hfd : p.2.file_decode = true
    · obtain ⟨r, s2, hcall, -, -, -, -, hcl, -, -⟩ :=
        decoder_file_decode_spec env p
          { decoder_lock env (input_stream_close { s with plugin := some p })
            with close_instream := false } hfd
      obtain ⟨htr, hrep, -, -⟩ := decoder_file_decode_replay env uri p _ s2 r hfd hcall
      have htr2 : s2.trace = s.trace ++ [Event.closed, Event.locked, Event.file p.1 r] := by
        rw [htr]; simp [decoder_lock, input_stream_close, emit]
      have hrep2 : replay env uri s.trace s.dc
          [Event.closed, Event.locked, Event.file p.1 r] = some s2.dc := by
        have h0 : replay env uri s.trace s.dc [Event.closed, Event.locked] =
            some ({ decoder_lock env (input_stream_close { s with plugin := some p })
              with close_instream := false } : Session).dc := by
          simp [replay, decoder_lock, input_stream_close, emit]
        have := replay_trans env uri s.trace s.dc _ s2.dc [Event.closed, Event.locked]
          [Event.file p.1 r] h0
          (by simpa [decoder_lock, input_stream_close, emit] using hrep)
        simpa using this
      cases r with
      | true =>
        refine ⟨{ s2 with ret := true }, _, ?_, htr2, hrep2, ?_⟩
        · simp [try_file_plugins, hfd, hcall]
        · simp [local_run, hfd]
      | false =>
        obtain ⟨s3, t, hrun, htr3, hrep3, hloc⟩ := ih { s2 with ret := false } rfl
        refine ⟨s3, [Event.closed, Event.locked, Event.file p.1 false] ++ t, ?_, ?_, ?_, ?_⟩
        · simp [try_file_plugins, hfd, hcall, hrun]
        · rw [htr3]; simp [htr2]
        · refine replay_trans env uri s.trace s.dc s2.dc s3.dc _ t hrep2 ?_
          simp only at hrep3 htr2
          rw [htr2] at hrep3
          exact hrep3
        · simp only [local_run, hfd, if_true]
          refine Or.inr ⟨t, rfl, ?_⟩
          have : s2.close_instream = false := by simpa using hcl
          simpa [this] using hloc
    · have hfd2 : p.2.file_decode = false := by simpa using hfd
      by_cases hsd : p.2.stream_decode = true
      · -- from the session at the call of `decoder_stream_decode`
        have key : ∀ (s1 : Session) (t1 : List Event),
            s1.trace = s.trace ++ t1 → replay env uri s.trace s.dc t1 = some s1.dc →
            s1.close_instream = true →
            ∃ s3 t, (match decoder_stream_decode env p s1 with
                | Except.error h => Except.error h
                | Except.ok (ret, s2) =>
                  if ret then Except.ok { s2 with ret := ret }
                  else try_file_plugins env uri rest { s2 with ret := ret }) = Except.ok s3 ∧
              s3.trace = s.trace ++ t ∧
              replay env uri s.trace s.dc t = some s3.dc ∧
              ((t = t1 ++ [Event.stream p.1 true] ∧ s3.ret = true) ∨
               (∃ t2, t = t1 ++ [Event.stream p.1 false] ++ t2 ∧
                  local_run true rest t2 s3.ret)) := by
          intro s1 t1 ht1 hr1 hc1
          obtain ⟨r, s2, hcall, -, -, -, -, hcl, -, -⟩ :=
            decoder_stream_decode_spec env p s1 hsd
          obtain ⟨htr, hrep, -, -⟩ := decoder_stream_decode_replay env uri p s1 s2 r hcall
          have hrep2 : replay env uri s.trace s.dc (t1 ++ [Event.stream p.1 r]) = some s2.dc := by
            refine replay_trans env uri s.trace s.dc s1.dc s2.dc t1 _ hr1 ?_
            rw [ht1] at hrep
            exact hrep
          cases r with
          | true =>
            refine ⟨{ s2 with ret := true }, t1 ++ [Event.stream p.1 true], ?_, ?_, hrep2,
              Or.inl ⟨rfl, rfl⟩⟩
            · simp [hcall]
            · simp [htr, ht1]
          | false =>
            obtain ⟨s3, t, hrun, htr3, hrep3, hloc⟩ := ih { s2 with ret := false } rfl
            refine ⟨s3, t1 ++ [Event.stream p.1 false] ++ t, ?_, ?_, ?_, Or.inr ⟨t, rfl, ?_⟩⟩
            · simp [hcall, hrun]
            · rw [htr3]; simp [htr, ht1]
            · refine replay_trans env uri s.trace s.dc s2.dc s3.dc _ t hrep2 ?_
              simp only at hrep3
              rw [htr, ht1, List.append_assoc] at hrep3
              exact hrep3
            · have : s2.close_instream = true := by rw [hcl]; exact hc1
              simpa [this] using hloc
        by_cases hci : s.close_instream = true
        · obtain ⟨s3, t, hrun, htr3, hrep3, hcase⟩ :=
            key { s with plugin := some p } [] (by simp) rfl hci
          refine ⟨s3, t, ?_, htr3, hrep3, ?_⟩
          · simp only [try_file_plugins, hfd2, hsd, hci]
            simpa [hci] using hrun
          · simp only [local_run, hfd2, hsd, hci, if_true, Bool.false_eq_true, if_false]
            rcases hcase with ⟨h1, h2⟩ | ⟨t2, h1, h2⟩
            · exact Or.inl ⟨by simpa using h1, h2⟩
            · exact Or.inr ⟨t2, by simpa using h1, h2⟩
        · have hci2 : s.close_instream = false := by simpa using hci
          cases hopen : env.input_stream_open s.trace uri with
          | some i =>
            obtain ⟨s3, t, hrun, htr3, hrep3, hcase⟩ :=
              key { decoder_lock env (emit (Event.opened true)
                      { s with plugin := some p, input := i }) with close_instream := true }
                [Event.opened true, Event.locked]
                (by simp [decoder_lock, emit])
                (by simp [replay, hopen, decoder_lock, emit]) rfl
            refine ⟨s3, t, ?_, htr3, hrep3, ?_⟩
            · simp only [try_file_plugins, hfd2, hsd, hci2, hopen]
              simpa [hci2] using hrun
            · simp only [local_run, hfd2, hsd, hci2, if_true, Bool.false_eq_true, if_false]
              rcases hcase with ⟨h1, h2⟩ | ⟨t2, h1, h2⟩
              · exact Or.inl ⟨by simpa using h1, h2⟩
              · exact Or.inr (Or.inl ⟨t2, by simpa using h1, h2⟩)
          | none =>
            obtain ⟨s3, t, hrun, htr3, hrep3, hloc⟩ :=
              ih (decoder_lock env (emit (Event.opened false) { s with plugin := some p }))
                (by simpa [decoder_lock, emit] using hs)
            refine ⟨s3, [Event.opened false, Event.locked] ++ t, ?_, ?_, ?_, ?_⟩
            · simp only [try_file_plugins, hfd2, hsd, hci2, hopen]
              simpa [hci2] using hrun
            · rw [htr3]; simp [decoder_lock, emit]
            · refine replay_trans env uri s.trace s.dc
                (decoder_lock env (emit (Event.opened false) { s with plugin := some p })).dc
                s3.dc [Event.opened false, Event.locked] t
                (by simp [replay, hopen, decoder_lock, emit]) ?_
              simpa [decoder_lock, emit] using hrep3
            · simp only [local_run, hfd2, hsd, hci2, if_true, Bool.false_eq_true, if_false]
              refine Or.inr (Or.inr ⟨t, rfl, ?_⟩)
              simpa [decoder_lock, emit, hci2] using hloc
      · have hsd2 : p.2.stream_decode = false := by simpa using hsd
        obtain ⟨s3, t, hrun, htr3, hrep3, hloc⟩ := ih { s with plugin := some p } hs
        refine ⟨s3, t, ?_, htr3, hrep3, ?_⟩
        · simp [try_file_plugins, hfd2, hsd2, hrun]
        · simp only [local_run, hfd2, hsd2, Bool.false_eq_true, if_false]
          exact hloc

/-- The end of `decoder_run_song`: the stream is closed if `close_instream`
says so, the lock is taken, and the state is set by `ret`. -/
theorem finish_song_replay (env : Env) (uri : String) (s : Session) :
    ∃ u d, (finish_song env s).trace = s.trace ++ u ∧
      (u = [Event.closed, Event.locked] ∨ u = [Event.locked]) ∧
      replay env uri s.trace s.dc u = some d ∧
      (finish_song env s).dc =
        { d with state := if s.ret = true then DecoderState.STOP else DecoderState.ERROR } := by
  by_cases hc : s.close_instream = true
  · refine ⟨[Event.closed, Event.locked],
      { s.dc with command := env.controller (s.trace ++ [Event.closed]) s.dc.command },
      ?_, Or.inl rfl, ?_, ?_⟩
    · simp [finish_song, hc, decoder_lock, input_stream_close, emit]
    · simp [replay]
    · simp [finish_song, hc, decoder_lock, input_stream_close, emit]
  · refine ⟨[Event.locked],
      { s.dc with command := env.controller s.trace s.dc.command },
      ?_, Or.inr rfl, ?_, ?_⟩
    · simp [finish_song, hc, decoder_lock, emit]
    · simp [replay]
    · simp [finish_song, hc, decoder_lock, emit]

/-- What `decoder_run_song` does from line 159 on is what the environment
does: every plugin call listed ran the plugin of the environment and
returned whether it left the state different from START; for a local file
the events of the loop are those of `local_run`. -/
theorem decode_with_plugins_exact (env : Env) (registry : List decoder_plugin)
    (song : Song) (uri : String) (s s1 : Session)
    (h : decode_with_plugins env registry song uri s = Except.ok s1) :
    ∃ t u d, s1.trace = s.trace ++ t ++ u ∧
      (u = [Event.closed, Event.locked] ∨ u = [Event.locked]) ∧
      replay env uri s.trace s.dc (t ++ u) = some d ∧
      s1.dc = { d with state := s1.dc.state } ∧
      (song.file = true → ∃ r,
        local_run s.close_instream
          (decoder_plugin_from_suffix registry (env.uri_get_suffix uri)) t r ∧
        s1.dc.state = if r = true then DecoderState.STOP else DecoderState.ERROR) := by
  have fin : ∀ (m : Session) (t : List Event), m.trace = s.trace ++ t →
      replay env uri s.trace s.dc t = some m.dc → s1 = finish_song env m →
      ∃ u d, s1.trace = s.trace ++ t ++ u ∧
        (u = [Event.closed, Event.locked] ∨ u = [Event.locked]) ∧
        replay env uri s.trace s.dc (t ++ u) = some d ∧
        s1.dc = { d with state := s1.dc.state } ∧
        s1.dc.state = if m.ret = true then DecoderState.STOP else DecoderState.ERROR := by
    intro m t hm hrep hs1
    obtain ⟨u, d, hu, hcase, hru, hdc⟩ := finish_song_replay env uri m
    subst hs1
    refine ⟨u, d, by rw [hu, hm], hcase, ?_, ?_, ?_⟩
    · refine replay_trans env uri s.trace s.dc m.dc d t u hrep ?_
      rw [hm] at hru
      exact hru
    · rw [hdc]
    · rw [hdc]
  unfold decode_with_plugins at h
  simp only at h
  cases hfile : song.file with
  | false =>
    simp only [hfile, if_true] at h
    cases hr : decode_stream_source env registry uri { s with ret := false } with
    | error e => simp [hr] at h
    | ok m =>
      simp only [hr, Except.ok.injEq] at h
      obtain ⟨t, ht, hrep⟩ := decode_stream_source_replay env registry uri _ m hr
      obtain ⟨u, d, h1, h2, h3, h4, -⟩ := fin m t ht hrep h.symm
      exact ⟨t, u, d, h1, h2, h3, h4, fun hh => by cases hh⟩
  | true =>
    simp only [hfile] at h
    obtain ⟨m, t, hrun, ht, hrep, hloc⟩ :=
      try_file_plugins_exact env uri
        (decoder_plugin_from_suffix registry (env.uri_get_suffix uri))
        { s with ret := false } rfl
    simp only [Bool.true_eq_false, if_false, hrun, Except.ok.injEq] at h
    obtain ⟨u, d, h1, h2, h3, h4, h5⟩ := fin m t ht hrep h.symm
    exact ⟨t, u, d, h1, h2, h3, h4, fun _ => ⟨m.ret, hloc, h5⟩⟩

/-- The whole session, when it reaches plugin selection and comes to an
end: from line 159 on it is what the environment does. -/
theorem decoder_run_song_exact (env : Env) (registry : List decoder_plugin) (fuel : Nat)
    (dc : decoder_control) (song : Song) (uri : String) (s s1 : Session)
    (hreach : open_and_wait env fuel dc uri = Except.ok (false, s))
    (h : decoder_run_song env registry fuel dc song uri = Except.ok s1) :
    ∃ t u d, s1.trace = s.trace ++ t ++ u ∧
      (u = [Event.closed, Event.locked] ∨ u = [Event.locked]) ∧
      replay env uri s.trace s.dc (t ++ u) = some d ∧
      s1.dc = { d with state := s1.dc.state } ∧
      (song.file = true → ∃ r,
        local_run true
          (decoder_plugin_from_suffix registry (env.uri_get_suffix uri)) t r ∧
        s1.dc.state = if r = true then DecoderState.STOP else DecoderState.ERROR) := by
  obtain ⟨-, -, -, -, hci, -⟩ := open_and_wait_reaches env fuel dc uri s hreach
  simp only [decoder_run_song, hreach] at h
  have := decode_with_plugins_exact env registry song uri s s1 h
  rw [hci] at this
  exact this

/-- C4 fails as stated: with a registry whose plugin "mad" has no
`stream_decode` function and a stream that matches nothing, the session
reaches plugin selection, no plugin accepts, and the session does not end in
state ERROR: the fallback calls through the null pointer and there is no
final state. -/
theorem C4_counterexample :
    open_and_wait env_decline 0 dc_idle "http://x/stream.mp3" =
      Except.ok (false, session_at_159) ∧
    ends (decoder_run_song env_decline registry_mad_no_stream 0 dc_idle song_http
      "http://x/stream.mp3") = false ∧
    state_by (decoder_run_song env_decline registry_mad_no_stream 0 dc_idle song_http
      "http://x/stream.mp3") = none :=
  ⟨rfl, by decide, by decide⟩

/-- C4, amended: take the plugin named "mad", if there is one, to have a
`stream_decode` function when the source is not a local file.  Then a
session that reaches plugin selection ends.  What it does from line 159 on
is what the environment does (`replay`): every plugin call listed in the
trace ran the plugin of the environment on the control block as it then
stood, and is listed with `true` exactly when the plugin left the state
different from START, that is, accepted.  Either no call accepted and the
final state is ERROR (so also when no plugin was called at all), or exactly
the last call accepted, so that no plugin was called after the first that
accepted, and the final state is STOP. -/
theorem C4_first_accept_ends_search (env : Env) (registry : List decoder_plugin)
    (fuel : Nat) (dc : decoder_control) (song : Song) (uri : String) (s : Session)
    (hreach : open_and_wait env fuel dc uri = Except.ok (false, s))
    (hmad : mad_streams registry song) :
    ∃ s1 t d, decoder_run_song env registry fuel dc song uri = Except.ok s1 ∧
      s1.trace = s.trace ++ t ∧ calls s1.trace = calls t ∧
      replay env uri s.trace s.dc t = some d ∧
      s1.dc = { d with state := s1.dc.state } ∧
      (((∀ e ∈ calls t, e.returned = false) ∧ s1.dc.state = DecoderState.ERROR) ∨
       (∃ c e, calls t = c ++ [e] ∧ (∀ x ∈ c, x.returned = false) ∧
          e.returned = true ∧ s1.dc.state = DecoderState.STOP)) := by
  obtain ⟨s1, t, hrun, htr, hcalls, -, h1, h2⟩ :=
    decoder_run_song_spec env registry fuel dc song uri s hreach hmad
  obtain ⟨t0, u, d, htr2, -, hrep, hdc, -⟩ :=
    decoder_run_song_exact env registry fuel dc song uri s s1 hreach hrun
  have ht : t = t0 ++ u := by
    have h3 : s.trace ++ t = s.trace ++ (t0 ++ u) := by
      rw [← htr, htr2, List.append_assoc]
    exact List.append_cancel_left h3
  refine ⟨s1, t, d, hrun, htr, hcalls, by rw [ht]; exact hrep, hdc, ?_⟩
  cases hfile : song.file with
  | false =>
    rcases h1 hfile with ⟨hst, hcs⟩ | ⟨hst, pre, p, post, -, hcs⟩
    · exact Or.inl ⟨by rw [hcs]; exact returned_declined _, hst⟩
    · exact Or.inr ⟨declined pre, Event.stream p.1 true, hcs, returned_declined _, rfl, hst⟩
  | true =>
    rcases h2 hfile with ⟨hst, hsub, -⟩ | ⟨hst, pre, e, post, c, hplan, hcs, hsub, -⟩
    · exact Or.inl ⟨fun e he => (returned_local_plan _ e (hsub.subset he)).1, hst⟩
    · refine Or.inr ⟨c, e.accept, hcs, fun x hx => ?_, ?_, hst⟩
      · exact (returned_local_plan _ x (by rw [hplan]; simp [hsub.subset hx])).1
      · exact (returned_local_plan _ e (by rw [hplan]; simp)).2

/-- C4, amended, on a stream source whose MIME type matches a plugin that
declines and whose suffix matches a plugin that accepts: two calls, the
second accepted, final state STOP. -/
theorem C4_first_accept_ends_search_witness :
    open_and_wait env_second_accepts 0 dc_idle "http://x/stream.mp3" =
      Except.ok (false, session_at_159) ∧
    mad_streams registry_three song_http ∧
    (∃ s1 t d, decoder_run_song env_second_accepts registry_three 0 dc_idle song_http
        "http://x/stream.mp3" = Except.ok s1 ∧
      s1.trace = session_at_159.trace ++ t ∧ calls s1.trace = calls t ∧
      replay env_second_accepts "http://x/stream.mp3" session_at_159.trace
        session_at_159.dc t = some d ∧
      s1.dc = { d with state := s1.dc.state } ∧
      (((∀ e ∈ calls t, e.returned = false) ∧ s1.dc.state = DecoderState.ERROR) ∨
       (∃ c e, calls t = c ++ [e] ∧ (∀ x ∈ c, x.returned = false) ∧
          e.returned = true ∧ s1.dc.state = DecoderState.STOP))) ∧
    calls_by (decoder_run_song env_second_accepts registry_three 0 dc_idle song_http
      "http://x/stream.mp3") = [Event.stream 0 false, Event.stream 1 true] ∧
    state_by (decoder_run_song env_second_accepts registry_three 0 dc_idle song_http
      "http://x/stream.mp3") = some DecoderState.STOP :=
  ⟨reach_second_accepts, mad_streams_three,
   C4_first_accept_ends_search env_second_accepts registry_three 0 dc_idle song_http
     "http://x/stream.mp3" session_at_159 reach_second_accepts mad_streams_three,
   by decide, by decide⟩

/-- The branch for a source that is not a local file, and the end of the
session after it: the events from line 159 on are the calls of the search
followed by the closing of the stream, and they are what the environment
does. -/
theorem decode_stream_branch_exact (env : Env) (registry : List decoder_plugin)
    (song : Song) (uri : String) (s : Session) (hfile : song.file = false)
    (hmad : ∀ p, decoder_plugin_from_name registry "mad" = some p →
      p.2.stream_decode = true) :
    ∃ s1 tc u d, decode_with_plugins env registry song uri s = Except.ok s1 ∧
      s1.trace = s.trace ++ tc ++ u ∧
      (u = [Event.closed, Event.locked] ∨ u = [Event.locked]) ∧
      replay env uri s.trace s.dc (tc ++ u) = some d ∧
      s1.dc = { d with state := s1.dc.state } ∧
      stream_search (stream_candidates env registry s.input.mime uri) tc s1.dc.state := by
  obtain ⟨m, hrun, -, -, -, hc⟩ :=
    decode_stream_source_spec env registry uri { s with ret := false } rfl hmad
  obtain ⟨t, ht, hrep⟩ := decode_stream_source_replay env registry uri _ m hrun
  obtain ⟨u, d, hu, hcase, hru, hdc⟩ := finish_song_replay env uri m
  have hrun2 : decode_with_plugins env registry song uri s = Except.ok (finish_song env m) := by
    simp [decode_with_plugins, hfile, hrun]
  have hrep2 : replay env uri s.trace s.dc (t ++ u) = some d := by
    refine replay_trans env uri s.trace s.dc m.dc d t u hrep ?_
    rw [ht] at hru
    exact hru
  have hsearch : stream_search (stream_candidates env registry s.input.mime uri) t
      (finish_song env m).dc.state := by
    rw [hdc]
    rcases hc with ⟨hr, htr⟩ | ⟨hr, pre, p, post, hsplit, htr⟩
    · refine Or.inl ⟨by simp [hr], ?_⟩
      have h3 : s.trace ++ t =
          s.trace ++ declined (stream_candidates env registry s.input.mime uri) := by
        rw [← htr]; exact ht.symm
      exact List.append_cancel_left h3
    · refine Or.inr ⟨by simp [hr], pre, p, post, hsplit, ?_⟩
      have h3 : s.trace ++ t = s.trace ++ (declined pre ++ [Event.stream p.1 true]) := by
        rw [← List.append_assoc, ← htr]; exact ht.symm
      exact List.append_cancel_left h3
  refine ⟨finish_song env m, t, u, d, hrun2, by rw [hu, ht], hcase, hrep2, ?_, hsearch⟩
  rw [hdc]

/-- C5 fails as stated: with no MIME type, no suffix and a registry whose
plugin "mad" has no `stream_decode` function, the named default plugin is
registered, nothing else matches, and the session neither ends in STOP nor
in ERROR: the fallback calls through the null pointer and there is no final
state. -/
theorem C5_counterexample :
    open_and_wait env_bare_accept 0 dc_idle "http://x/stream.mp3" =
      Except.ok (false, session_bare_at_159) ∧
    decoder_plugin_from_mime_type registry_mad_no_stream session_bare_at_159.input.mime = [] ∧
    decoder_plugin_from_suffix registry_mad_no_stream
      (env_bare_accept.uri_get_suffix "http://x/stream.mp3") = [] ∧
    (decoder_plugin_from_name registry_mad_no_stream "mad").isSome = true ∧
    state_by (decoder_run_song env_bare_accept registry_mad_no_stream 0 dc_idle song_http
      "http://x/stream.mp3") = none :=
  ⟨rfl, by decide, by decide, by decide, by decide⟩

/-- C5, amended: take the plugin named "mad", if there is one, to have a
`stream_decode` function.  For a source that is not a local file, a session
that reaches plugin selection ends, and from line 159 on its events are the
calls of `decoder_stream_decode` followed by the closing of the stream.  The
calls go to the candidates in this order: the stream-capable plugins
matching the MIME type of the input, then the stream-capable plugins
matching the suffix of the URI, then the plugin named "mad".  Each call ran
the plugin of the environment on the control block as it then stood and is
listed with `true` exactly when the plugin left the state different from
START (`replay`).  Either all candidates are called, all decline and the
final state is ERROR, or the calls stop at the first candidate that accepts
and the final state is STOP.  In particular, when nothing matches the MIME
type or the suffix, the plugin named "mad" is called exactly once, on the
control block of line 159, and the final state is STOP if it leaves the
state different from START and ERROR if it leaves it START. -/
theorem C5_stream_source_order (env : Env) (registry : List decoder_plugin)
    (fuel : Nat) (dc : decoder_control) (song : Song) (uri : String) (s : Session)
    (hreach : open_and_wait env fuel dc uri = Except.ok (false, s))
    (hfile : song.file = false)
    (hmad : mad_streams registry song) :
    ∃ s1 u d, decoder_run_song env registry fuel dc song uri = Except.ok s1 ∧
      s1.trace = s.trace ++ calls s1.trace ++ u ∧
      (u = [Event.closed, Event.locked] ∨ u = [Event.locked]) ∧
      replay env uri s.trace s.dc (calls s1.trace ++ u) = some d ∧
      s1.dc = { d with state := s1.dc.state } ∧
      ((calls s1.trace = declined (stream_candidates env registry s.input.mime uri) ∧
          s1.dc.state = DecoderState.ERROR) ∨
       (∃ pre p post, stream_candidates env registry s.input.mime uri = pre ++ p :: post ∧
          calls s1.trace = declined pre ++ [Event.stream p.1 true] ∧
          s1.dc.state = DecoderState.STOP)) ∧
      (decoder_plugin_from_mime_type registry s.input.mime = [] →
       decoder_plugin_from_suffix registry (env.uri_get_suffix uri) = [] →
       ∀ p, decoder_plugin_from_name registry "mad" = some p →
        calls s1.trace =
          [Event.stream p.1
            (decide ((env.stream_decode s.trace p.1 s.dc).state ≠ DecoderState.START))] ∧
        s1.dc.state =
          (if (env.stream_decode s.trace p.1 s.dc).state ≠ DecoderState.START
           then DecoderState.STOP else DecoderState.ERROR)) := by
  obtain ⟨-, hc0, -, -, -, -⟩ := open_and_wait_reaches env fuel dc uri s hreach
  obtain ⟨s1, tc, u, d, hrun, htr, hu, hrep, hdc, hsearch⟩ :=
    decode_stream_branch_exact env registry song uri s hfile (hmad hfile)
  have hcu : calls u = [] := by
    rcases hu with rfl | rfl <;> simp [calls, Event.is_call]
  have hctc : calls tc = tc := by
    rcases hsearch with ⟨-, h⟩ | ⟨-, pre, p, post, -, h⟩
    · rw [h, calls_declined]
    · rw [h, calls_append, calls_declined]
      simp [calls, Event.is_call]
  have hcalls : calls s1.trace = tc := by
    rw [htr, calls_append, calls_append, hc0, hcu, hctc]
    simp
  have hrun2 : decoder_run_song env registry fuel dc song uri = Except.ok s1 := by
    simp [decoder_run_song, hreach, hrun]
  refine ⟨s1, u, d, hrun2, by rw [hcalls]; exact htr, hu, by rw [hcalls]; exact hrep, hdc, ?_, ?_⟩
  · rw [hcalls]
    rcases hsearch with ⟨hst, h⟩ | ⟨hst, pre, p, post, hsplit, h⟩
    · exact Or.inl ⟨h, hst⟩
    · exact Or.inr ⟨pre, p, post, hsplit, h, hst⟩
  · intro hm hx p hp
    have hcand : stream_candidates env registry s.input.mime uri = [p] := by
      simp [stream_candidates, hm, hx, hp, stream_capable]
    rw [hcand] at hsearch
    rw [hcalls]
    -- the one call, with the value it is listed with
    have one : ∀ b : Bool, tc = [Event.stream p.1 b] →
        b = decide ((env.stream_decode s.trace p.1 s.dc).state ≠ DecoderState.START) := by
      intro b hb
      rw [hb] at hrep
      simp only [List.singleton_append, replay] at hrep
      by_contra hne
      rw [if_neg hne] at hrep
      cases hrep
    rcases hsearch with ⟨hst, h⟩ | ⟨hst, pre, q, post, hsplit, h⟩
    · have hb := one false (by simpa [declined] using h)
      have hstart : (env.stream_decode s.trace p.1 s.dc).state = DecoderState.START := by
        by_contra hne
        simp [hne] at hb
      refine ⟨by rw [h]; simp [declined, hstart], ?_⟩
      rw [hst]; simp [hstart]
    · cases pre with
      | nil =>
        simp only [List.nil_append, List.cons.injEq] at hsplit
        obtain ⟨rfl, -⟩ := hsplit
        have hb := one true (by simpa [declined] using h)
        have hne : (env.stream_decode s.trace p.1 s.dc).state ≠ DecoderState.START := by
          intro heq
          simp [heq] at hb
        refine ⟨by rw [h]; simp [declined, hne], ?_⟩
        rw [hst]; simp [hne]
      | cons a pre1 => simp at hsplit

/-- C5, amended, on the scenario of the spec: no MIME type, no suffix, and
the plugin named "mad" accepts: one call, final state STOP; and when it
declines: one call, final state ERROR. -/
theorem C5_stream_source_order_witness :
    open_and_wait env_bare_accept 0 dc_idle "http://x/stream.mp3" =
      Except.ok (false, session_bare_at_159) ∧
    song_http.file = false ∧ mad_streams registry_three song_http ∧
    (∃ s1 u d, decoder_run_song env_bare_accept registry_three 0 dc_idle song_http
        "http://x/stream.mp3" = Except.ok s1 ∧
      s1.trace = session_bare_at_159.trace ++ calls s1.trace ++ u ∧
      (u = [Event.closed, Event.locked] ∨ u = [Event.locked]) ∧
      replay env_bare_accept "http://x/stream.mp3" session_bare_at_159.trace
        session_bare_at_159.dc (calls s1.trace ++ u) = some d ∧
      s1.dc = { d with state := s1.dc.state } ∧
      ((calls s1.trace = declined (stream_candidates env_bare_accept registry_three
            session_bare_at_159.input.mime "http://x/stream.mp3") ∧
          s1.dc.state = DecoderState.ERROR) ∨
       (∃ pre p post, stream_candidates env_bare_accept registry_three
            session_bare_at_159.input.mime "http://x/stream.mp3" = pre ++ p :: post ∧
          calls s1.trace = declined pre ++ [Event.stream p.1 true] ∧
          s1.dc.state = DecoderState.STOP)) ∧
      (decoder_plugin_from_mime_type registry_three session_bare_at_159.input.mime = [] →
       decoder_plugin_from_suffix registry_three
          (env_bare_accept.uri_get_suffix "http://x/stream.mp3") = [] →
       ∀ p, decoder_plugin_from_name registry_three "mad" = some p →
        calls s1.trace =
          [Event.stream p.1
            (decide ((env_bare_accept.stream_decode session_bare_at_159.trace p.1
              session_bare_at_159.dc).state ≠ DecoderState.START))] ∧
        s1.dc.state =
          (if (env_bare_accept.stream_decode session_bare_at_159.trace p.1
              session_bare_at_159.dc).state ≠ DecoderState.START
           then DecoderState.STOP else DecoderState.ERROR))) ∧
    calls_by (decoder_run_song env_bare_accept registry_three 0 dc_idle song_http
      "http://x/stream.mp3") = [Event.stream 2 true] ∧
    state_by (decoder_run_song env_bare_accept registry_three 0 dc_idle song_http
      "http://x/stream.mp3") = some DecoderState.STOP ∧
    calls_by (decoder_run_song env_bare_decline registry_three 0 dc_idle song_http
      "http://x/stream.mp3") = [Event.stream 2 false] ∧
    state_by (decoder_run_song env_bare_decline registry_three 0 dc_idle song_http
      "http://x/stream.mp3") = some DecoderState.ERROR :=
  ⟨reach_bare_accept, rfl, mad_streams_three,
   C5_stream_source_order env_bare_accept registry_three 0 dc_idle song_http
     "http://x/stream.mp3" session_bare_at_159 reach_bare_accept rfl mad_streams_three,
   by decide, by decide, by decide, by decide⟩

/-- C8, amended: for a local file, a session that reaches plugin selection
ends, and from line 159 on its events are those of `local_run` over the
plugins matching the suffix, in registry order, followed by the end of the
session: a plugin with `file_decode` has the stream closed and its file
decode called; else a plugin with `stream_decode` has its stream decode
called, after a reopening of the input stream if it is closed, and is passed
over when that reopening fails; a plugin with neither is passed over; the
first call that accepts ends the loop with final state STOP, and the final
state is ERROR if none does.  The events are what the environment does
(`replay`): a reopening is listed as failed exactly when
`input_stream_open` fails, and a call is listed with `true` exactly when the
plugin left the state different from START.  So the calls are calls of the
plan in order, none left out unless a reopening failed, and only plugins
matching the suffix are called. -/
theorem C8_local_file_order (env : Env) (registry : List decoder_plugin)
    (fuel : Nat) (dc : decoder_control) (song : Song) (uri : String) (s : Session)
    (hreach : open_and_wait env fuel dc uri = Except.ok (false, s))
    (hfile : song.file = true) :
    ∃ s1 t u d r, decoder_run_song env registry fuel dc song uri = Except.ok s1 ∧
      s1.trace = s.trace ++ t ++ u ∧
      (u = [Event.closed, Event.locked] ∨ u = [Event.locked]) ∧
      local_run true (decoder_plugin_from_suffix registry (env.uri_get_suffix uri)) t r ∧
      s1.dc.state = (if r = true then DecoderState.STOP else DecoderState.ERROR) ∧
      replay env uri s.trace s.dc (t ++ u) = some d ∧
      s1.dc = { d with state := s1.dc.state } ∧
      calls s1.trace = calls t ∧
      ((s1.dc.state = DecoderState.ERROR ∧
        (calls t).Sublist
          (local_plan (decoder_plugin_from_suffix registry (env.uri_get_suffix uri))) ∧
        (Event.opened false ∉ t → calls t =
          local_plan (decoder_plugin_from_suffix registry (env.uri_get_suffix uri)))) ∨
       (s1.dc.state = DecoderState.STOP ∧ ∃ pre e post c,
        local_plan (decoder_plugin_from_suffix registry (env.uri_get_suffix uri)) =
          pre ++ e :: post ∧
        calls t = c ++ [e.accept] ∧ c.Sublist pre ∧ (Event.opened false ∉ t → c = pre))) ∧
      ∀ i ∈ invoked s1.trace,
        ∃ p ∈ decoder_plugin_from_suffix registry (env.uri_get_suffix uri), p.1 = i := by
  have hmad : mad_streams registry song := by
    intro h
    rw [hfile] at h
    cases h
  obtain ⟨s1, t1, hrun, htr, hcalls, -, -, h2⟩ :=
    decoder_run_song_spec env registry fuel dc song uri s hreach hmad
  obtain ⟨t, u, d, htr2, hu, hrep, hdc, hloc⟩ :=
    decoder_run_song_exact env registry fuel dc song uri s s1 hreach hrun
  obtain ⟨r, hrun_loc, hst⟩ := hloc hfile
  have ht1 : t1 = t ++ u := by
    have h3 : s.trace ++ t1 = s.trace ++ (t ++ u) := by
      rw [← htr, htr2, List.append_assoc]
    exact List.append_cancel_left h3
  have hcu : calls u = [] := by
    rcases hu with rfl | rfl <;> simp [calls, Event.is_call]
  have hct : calls t1 = calls t := by
    rw [ht1, calls_append, hcu]; simp
  have hno : Event.opened false ∉ t → Event.opened false ∉ t1 := by
    intro h hm
    rw [ht1] at hm
    rcases List.mem_append.mp hm with h4 | h4
    · exact h h4
    · rcases hu with rfl | rfl <;> simp at h4
  have hsearch : (s1.dc.state = DecoderState.ERROR ∧
        (calls t).Sublist
          (local_plan (decoder_plugin_from_suffix registry (env.uri_get_suffix uri))) ∧
        (Event.opened false ∉ t → calls t =
          local_plan (decoder_plugin_from_suffix registry (env.uri_get_suffix uri)))) ∨
       (s1.dc.state = DecoderState.STOP ∧ ∃ pre e post c,
        local_plan (decoder_plugin_from_suffix registry (env.uri_get_suffix uri)) =
          pre ++ e :: post ∧
        calls t = c ++ [e.accept] ∧ c.Sublist pre ∧ (Event.opened false ∉ t → c = pre)) := by
    rw [← hct]
    rcases h2 hfile with ⟨a1, a2, a3⟩ | ⟨a1, pre, e, post, c, a2, a3, a4, a5⟩
    · exact Or.inl ⟨a1, a2, fun h => a3 (hno h)⟩
    · exact Or.inr ⟨a1, pre, e, post, c, a2, a3, a4, fun h => a5 (hno h)⟩
  refine ⟨s1, t, u, d, r, hrun, htr2, hu, hrun_loc, hst, hrep, hdc, by rw [hcalls, hct],
    hsearch, ?_⟩
  have hsub : (invoked s1.trace).Sublist
      ((decoder_plugin_from_suffix registry (env.uri_get_suffix uri)).map Prod.fst) := by
    refine List.Sublist.trans ?_ (invoked_local_plan _)
    rw [← invoked_calls, hcalls, hct]
    rcases hsearch with ⟨-, hs, -⟩ | ⟨-, pre, e, post, c, hplan, hcs, hs, -⟩
    · exact hs.filterMap _
    · have hsame : invoked (c ++ [e.accept]) = invoked (c ++ [e]) := by
        rw [invoked_append, invoked_append]
        congr 1
        simp only [invoked, List.filterMap_cons, slot_accept]
      have hsub2 : (c ++ [e]).Sublist (pre ++ e :: post) :=
        hs.append ((List.Sublist.refl [e]).trans (by simp))
      rw [hcs, hsame, hplan]
      exact hsub2.filterMap _
  intro i hi
  have := hsub.subset hi
  simp only [List.mem_map] at this
  obtain ⟨p, hp, rfl⟩ := this
  exact ⟨p, hp, rfl⟩

/-- C8, amended, on a local file whose suffix has a file plugin, a stream
plugin and another file plugin, all declining, the input stream not opening
a second time: the stream plugin is passed over and the second file plugin
is called all the same. -/
theorem C8_local_file_order_witness :
    open_and_wait env_no_reopen 0 dc_idle "/music/track.mp3" =
      Except.ok (false, session_at_159) ∧
    song_file.file = true ∧
    (∃ s1 t u d r, decoder_run_song env_no_reopen registry_file_stream_file 0 dc_idle
        song_file "/music/track.mp3" = Except.ok s1 ∧
      s1.trace = session_at_159.trace ++ t ++ u ∧
      (u = [Event.closed, Event.locked] ∨ u = [Event.locked]) ∧
      local_run true (decoder_plugin_from_suffix registry_file_stream_file
        (env_no_reopen.uri_get_suffix "/music/track.mp3")) t r ∧
      s1.dc.state = (if r = true then DecoderState.STOP else DecoderState.ERROR) ∧
      replay env_no_reopen "/music/track.mp3" session_at_159.trace session_at_159.dc
        (t ++ u) = some d ∧
      s1.dc = { d with state := s1.dc.state } ∧
      calls s1.trace = calls t ∧
      ((s1.dc.state = DecoderState.ERROR ∧
        (calls t).Sublist
          (local_plan (decoder_plugin_from_suffix registry_file_stream_file
            (env_no_reopen.uri_get_suffix "/music/track.mp3"))) ∧
        (Event.opened false ∉ t → calls t =
          local_plan (decoder_plugin_from_suffix registry_file_stream_file
            (env_no_reopen.uri_get_suffix "/music/track.mp3")))) ∨
       (s1.dc.state = DecoderState.STOP ∧ ∃ pre e post c,
        local_plan (decoder_plugin_from_suffix registry_file_stream_file
            (env_no_reopen.uri_get_suffix "/music/track.mp3")) =
          pre ++ e :: post ∧
        calls t = c ++ [e.accept] ∧ c.Sublist pre ∧ (Event.opened false ∉ t → c = pre))) ∧
      ∀ i ∈ invoked s1.trace,
        ∃ p ∈ decoder_plugin_from_suffix registry_file_stream_file
          (env_no_reopen.uri_get_suffix "/music/track.mp3"), p.1 = i) ∧
    trace_by (decoder_run_song env_no_reopen registry_file_stream_file 0 dc_idle song_file
      "/music/track.mp3") =
      [Event.opened true, Event.locked,
       Event.closed, Event.locked, Event.file 0 false,
       Event.opened false, Event.locked,
       Event.closed, Event.locked, Event.file 2 false,
       Event.locked] ∧
    state_by (decoder_run_song env_no_reopen registry_file_stream_file 0 dc_idle song_file
      "/music/track.mp3") = some DecoderState.ERROR :=
  ⟨reach_no_reopen, rfl,
   C8_local_file_order env_no_reopen registry_file_stream_file 0 dc_idle song_file
     "/music/track.mp3" session_at_159 reach_no_reopen rfl,
   by decide, by decide⟩

/-- The events of `local_run` leave no plugin out: on the registry of a file
plugin, a stream plugin and another file plugin, a loop that stops after the
failed reopening, without the call of the second file plugin, is not a run
of the loop. -/
theorem local_run_not_short :
    ¬ local_run true
        (decoder_plugin_from_suffix registry_file_stream_file (some "mp3"))
        [Event.closed, Event.locked, Event.file 0 false, Event.opened false, Event.locked]
        false := by
  simp [local_run, decoder_plugin_from_suffix, registry_file_stream_file, List.enum,
    List.enumFrom]

end Mpd
